import Mathlib

/-!
sdl2_tetris: the game-state engine of `tetris.c` and `tetris.cpp`.

A shallow embedding of the engine (grid, active piece, collision checks,
moves, locking and line elimination) and theorems about it.

Modelling conventions.

* C `int` values are mathematical integers (`Int`): the engine only adds or
  subtracts 1 and table offsets of at most 2, on coordinates that stay within
  a few cells of the grid, far from the range where C arithmetic overflows.
  Loop counters that the source keeps inside `0 .. 31` are natural numbers.
* The grid `data[TETRIS_ALL_HEIGHT][TETRIS_WIDTH]` is a function from a row and
  a column to a cell state.  Only the cells with row `< 32` and column `< 16`
  exist in the program; the functions below never read or write any other.
* An access `data[r][c]` whose row or column lies outside the array, and a
  lookup outside `blockShapeMap`, is undefined behaviour; a function that
  makes such an access returns `none`.
* `rand()` is modelled by passing the two drawn values as arguments.
* The loop of `eliminate_lines` has no static bound, so it takes its number of
  allowed iterations (`fuel`) as an argument and returns `none` when it runs
  out; by `eliminate_loop_mono` a result does not depend on the fuel.
* `gameOver` (an `int` used as a flag in C, a `bool` in C++) is a `Bool`.
* The SDL window and renderer handles play no part in the engine and are left out.
-/

namespace Tetris

/-! ## Constants and data model -/

def TETRIS_WIDTH : Nat := 16
def TETRIS_HEIGHT : Nat := 28
def TETRIS_EXTRA_HEIGHT : Nat := 4
def TETRIS_ALL_HEIGHT : Nat := TETRIS_HEIGHT + TETRIS_EXTRA_HEIGHT

/-- Cell states, in the order of the C enumeration `BLOCK_I .. BLOCK_EMPTY`
(`I .. Empty` in C++). -/
inductive Block where
  | I | O | T | S | Z | J | L | Empty
  deriving DecidableEq, Repr

/-- Numeric value of an enumerator. -/
def Block.index : Block → Nat
  | .I => 0 | .O => 1 | .T => 2 | .S => 3 | .Z => 4 | .J => 5 | .L => 6 | .Empty => 7

/-- The enumerator with a given numeric value (values above 7 do not occur:
the engine only converts `rand() % 7`). -/
def Block.ofIndex : Nat → Block
  | 0 => .I | 1 => .O | 2 => .T | 3 => .S | 4 => .Z | 5 => .J | 6 => .L | _ => .Empty

structure Pos where
  row : Int
  col : Int
  deriving DecidableEq, Repr

/-- The array `data` of the context: `g.cell r c` is `data[r][c]`. -/
@[ext]
structure Grid where
  cell : Nat → Nat → Block

/-- The engine fields of `TetrisContext`. -/
structure TetrisContext where
  data : Grid
  currentBlock : Block
  currentBlockPos : Pos
  currentBlockRotateTimes : Int
  gameOver : Bool

/-- The table `blockShapeMap[7][4][4]`. -/
def blockShapeMap : List (List (List Pos)) :=
  [ -- block I
    [ [⟨0, 0⟩, ⟨0, -1⟩, ⟨0, 1⟩, ⟨0, 2⟩],
      [⟨0, 0⟩, ⟨-1, 0⟩, ⟨1, 0⟩, ⟨2, 0⟩],
      [⟨0, 0⟩, ⟨0, 1⟩, ⟨0, -1⟩, ⟨0, -2⟩],
      [⟨0, 0⟩, ⟨1, 0⟩, ⟨-1, 0⟩, ⟨-2, 0⟩] ],
    -- block O
    [ [⟨0, 0⟩, ⟨0, 1⟩, ⟨1, 0⟩, ⟨1, 1⟩],
      [⟨0, 0⟩, ⟨0, 1⟩, ⟨1, 0⟩, ⟨1, 1⟩],
      [⟨0, 0⟩, ⟨0, 1⟩, ⟨1, 0⟩, ⟨1, 1⟩],
      [⟨0, 0⟩, ⟨0, 1⟩, ⟨1, 0⟩, ⟨1, 1⟩] ],
    -- block T
    [ [⟨0, 0⟩, ⟨0, -1⟩, ⟨0, 1⟩, ⟨1, 0⟩],
      [⟨0, 0⟩, ⟨-1, 0⟩, ⟨1, 0⟩, ⟨0, -1⟩],
      [⟨0, 0⟩, ⟨0, 1⟩, ⟨0, -1⟩, ⟨-1, 0⟩],
      [⟨0, 0⟩, ⟨1, 0⟩, ⟨-1, 0⟩, ⟨0, 1⟩] ],
    -- block S
    [ [⟨-1, -1⟩, ⟨0, -1⟩, ⟨0, 0⟩, ⟨1, 0⟩],
      [⟨-1, 1⟩, ⟨-1, 0⟩, ⟨0, 0⟩, ⟨0, -1⟩],
      [⟨1, 1⟩, ⟨0, 1⟩, ⟨0, 0⟩, ⟨-1, 0⟩],
      [⟨1, -1⟩, ⟨1, 0⟩, ⟨0, 0⟩, ⟨0, 1⟩] ],
    -- block Z
    [ [⟨-1, 0⟩, ⟨0, 0⟩, ⟨0, -1⟩, ⟨1, -1⟩],
      [⟨0, 1⟩, ⟨0, 0⟩, ⟨-1, 0⟩, ⟨-1, -1⟩],
      [⟨1, 0⟩, ⟨0, 0⟩, ⟨0, 1⟩, ⟨-1, 1⟩],
      [⟨0, -1⟩, ⟨0, 0⟩, ⟨1, 0⟩, ⟨1, 1⟩] ],
    -- block J
    [ [⟨0, 0⟩, ⟨-1, 0⟩, ⟨-2, 0⟩, ⟨0, -1⟩],
      [⟨0, 0⟩, ⟨0, 1⟩, ⟨0, 2⟩, ⟨-1, 0⟩],
      [⟨0, 0⟩, ⟨1, 0⟩, ⟨2, 0⟩, ⟨0, 1⟩],
      [⟨0, 0⟩, ⟨0, -1⟩, ⟨0, -2⟩, ⟨1, 0⟩] ],
    -- block L
    [ [⟨0, 0⟩, ⟨-1, 0⟩, ⟨-2, 0⟩, ⟨0, 1⟩],
      [⟨0, 0⟩, ⟨0, 1⟩, ⟨0, 2⟩, ⟨1, 0⟩],
      [⟨0, 0⟩, ⟨1, 0⟩, ⟨2, 0⟩, ⟨0, -1⟩],
      [⟨0, 0⟩, ⟨0, -1⟩, ⟨0, -2⟩, ⟨-1, 0⟩] ] ]

/-- The row `blockShapeMap[block][rotateTimes]`; `none` when an index is
outside the table (kind `Empty`, or a rotation index outside `0 .. 3`). -/
def shapeOf (block : Block) (rotateTimes : Int) : Option (List Pos) :=
  if rotateTimes < 0 then none
  else
    match blockShapeMap.get? block.index with
    | none => none
    | some rots => rots.get? rotateTimes.toNat

/-! ## Grid access -/

/-- Read `data[r][c]`; `none` outside the array. -/
def data_get (g : Grid) (r c : Int) : Option Block :=
  if 0 ≤ r ∧ r < TETRIS_ALL_HEIGHT ∧ 0 ≤ c ∧ c < TETRIS_WIDTH then
    some (g.cell r.toNat c.toNat)
  else none

/-- The grid after the store `data[r][c] = b`, for in-range natural indices. -/
def setCell (g : Grid) (r c : Nat) (b : Block) : Grid :=
  ⟨fun r' c' => if r' = r ∧ c' = c then b else g.cell r' c'⟩

/-- Store `data[r][c] = b`; `none` outside the array. -/
def data_set (g : Grid) (r c : Int) (b : Block) : Option Grid :=
  if 0 ≤ r ∧ r < TETRIS_ALL_HEIGHT ∧ 0 ≤ c ∧ c < TETRIS_WIDTH then
    some (setCell g r.toNat c.toNat b)
  else none

/-! ## Row predicates (`macro_check_line_if`) -/

/-- `check_row_is_full`: every cell of the row differs from `Empty`. -/
def check_row_is_full (g : Grid) (row : Nat) : Bool :=
  (List.range TETRIS_WIDTH).all (fun c => decide (g.cell row c ≠ Block.Empty))

/-- `check_row_is_empty`: every cell of the row is `Empty`. -/
def check_row_is_empty (g : Grid) (row : Nat) : Bool :=
  (List.range TETRIS_WIDTH).all (fun c => decide (g.cell row c = Block.Empty))

/-! ## Line elimination -/

/-- `find_the_bottom_empty_line`: start at the middle row; if it is empty keep
the last empty row met going down to the bottom, otherwise keep the last
empty row met going up to row `TETRIS_EXTRA_HEIGHT`. -/
def find_the_bottom_empty_line (g : Grid) : Nat :=
  let bottomEmptyLine := TETRIS_ALL_HEIGHT / 2
  if check_row_is_empty g bottomEmptyLine then
    (List.range' (bottomEmptyLine + 1) (TETRIS_ALL_HEIGHT - (bottomEmptyLine + 1))).foldl
      (fun b r => if check_row_is_empty g r then r else b) bottomEmptyLine
  else
    ((List.range' TETRIS_EXTRA_HEIGHT (bottomEmptyLine - TETRIS_EXTRA_HEIGHT)).reverse).foldl
      (fun b r => if check_row_is_empty g r then r else b) bottomEmptyLine

/-- The inner copy loop `for c: data[toRow][c] = data[fromRow][c]`
(`copy_row_to_row` in C++). -/
def copy_row_to_row (g : Grid) (fromRow toRow : Nat) : Grid :=
  (List.range TETRIS_WIDTH).foldl (fun g c => setCell g toRow c (g.cell fromRow c)) g

/-- The scroll loop `for (rr = r - 1; rr >= bottomEmptyLine; --rr)` copying
row `rr` to row `rr + 1`. -/
def scroll_down (g : Grid) (bottomEmptyLine r : Nat) : Grid :=
  ((List.range' bottomEmptyLine (r - bottomEmptyLine)).reverse).foldl
    (fun g rr => copy_row_to_row g rr (rr + 1)) g

/-- The outer loop of `eliminate_lines`, from the current `r` and grid.
Each evaluation of the loop body uses one unit of `fuel`. -/
def eliminate_loop (bottomEmptyLine : Nat) : Nat → Nat → Grid → Option Grid
  | fuel, r, g =>
    if r > bottomEmptyLine then
      match fuel with
      | 0 => none
      | fuel + 1 =>
        if check_row_is_full g r then
          eliminate_loop bottomEmptyLine fuel r (scroll_down g bottomEmptyLine r)
        else
          eliminate_loop bottomEmptyLine fuel (r - 1) g
    else some g

/-- `eliminate_lines` on the grid. -/
def eliminate_lines (fuel : Nat) (g : Grid) : Option Grid :=
  eliminate_loop (find_the_bottom_empty_line g) fuel (TETRIS_ALL_HEIGHT - 1) g

/-! ## Rows as lists (used to state what elimination computes) -/

/-- The 16 cells of row `r`, left to right. -/
def rowOf (g : Grid) (r : Nat) : List Block :=
  (List.range TETRIS_WIDTH).map (g.cell r)

/-- The 32 rows of the grid, top to bottom. -/
def rowsOf (g : Grid) : List (List Block) :=
  (List.range TETRIS_ALL_HEIGHT).map (rowOf g)

/-- A row of 16 `Empty` cells. -/
def emptyRow : List Block := List.replicate TETRIS_WIDTH Block.Empty

/-- A row, as a list of cells, without an `Empty` cell. -/
def isFullRow (row : List Block) : Bool := row.all (fun b => decide (b ≠ Block.Empty))

/-- Rows `lo .. lo + n - 1` of the grid, top to bottom. -/
def rowSegment (g : Grid) (lo n : Nat) : List (List Block) :=
  (List.range' lo n).map (rowOf g)

/-- Number of rows of the grid that `check_row_is_full` reports full. -/
def fullRowCount (g : Grid) : Nat :=
  ((List.range TETRIS_ALL_HEIGHT).filter (fun r => check_row_is_full g r)).length

/-- The rows that are not full, in their original order. -/
def survivingRows (g : Grid) : List (List Block) :=
  ((List.range TETRIS_ALL_HEIGHT).filter (fun r => !check_row_is_full g r)).map (rowOf g)

/-- Compaction of the stack: as many `Empty` rows as there are full rows,
followed by the rows that are not full. -/
def compactedRows (g : Grid) : List (List Block) :=
  List.replicate (fullRowCount g) emptyRow ++ survivingRows g

/-- Number of non-Empty cells of the grid. -/
def nonEmptyCount (g : Grid) : Nat :=
  ((List.range TETRIS_ALL_HEIGHT).map
    (fun r => ((List.range TETRIS_WIDTH).filter
      (fun c => decide (g.cell r c ≠ Block.Empty))).length)).sum

/-- A settled stack with two full rows that are not adjacent (rows 29 and 31),
two partial rows (28 and 30) and rows `0 .. 27` Empty. -/
def settledExample : Grid :=
  ⟨fun r c =>
    if r = 31 ∨ r = 29 then Block.I
    else if r = 30 ∧ c = 2 then Block.T
    else if r = 28 ∧ c < 5 then Block.O
    else Block.Empty⟩

/-- A grid with one full row (row 31) lying under an Empty row, and a block
higher up at row 29, column 0. -/
def floatingExample : Grid :=
  ⟨fun r c =>
    if r = 31 then Block.I
    else if r = 29 ∧ c = 0 then Block.O
    else Block.Empty⟩

/-- A settled stack with one full row (row 31) under a partial row (row 30). -/
def oneFullRowExample : Grid :=
  ⟨fun r c =>
    if r = 31 then Block.L
    else if r = 30 ∧ 3 ≤ c ∧ c < 6 then Block.S
    else Block.Empty⟩

/-- A grid without a full row: one block in the bottom row. -/
def oneBlockExample : Grid :=
  ⟨fun r c => if r = 31 ∧ c = 7 then Block.Z else Block.Empty⟩

/-! ## Spawn and reset -/

/-- `gen_random_block`; `rand1` and `rand2` are the values returned by the two
calls of `rand()`. -/
def gen_random_block (rand1 rand2 : Nat) (context : TetrisContext) : TetrisContext :=
  { context with
    currentBlock := Block.ofIndex (rand1 % 7)
    currentBlockRotateTimes := ((rand2 % 4 : Nat) : Int)
    currentBlockPos := ⟨2, ((TETRIS_WIDTH / 2 : Nat) : Int)⟩ }

/-- `reset_tetris_map`: clear every cell, spawn a piece, clear the flag. -/
def reset_tetris_map (rand1 rand2 : Nat) (context : TetrisContext) : TetrisContext :=
  let cleared : Grid :=
    (List.range TETRIS_ALL_HEIGHT).foldl
      (fun g r => (List.range TETRIS_WIDTH).foldl (fun g c => setCell g r c Block.Empty) g)
      context.data
  { gen_random_block rand1 rand2 { context with data := cleared } with gameOver := false }

/-! ## Collision checks (`macro_check_collision`) -/

/-- The loop of `macro_check_collision` over the remaining shape entries:
`some true` on the first entry that is out of bound or on a non-Empty cell,
`some false` when there is none, `none` on an out-of-array read. -/
def collision_loop (outOfBound : Int → Int → Bool) (g : Grid) (pos : Pos) :
    List Pos → Option Bool
  | [] => some false
  | p :: rest =>
    let r := pos.row + p.row
    let c := pos.col + p.col
    if outOfBound r c then some true
    else
      match data_get g r c with
      | none => none
      | some block =>
        if block ≠ Block.Empty then some true
        else collision_loop outOfBound g pos rest

/-- `macro_check_collision(context, outOfBoundCondition)`. -/
def check_collision (outOfBound : Int → Int → Bool) (context : TetrisContext) : Option Bool :=
  match shapeOf context.currentBlock context.currentBlockRotateTimes with
  | none => none
  | some shape => collision_loop outOfBound context.data context.currentBlockPos shape

def check_left_collision (context : TetrisContext) : Option Bool :=
  check_collision (fun _ c => decide (c < 0)) context

def check_right_collision (context : TetrisContext) : Option Bool :=
  check_collision (fun _ c => decide (c ≥ (TETRIS_WIDTH : Int))) context

def check_down_collision (context : TetrisContext) : Option Bool :=
  check_collision (fun r _ => decide (r ≥ (TETRIS_ALL_HEIGHT : Int))) context

def check_left_right_down_collision (context : TetrisContext) : Option Bool :=
  check_collision
    (fun r c => decide (c < 0) || decide (c ≥ (TETRIS_WIDTH : Int))
      || decide (r ≥ (TETRIS_ALL_HEIGHT : Int))) context

/-! ## Moves -/

/-- The context with the anchor column replaced. -/
def withCol (context : TetrisContext) (col : Int) : TetrisContext :=
  { context with currentBlockPos := ⟨context.currentBlockPos.row, col⟩ }

/-- The context with the anchor row replaced. -/
def withRow (context : TetrisContext) (row : Int) : TetrisContext :=
  { context with currentBlockPos := ⟨row, context.currentBlockPos.col⟩ }

def move_left (context : TetrisContext) : Option TetrisContext :=
  let moved := withCol context (context.currentBlockPos.col - 1)
  match check_left_collision moved with
  | none => none
  | some true => some (withCol moved (moved.currentBlockPos.col + 1))
  | some false => some moved

def move_right (context : TetrisContext) : Option TetrisContext :=
  let moved := withCol context (context.currentBlockPos.col + 1)
  match check_right_collision moved with
  | none => none
  | some true => some (withCol moved (moved.currentBlockPos.col - 1))
  | some false => some moved

/-- The store loop of `save_current_block` over the remaining shape entries. -/
def save_loop (block : Block) (pos : Pos) : List Pos → Grid → Option Grid
  | [], g => some g
  | p :: rest, g =>
    match data_set g (pos.row + p.row) (pos.col + p.col) block with
    | none => none
    | some g' => save_loop block pos rest g'

/-- `save_current_block`: the grid with the piece written into it. -/
def save_current_block (context : TetrisContext) : Option TetrisContext :=
  match shapeOf context.currentBlock context.currentBlockRotateTimes with
  | none => none
  | some shape =>
    match save_loop context.currentBlock context.currentBlockPos shape context.data with
    | none => none
    | some g => some { context with data := g }

/-- `move_down`; `fuel` bounds the loop of `eliminate_lines`, `rand1` and
`rand2` are the draws of the spawn that follows a lock. -/
def move_down (fuel rand1 rand2 : Nat) (context : TetrisContext) : Option TetrisContext :=
  let moved := withRow context (context.currentBlockPos.row + 1)
  match check_down_collision moved with
  | none => none
  | some false => some moved
  | some true =>
    let back := withRow moved (moved.currentBlockPos.row - 1)
    match save_current_block back with
    | none => none
    | some saved =>
      match eliminate_lines fuel saved.data with
      | none => none
      | some g =>
        let eliminated := { saved with data := g }
        let flagged :=
          if !check_row_is_empty eliminated.data TETRIS_EXTRA_HEIGHT then
            { eliminated with gameOver := true }
          else eliminated
        some (gen_random_block rand1 rand2 flagged)

/-- `rotate`: the truncating `%` of C is `Int.tmod`. -/
def rotate (context : TetrisContext) : Option TetrisContext :=
  let turned :=
    { context with currentBlockRotateTimes := Int.tmod (context.currentBlockRotateTimes + 1) 4 }
  match check_left_right_down_collision turned with
  | none => none
  | some true =>
    some { turned with currentBlockRotateTimes := Int.tmod (turned.currentBlockRotateTimes + 3) 4 }
  | some false => some turned

/-! ## Reachable states -/

/-- The states reached from a reset by finitely many moves; a call of
`move_down` contributes the state it returns, for any draws at the spawn. -/
inductive Reachable : TetrisContext → Prop where
  | reset (rand1 rand2 : Nat) (context : TetrisContext) :
      Reachable (reset_tetris_map rand1 rand2 context)
  | left {s s' : TetrisContext} : Reachable s → move_left s = some s' → Reachable s'
  | right {s s' : TetrisContext} : Reachable s → move_right s = some s' → Reachable s'
  | turn {s s' : TetrisContext} : Reachable s → rotate s = some s' → Reachable s'
  | down {s s' : TetrisContext} (fuel rand1 rand2 : Nat) :
      Reachable s → move_down fuel rand1 rand2 s = some s' → Reachable s'

/-! ## Vocabulary of the claims about the active piece -/

/-- The occupied cells of the active piece:
anchor + `blockShapeMap[kind][rotation][i]`. -/
def occupiedCells (context : TetrisContext) : Option (List Pos) :=
  (shapeOf context.currentBlock context.currentBlockRotateTimes).map
    (fun shape => shape.map
      (fun p => ⟨context.currentBlockPos.row + p.row, context.currentBlockPos.col + p.col⟩))

/-- The position is a cell of the grid (row in `[0, 32)`, column in `[0, 16)`)
and that cell is `Empty`. -/
def onEmptyCell (g : Grid) (p : Pos) : Bool :=
  decide (0 ≤ p.row) && decide (p.row < (TETRIS_ALL_HEIGHT : Int))
    && decide (0 ≤ p.col) && decide (p.col < (TETRIS_WIDTH : Int))
    && decide (g.cell p.row.toNat p.col.toNat = Block.Empty)

/-- The active piece is in bounds and on Empty cells. -/
def pieceInBoundsOnEmpty (context : TetrisContext) : Bool :=
  match occupiedCells context with
  | none => false
  | some cells => cells.all (onEmptyCell context.data)

/-- Every cell of the piece shifted one column left has column `≥ 0` and lies
on an Empty cell. -/
def leftFree (context : TetrisContext) : Bool :=
  match occupiedCells context with
  | none => false
  | some cells =>
    cells.all (fun p => decide (0 ≤ p.col - 1) && onEmptyCell context.data ⟨p.row, p.col - 1⟩)

/-- Every cell of the piece shifted one column right has column `< 16` and
lies on an Empty cell. -/
def rightFree (context : TetrisContext) : Bool :=
  match occupiedCells context with
  | none => false
  | some cells =>
    cells.all (fun p => decide (p.col + 1 < (TETRIS_WIDTH : Int))
      && onEmptyCell context.data ⟨p.row, p.col + 1⟩)

/-- Shifting the piece down by one row puts some cell at row `≥ 32` or on a
non-Empty cell. -/
def downBlocked (context : TetrisContext) : Bool :=
  match occupiedCells context with
  | none => false
  | some cells =>
    cells.any (fun p => decide (p.row + 1 ≥ (TETRIS_ALL_HEIGHT : Int))
      || !onEmptyCell context.data ⟨p.row + 1, p.col⟩)

/-- The grid obtained by setting exactly the given cells to `block`. -/
def gridWithCells (g : Grid) (cells : List Pos) (block : Block) : Grid :=
  ⟨fun r c =>
    if cells.any (fun p => decide (p.row = (r : Int)) && decide (p.col = (c : Int))) then block
    else g.cell r c⟩

/-- The old grid with the four cells of the piece, at its current position,
set to the kind of the piece; `none` when the piece has no shape. -/
def lockedGrid (context : TetrisContext) : Option Grid :=
  (occupiedCells context).map
    (fun cells => gridWithCells context.data cells context.currentBlock)

/-- This call of `move_down` locks the piece: the collision check on the
shifted piece reports a collision. -/
def locksPiece (context : TetrisContext) : Bool :=
  check_down_collision (withRow context (context.currentBlockPos.row + 1)) == some true

/-- Some cell of the hidden spawn buffer (rows `0 .. TETRIS_EXTRA_HEIGHT - 1`)
is not `Empty`. -/
def hiddenBufferOccupied (g : Grid) : Bool :=
  (List.range TETRIS_EXTRA_HEIGHT).any
    (fun r => (List.range TETRIS_WIDTH).any (fun c => decide (g.cell r c ≠ Block.Empty)))

/-- Rows `0 .. k - 1` are entirely Empty and each of the rows `k .. 31` has a
non-Empty cell. -/
def settledFrom (g : Grid) (k : Nat) : Prop :=
  (∀ r, r < k → ∀ c, c < TETRIS_WIDTH → g.cell r c = Block.Empty) ∧
  (∀ r, k ≤ r → r < TETRIS_ALL_HEIGHT → ∃ c, c < TETRIS_WIDTH ∧ g.cell r c ≠ Block.Empty)

/-! ## The C++ port (`tetris.cpp`): the parts used below -/

/-- `class BlockInfo`. -/
structure Cpp.BlockInfo where
  block : Block
  pos : Pos
  rotateTimes : Int

/-- The engine fields of `class Tetris`; `tetrisMap` is the array `blocks`
of `class TetrisMap`. -/
structure Cpp.Tetris where
  tetrisMap : Grid
  blockInfo : Cpp.BlockInfo
  gameOver : Bool

/-- `TetrisMap::get`: `blocks[row][col]`, `none` outside the array. -/
def Cpp.TetrisMap.get (blocks : Grid) (row col : Int) : Option Block :=
  data_get blocks row col

/-- `BlockInfo::get_shape` (the C++ table equals the C table). -/
def Cpp.BlockInfo.get_shape (b : Cpp.BlockInfo) : Option (List Pos) :=
  shapeOf b.block b.rotateTimes

/-- The loop of `BlockInfo::for_each_shape_point_if` over the remaining shape
entries; `cond` returns `none` when its evaluation is undefined. -/
def Cpp.shape_point_loop (cond : Int → Int → Option Bool) (pos : Pos) :
    List Pos → Option Bool
  | [] => some false
  | p :: rest =>
    match cond (pos.row + p.row) (pos.col + p.col) with
    | none => none
    | some true => some true
    | some false => Cpp.shape_point_loop cond pos rest

def Cpp.BlockInfo.for_each_shape_point_if (b : Cpp.BlockInfo)
    (cond : Int → Int → Option Bool) : Option Bool :=
  match b.get_shape with
  | none => none
  | some shape => Cpp.shape_point_loop cond b.pos shape

/-- The lambda `bound || tetrisMap.get(row, col) != Block::Empty`: the read
happens only when the bound test is false. -/
def Cpp.collisionCond (bound : Int → Int → Bool) (blocks : Grid) (row col : Int) :
    Option Bool :=
  if bound row col then some true
  else (Cpp.TetrisMap.get blocks row col).map (fun b => decide (b ≠ Block.Empty))

def Cpp.check_left_collision (t : Cpp.Tetris) : Option Bool :=
  t.blockInfo.for_each_shape_point_if
    (Cpp.collisionCond (fun _ col => decide (col < 0)) t.tetrisMap)

def Cpp.check_right_collision (t : Cpp.Tetris) : Option Bool :=
  t.blockInfo.for_each_shape_point_if
    (Cpp.collisionCond (fun _ col => decide (col ≥ (TETRIS_WIDTH : Int))) t.tetrisMap)

def Cpp.BlockInfo.go_left (b : Cpp.BlockInfo) : Cpp.BlockInfo :=
  { b with pos := ⟨b.pos.row, b.pos.col - 1⟩ }

def Cpp.BlockInfo.go_right (b : Cpp.BlockInfo) : Cpp.BlockInfo :=
  { b with pos := ⟨b.pos.row, b.pos.col + 1⟩ }

/-- `Tetris::move_left`. -/
def Cpp.move_left (t : Cpp.Tetris) : Option Cpp.Tetris :=
  let moved := { t with blockInfo := t.blockInfo.go_left }
  match Cpp.check_left_collision moved with
  | none => none
  | some true => some { moved with blockInfo := moved.blockInfo.go_right }
  | some false => some moved

/-- `Tetris::move_right`; as in the source, the test after `go_right` is
`check_left_collision`. -/
def Cpp.move_right (t : Cpp.Tetris) : Option Cpp.Tetris :=
  let moved := { t with blockInfo := t.blockInfo.go_right }
  match Cpp.check_left_collision moved with
  | none => none
  | some true => some { moved with blockInfo := moved.blockInfo.go_left }
  | some false => some moved

/-! ## Example states -/

/-- The grid with every cell `Empty`. -/
def emptyGrid : Grid := ⟨fun _ _ => Block.Empty⟩

/-- Six vertical I pieces settled on top of each other in column 8
(rows `8 .. 31`), the rest Empty. -/
def columnGrid : Grid := ⟨fun r c => if 8 ≤ r ∧ c = 8 then Block.I else Block.Empty⟩

/-- A seventh vertical I piece resting on the column of `columnGrid`,
occupying rows `4 .. 7` of column 8. -/
def topOutExample : TetrisContext :=
  { data := columnGrid, currentBlock := Block.I, currentBlockPos := ⟨5, 8⟩,
    currentBlockRotateTimes := 1, gameOver := false }

/-- A bottom row that is full except at column 8, a block higher up at
row 20, column 0, the rest Empty. -/
def holeGrid : Grid :=
  ⟨fun r c =>
    if r = 31 ∧ c ≠ 8 then Block.T
    else if r = 20 ∧ c = 0 then Block.J
    else Block.Empty⟩

/-- A vertical I piece in column 8, rows `28 .. 31`, filling the hole of
`holeGrid`. -/
def holeExample : TetrisContext :=
  { data := holeGrid, currentBlock := Block.I, currentBlockPos := ⟨29, 8⟩,
    currentBlockRotateTimes := 1, gameOver := false }

/-- A settled bottom row, full except at column 8, under an Empty grid. -/
def settledHoleGrid : Grid :=
  ⟨fun r c => if r = 31 ∧ c ≠ 8 then Block.T else Block.Empty⟩

/-- A vertical I piece in column 8, rows `28 .. 31`, filling the hole of
`settledHoleGrid`. -/
def settledHoleExample : TetrisContext :=
  { data := settledHoleGrid, currentBlock := Block.I, currentBlockPos := ⟨29, 8⟩,
    currentBlockRotateTimes := 1, gameOver := false }

/-- An O piece in the right-most two columns of the Empty grid. -/
def rightEdgeExample : TetrisContext :=
  { data := emptyGrid, currentBlock := Block.O, currentBlockPos := ⟨2, 14⟩,
    currentBlockRotateTimes := 0, gameOver := false }

/-- The same state in the C++ port. -/
def Cpp.rightEdgeExample : Cpp.Tetris :=
  { tetrisMap := emptyGrid, blockInfo := ⟨Block.O, ⟨2, 14⟩, 0⟩, gameOver := false }

/-- A T piece in the middle of the Empty grid. -/
def freeExample : TetrisContext :=
  { data := emptyGrid, currentBlock := Block.T, currentBlockPos := ⟨10, 8⟩,
    currentBlockRotateTimes := 0, gameOver := false }

/-- Rows `0 .. TETRIS_EXTRA_HEIGHT` (the hidden buffer and the boundary row)
are entirely Empty. -/
def topRowsEmpty (g : Grid) : Prop :=
  ∀ r, r ≤ TETRIS_EXTRA_HEIGHT → ∀ c, c < TETRIS_WIDTH → g.cell r c = Block.Empty

/-- For each of the row offsets `-1, 0, 1`: a shape with an offset above and an
offset below it has an offset on it. -/
def rowsContiguous (shape : List Pos) : Bool :=
  [(-1 : Int), 0, 1].all (fun t =>
    !(shape.any (fun p => decide (p.row < t)) && shape.any (fun p => decide (t < p.row)))
      || shape.any (fun p => decide (p.row = t)))

/-- The invariant of the states with `gameOver` false: the piece is in bounds
and on Empty cells, and rows `0 .. 4` of the grid are Empty. -/
def pieceInvariant (s : TetrisContext) : Prop :=
  pieceInBoundsOnEmpty s = true ∧ topRowsEmpty s.data

/-! ## Vocabulary of the claims about rotation, the down-move and the spawn -/

/-- Every cell of the piece at rotation `(q + 1) mod 4`, with the same anchor,
has its column in `[0, 16)`, its row `< 32`, and lies on an Empty cell. -/
def rotateFree (context : TetrisContext) : Bool :=
  match occupiedCells
      { context with currentBlockRotateTimes := (context.currentBlockRotateTimes + 1) % 4 } with
  | none => false
  | some cells =>
    cells.all (fun p => decide (0 ≤ p.col) && decide (p.col < (TETRIS_WIDTH : Int))
      && decide (p.row < (TETRIS_ALL_HEIGHT : Int)) && onEmptyCell context.data p)

/-- Every cell of the piece shifted down by one row has row `< 32` and lies on
an Empty cell. -/
def downFree (context : TetrisContext) : Bool :=
  match occupiedCells context with
  | none => false
  | some cells =>
    cells.all (fun p => decide (p.row + 1 < (TETRIS_ALL_HEIGHT : Int))
      && onEmptyCell context.data ⟨p.row + 1, p.col⟩)

/-- No row of the grid is full. -/
def noFullRow (g : Grid) : Prop :=
  ∀ r, r < TETRIS_ALL_HEIGHT → ∃ c, c < TETRIS_WIDTH ∧ g.cell r c = Block.Empty

/-- `n` successive calls of `move_down` (with the same fuel and draws);
`none` as soon as one of them does not return. -/
def move_down_times (fuel rand1 rand2 : Nat) : Nat → TetrisContext → Option TetrisContext
  | 0, s => some s
  | n + 1, s => (move_down_times fuel rand1 rand2 n s).bind (move_down fuel rand1 rand2)

/-- The active piece at the spawn anchor (row 2, column `TETRIS_WIDTH / 2`). -/
def spawnedPiece (g : Grid) (block : Block) (rotateTimes : Int) : TetrisContext :=
  { data := g, currentBlock := block, currentBlockPos := ⟨2, ((TETRIS_WIDTH / 2 : Nat) : Int)⟩,
    currentBlockRotateTimes := rotateTimes, gameOver := false }

/-- `BlockInfo::rotate` (C++). -/
def Cpp.BlockInfo.rotate (b : Cpp.BlockInfo) : Cpp.BlockInfo :=
  { b with rotateTimes := Int.tmod (b.rotateTimes + 1) 4 }

/-- `BlockInfo::un_rotate` (C++). -/
def Cpp.BlockInfo.un_rotate (b : Cpp.BlockInfo) : Cpp.BlockInfo :=
  { b with rotateTimes := Int.tmod (b.rotateTimes + 3) 4 }

/-- The rotation update of the C `rotate`: `(*rotateTimes + 1) % 4`. -/
def rotateForward (rotateTimes : Int) : Int := Int.tmod (rotateTimes + 1) 4

/-- The revert of the C `rotate`: `(*rotateTimes + 3) % 4`. -/
def rotateBackward (rotateTimes : Int) : Int := Int.tmod (rotateTimes + 3) 4

/-- A grid whose rows `4 .. 31` are all full, under an Empty hidden buffer. -/
def fullStackGrid : Grid := ⟨fun r _ => if 4 ≤ r then Block.Z else Block.Empty⟩

/-- An O piece at the spawn anchor on `fullStackGrid`: in bounds, on Empty
cells, and blocked below by row 4. -/
def fullStackExample : TetrisContext := spawnedPiece fullStackGrid Block.O 0

/-- The grid of `topOutExample` after its piece is locked: column 8 occupied on
rows `4 .. 31`, everything else Empty. -/
def toppedColumnGrid : Grid := ⟨fun r c => if 4 ≤ r ∧ c = 8 then Block.I else Block.Empty⟩

/-- A T piece pointing down in the top row of the Empty grid. -/
def topRowExample : TetrisContext :=
  { data := emptyGrid, currentBlock := Block.T, currentBlockPos := ⟨0, 8⟩,
    currentBlockRotateTimes := 0, gameOver := false }

/-- A vertical I piece in the right-most column of the Empty grid. -/
def wallExample : TetrisContext :=
  { data := emptyGrid, currentBlock := Block.I, currentBlockPos := ⟨10, 15⟩,
    currentBlockRotateTimes := 1, gameOver := false }

/-! ## Vocabulary of the claims about the table and the C++ port -/

/-- The offset `(col, -row)` obtained from the offset `(row, col)`. -/
def quarterTurn (p : Pos) : Pos := ⟨p.col, -p.row⟩

/-! ## The rest of the C++ port (`tetris.cpp`) -/

/-- `TetrisMap::set`: `blocks[row][col] = block`, `none` outside the array. -/
def Cpp.TetrisMap.set (blocks : Grid) (row col : Int) (block : Block) : Option Grid :=
  data_set blocks row col block

/-- `TetrisMap::check_row_is_full`: `std::none_of` over the row with the
predicate `block == Block::Empty`. -/
def Cpp.TetrisMap.check_row_is_full (blocks : Grid) (rowIndex : Nat) : Bool :=
  !(((List.range TETRIS_WIDTH).map (blocks.cell rowIndex)).any
    (fun block => decide (block = Block.Empty)))

/-- `TetrisMap::check_row_is_empty`: `std::all_of` over the row with the
predicate `block == Block::Empty`. -/
def Cpp.TetrisMap.check_row_is_empty (blocks : Grid) (rowIndex : Nat) : Bool :=
  ((List.range TETRIS_WIDTH).map (blocks.cell rowIndex)).all
    (fun block => decide (block = Block.Empty))

/-- `TetrisMap::copy_row_to_row`. -/
def Cpp.TetrisMap.copy_row_to_row (blocks : Grid) (fromRow toRow : Nat) : Grid :=
  (List.range TETRIS_WIDTH).foldl
    (fun blocks c => setCell blocks toRow c (blocks.cell fromRow c)) blocks

/-- `TetrisMap::find_the_bottom_empty_line`. -/
def Cpp.TetrisMap.find_the_bottom_empty_line (blocks : Grid) : Nat :=
  let bottomEmptyLine := TETRIS_ALL_HEIGHT / 2
  if Cpp.TetrisMap.check_row_is_empty blocks bottomEmptyLine then
    (List.range' (bottomEmptyLine + 1) (TETRIS_ALL_HEIGHT - (bottomEmptyLine + 1))).foldl
      (fun b r => if Cpp.TetrisMap.check_row_is_empty blocks r then r else b) bottomEmptyLine
  else
    ((List.range' TETRIS_EXTRA_HEIGHT (bottomEmptyLine - TETRIS_EXTRA_HEIGHT)).reverse).foldl
      (fun b r => if Cpp.TetrisMap.check_row_is_empty blocks r then r else b) bottomEmptyLine

/-- The inner loop of `TetrisMap::eliminate_lines`:
`for (rr = r - 1; rr >= bottomEmptyLine; --rr) copy_row_to_row(rr, rr + 1)`. -/
def Cpp.TetrisMap.scroll_down (blocks : Grid) (bottomEmptyLine r : Nat) : Grid :=
  ((List.range' bottomEmptyLine (r - bottomEmptyLine)).reverse).foldl
    (fun blocks rr => Cpp.TetrisMap.copy_row_to_row blocks rr (rr + 1)) blocks

/-- The outer loop of `TetrisMap::eliminate_lines`; each evaluation of the loop
body uses one unit of `fuel`. -/
def Cpp.TetrisMap.eliminate_loop (bottomEmptyLine : Nat) : Nat → Nat → Grid → Option Grid
  | fuel, r, blocks =>
    if r > bottomEmptyLine then
      match fuel with
      | 0 => none
      | fuel + 1 =>
        if Cpp.TetrisMap.check_row_is_full blocks r then
          Cpp.TetrisMap.eliminate_loop bottomEmptyLine fuel r
            (Cpp.TetrisMap.scroll_down blocks bottomEmptyLine r)
        else
          Cpp.TetrisMap.eliminate_loop bottomEmptyLine fuel (r - 1) blocks
    else some blocks

/-- `TetrisMap::eliminate_lines`. -/
def Cpp.TetrisMap.eliminate_lines (fuel : Nat) (blocks : Grid) : Option Grid :=
  Cpp.TetrisMap.eliminate_loop (Cpp.TetrisMap.find_the_bottom_empty_line blocks) fuel
    (TETRIS_ALL_HEIGHT - 1) blocks

/-- The loop of `BlockInfo::for_each_shape_point` over the remaining shape
entries, for an action that updates the grid. -/
def Cpp.shape_point_action_loop (action : Grid → Int → Int → Option Grid) (pos : Pos) :
    List Pos → Grid → Option Grid
  | [], blocks => some blocks
  | p :: rest, blocks =>
    match action blocks (pos.row + p.row) (pos.col + p.col) with
    | none => none
    | some blocks' => Cpp.shape_point_action_loop action pos rest blocks'

/-- `BlockInfo::for_each_shape_point`. -/
def Cpp.BlockInfo.for_each_shape_point (b : Cpp.BlockInfo)
    (action : Grid → Int → Int → Option Grid) (blocks : Grid) : Option Grid :=
  match b.get_shape with
  | none => none
  | some shape => Cpp.shape_point_action_loop action b.pos shape blocks

def Cpp.BlockInfo.go_down (b : Cpp.BlockInfo) : Cpp.BlockInfo :=
  { b with pos := ⟨b.pos.row + 1, b.pos.col⟩ }

def Cpp.BlockInfo.go_top (b : Cpp.BlockInfo) : Cpp.BlockInfo :=
  { b with pos := ⟨b.pos.row - 1, b.pos.col⟩ }

/-- `Tetris::random_gen_current_block`; `draw1` is the value of
`randomBlock(mt)` and `draw2` the value of `randomRotation(mt)`. -/
def Cpp.random_gen_current_block (draw1 draw2 : Nat) (t : Cpp.Tetris) : Cpp.Tetris :=
  { t with
    blockInfo := ⟨Block.ofIndex draw1, ⟨2, ((TETRIS_WIDTH / 2 : Nat) : Int)⟩, (draw2 : Int)⟩ }

/-- `Tetris::save_current_block`. -/
def Cpp.save_current_block (t : Cpp.Tetris) : Option Cpp.Tetris :=
  match t.blockInfo.for_each_shape_point
      (fun blocks row col => Cpp.TetrisMap.set blocks row col t.blockInfo.block) t.tetrisMap with
  | none => none
  | some blocks => some { t with tetrisMap := blocks }

def Cpp.check_down_collision (t : Cpp.Tetris) : Option Bool :=
  t.blockInfo.for_each_shape_point_if
    (Cpp.collisionCond (fun row _ => decide (row ≥ (TETRIS_ALL_HEIGHT : Int))) t.tetrisMap)

def Cpp.check_left_right_down_collision (t : Cpp.Tetris) : Option Bool :=
  t.blockInfo.for_each_shape_point_if
    (Cpp.collisionCond
      (fun row col => decide (col < 0) || decide (col ≥ (TETRIS_WIDTH : Int))
        || decide (row ≥ (TETRIS_ALL_HEIGHT : Int))) t.tetrisMap)

/-- `Tetris::move_down`; `fuel` bounds the loop of `eliminate_lines`. -/
def Cpp.move_down (fuel draw1 draw2 : Nat) (t : Cpp.Tetris) : Option Cpp.Tetris :=
  let moved := { t with blockInfo := t.blockInfo.go_down }
  match Cpp.check_down_collision moved with
  | none => none
  | some false => some moved
  | some true =>
    let back := { moved with blockInfo := moved.blockInfo.go_top }
    match Cpp.save_current_block back with
    | none => none
    | some saved =>
      match Cpp.TetrisMap.eliminate_lines fuel saved.tetrisMap with
      | none => none
      | some blocks =>
        let eliminated := { saved with tetrisMap := blocks }
        let flagged :=
          if !Cpp.TetrisMap.check_row_is_empty eliminated.tetrisMap TETRIS_EXTRA_HEIGHT then
            { eliminated with gameOver := true }
          else eliminated
        some (Cpp.random_gen_current_block draw1 draw2 flagged)

/-- `Tetris::rotate`. -/
def Cpp.rotate (t : Cpp.Tetris) : Option Cpp.Tetris :=
  let turned := { t with blockInfo := t.blockInfo.rotate }
  match Cpp.check_left_right_down_collision turned with
  | none => none
  | some true => some { turned with blockInfo := turned.blockInfo.un_rotate }
  | some false => some turned

/-- The C context holding the same grid, active piece and flag as a state of
the C++ port. -/
def Cpp.Tetris.toContext (t : Cpp.Tetris) : TetrisContext :=
  { data := t.tetrisMap, currentBlock := t.blockInfo.block,
    currentBlockPos := t.blockInfo.pos,
    currentBlockRotateTimes := t.blockInfo.rotateTimes, gameOver := t.gameOver }

/-- The C++ state of `settledHoleExample`: a vertical I piece about to complete the
bottom row. -/
def Cpp.holeExample : Cpp.Tetris :=
  { tetrisMap := settledHoleGrid, blockInfo := ⟨Block.I, ⟨29, 8⟩, 1⟩, gameOver := false }

/-! ## The invariant of the stack -/

/-- The invariant of the states with `gameOver` false: the piece is in bounds
and on Empty cells, its anchor row is at least 2, the stack is settled from
some row `k` with `5 ≤ k ≤ 32`, and no row is full. -/
def stackInvariant (s : TetrisContext) : Prop :=
  pieceInBoundsOnEmpty s = true ∧ 2 ≤ s.currentBlockPos.row ∧
    (∃ k, 5 ≤ k ∧ k ≤ TETRIS_ALL_HEIGHT ∧ settledFrom s.data k) ∧ noFullRow s.data

/-! ## A game with a line clear -/

/-- The state with the given grid and active piece, `gameOver` false. -/
def pieceAt (g : Grid) (block : Block) (rot row col : Int) : TetrisContext :=
  { data := g, currentBlock := block, currentBlockPos := ⟨row, col⟩,
    currentBlockRotateTimes := rot, gameOver := false }

/-- For each of the `n` rows from `row` on, the piece with its anchor there is
in bounds, on Empty cells, and free to move down. -/
def canFall (g : Grid) (block : Block) (rot row col : Int) (n : Nat) : Bool :=
  (List.range n).all (fun i =>
    pieceInBoundsOnEmpty (pieceAt g block rot (row + (i : Int)) col)
      && downFree (pieceAt g block rot (row + (i : Int)) col))

/-- For each of the `n` columns from `col` leftwards, the piece with its anchor
there is in bounds, on Empty cells, and free to move left. -/
def canGoLeft (g : Grid) (block : Block) (rot row col : Int) (n : Nat) : Bool :=
  (List.range n).all (fun i =>
    pieceInBoundsOnEmpty (pieceAt g block rot row (col - (i : Int)))
      && leftFree (pieceAt g block rot row (col - (i : Int))))

/-- For each of the `n` columns from `col` rightwards, the piece with its
anchor there is in bounds, on Empty cells, and free to move right. -/
def canGoRight (g : Grid) (block : Block) (rot row col : Int) (n : Nat) : Bool :=
  (List.range n).all (fun i =>
    pieceInBoundsOnEmpty (pieceAt g block rot row (col + (i : Int)))
      && rightFree (pieceAt g block rot row (col + (i : Int))))

/-- The grid after an O piece is locked in the bottom-left corner. -/
def stackGrid1 : Grid :=
  gridWithCells emptyGrid [⟨30, 0⟩, ⟨30, 1⟩, ⟨31, 0⟩, ⟨31, 1⟩] Block.O

/-- The grid after a second O piece is locked next to the first. -/
def stackGrid2 : Grid :=
  gridWithCells stackGrid1 [⟨30, 2⟩, ⟨30, 3⟩, ⟨31, 2⟩, ⟨31, 3⟩] Block.O

/-- The grid after a horizontal I piece is locked on row 31, columns `4 .. 7`. -/
def stackGrid3 : Grid :=
  gridWithCells stackGrid2 [⟨31, 5⟩, ⟨31, 4⟩, ⟨31, 6⟩, ⟨31, 7⟩] Block.I

/-- The grid after a second I piece is locked on row 31, columns `8 .. 11`. -/
def stackGrid4 : Grid :=
  gridWithCells stackGrid3 [⟨31, 9⟩, ⟨31, 8⟩, ⟨31, 10⟩, ⟨31, 11⟩] Block.I

/-- The grid with a third I piece locked on row 31, columns `12 .. 15`: row 31
is full, row 30 holds the upper halves of the two O pieces. -/
def lineLockedGrid : Grid :=
  gridWithCells stackGrid4 [⟨31, 13⟩, ⟨31, 12⟩, ⟨31, 14⟩, ⟨31, 15⟩] Block.I

/-- The grid after the elimination of row 31 of `lineLockedGrid`. -/
def lineClearedGrid : Grid := scroll_down lineLockedGrid 29 31

/-- The third I piece resting on row 31, about to complete it. -/
def beforeLineExample : TetrisContext := pieceAt stackGrid4 Block.I 0 31 13

/-- The state after the lock of `beforeLineExample` with the draws 2 and 1. -/
def afterLineExample : TetrisContext := pieceAt lineClearedGrid Block.T 1 2 8

/-! ## The row checks and the elimination with every array access checked

The definitions above index the grid of the row checks and of the elimination
by loop variables.  Here the same functions are embedded with each read
`data[r][c]` through `data_get` and each write through `data_set`, so that an
access outside `[0, 32) x [0, 16)` gives `none`. -/

/-- The loop of `macro_check_line_if` over the remaining columns:
`block = data[row][c]; if (!(condition)) return 0;`, finally `return 1`. -/
def Checked.check_line_loop (condition : Block → Bool) (g : Grid) (row : Nat) :
    List Nat → Option Bool
  | [] => some true
  | c :: cs =>
    match data_get g (row : Int) (c : Int) with
    | none => none
    | some block =>
      if !condition block then some false
      else Checked.check_line_loop condition g row cs

/-- `check_row_is_full`: `macro_check_line_if(context, row, block != BLOCK_EMPTY)`. -/
def Checked.check_row_is_full (g : Grid) (row : Nat) : Option Bool :=
  Checked.check_line_loop (fun block => decide (block ≠ Block.Empty)) g row
    (List.range TETRIS_WIDTH)

/-- `check_row_is_empty`: `macro_check_line_if(context, row, block == BLOCK_EMPTY)`. -/
def Checked.check_row_is_empty (g : Grid) (row : Nat) : Option Bool :=
  Checked.check_line_loop (fun block => decide (block = Block.Empty)) g row
    (List.range TETRIS_WIDTH)

/-- A search loop of `find_the_bottom_empty_line` over the remaining rows:
`if (check_row_is_empty(context, r)) bottomEmptyLine = r;`. -/
def Checked.search_loop (g : Grid) : List Nat → Nat → Option Nat
  | [], bottomEmptyLine => some bottomEmptyLine
  | r :: rs, bottomEmptyLine =>
    match Checked.check_row_is_empty g r with
    | none => none
    | some true => Checked.search_loop g rs r
    | some false => Checked.search_loop g rs bottomEmptyLine

/-- `find_the_bottom_empty_line`. -/
def Checked.find_the_bottom_empty_line (g : Grid) : Option Nat :=
  let bottomEmptyLine := TETRIS_ALL_HEIGHT / 2
  match Checked.check_row_is_empty g bottomEmptyLine with
  | none => none
  | some true =>
    Checked.search_loop g
      (List.range' (bottomEmptyLine + 1) (TETRIS_ALL_HEIGHT - (bottomEmptyLine + 1)))
      bottomEmptyLine
  | some false =>
    Checked.search_loop g
      ((List.range' TETRIS_EXTRA_HEIGHT (bottomEmptyLine - TETRIS_EXTRA_HEIGHT)).reverse)
      bottomEmptyLine

/-- The copy loop `for c: data[rr + 1][c] = data[rr][c]` over the remaining
columns. -/
def Checked.copy_loop (rr : Nat) : List Nat → Grid → Option Grid
  | [], g => some g
  | c :: cs, g =>
    match data_get g (rr : Int) (c : Int) with
    | none => none
    | some block =>
      match data_set g ((rr + 1 : Nat) : Int) (c : Int) block with
      | none => none
      | some g' => Checked.copy_loop rr cs g'

/-- The scroll loop `for (rr = r - 1; rr >= bottomEmptyLine; --rr)` over the
remaining rows. -/
def Checked.scroll_loop : List Nat → Grid → Option Grid
  | [], g => some g
  | rr :: rrs, g =>
    match Checked.copy_loop rr (List.range TETRIS_WIDTH) g with
    | none => none
    | some g' => Checked.scroll_loop rrs g'

/-- The outer loop of `eliminate_lines`; each evaluation of the loop body uses
one unit of `fuel`, and the loop does not return when the fuel is used up. -/
def Checked.eliminate_loop (bottomEmptyLine : Nat) : Nat → Nat → Grid → Option Grid
  | 0, r, g => if r > bottomEmptyLine then none else some g
  | fuel + 1, r, g =>
    if r > bottomEmptyLine then
      match Checked.check_row_is_full g r with
      | none => none
      | some true =>
        match Checked.scroll_loop
            ((List.range' bottomEmptyLine (r - bottomEmptyLine)).reverse) g with
        | none => none
        | some g' => Checked.eliminate_loop bottomEmptyLine fuel r g'
      | some false => Checked.eliminate_loop bottomEmptyLine fuel (r - 1) g
    else some g

/-- `eliminate_lines`. -/
def Checked.eliminate_lines (fuel : Nat) (g : Grid) : Option Grid :=
  match Checked.find_the_bottom_empty_line g with
  | none => none
  | some bottomEmptyLine =>
    Checked.eliminate_loop bottomEmptyLine fuel (TETRIS_ALL_HEIGHT - 1) g

/-- `move_down`, with the checked `eliminate_lines` and `check_row_is_empty`
(the collision check and `save_current_block` are checked already). -/
def Checked.move_down (fuel rand1 rand2 : Nat) (context : TetrisContext) :
    Option TetrisContext :=
  let moved := withRow context (context.currentBlockPos.row + 1)
  match check_down_collision moved with
  | none => none
  | some false => some moved
  | some true =>
    let back := withRow moved (moved.currentBlockPos.row - 1)
    match save_current_block back with
    | none => none
    | some saved =>
      match Checked.eliminate_lines fuel saved.data with
      | none => none
      | some g =>
        let eliminated := { saved with data := g }
        match Checked.check_row_is_empty eliminated.data TETRIS_EXTRA_HEIGHT with
        | none => none
        | some isEmpty =>
          let flagged :=
            if !isEmpty then { eliminated with gameOver := true } else eliminated
          some (gen_random_block rand1 rand2 flagged)

theorem setCell_cell (g : Grid) (r c : Nat) (b : Block) (r' c' : Nat) :
    (setCell g r c b).cell r' c' = if r' = r ∧ c' = c then b else g.cell r' c' := rfl

/-- Copying over a list of columns: the target row takes the source row on
the listed columns. -/
theorem foldl_copy_cell (fromRow toRow : Nat) (hne : fromRow ≠ toRow) (cs : List Nat) :
    ∀ (g : Grid) (r c : Nat),
      (cs.foldl (fun g c => setCell g toRow c (g.cell fromRow c)) g).cell r c
        = if r = toRow ∧ c ∈ cs then g.cell fromRow c else g.cell r c := by
  induction cs with
  | nil => intro g r c; simp
  | cons c0 cs ih =>
    intro g r c
    rw [List.foldl_cons, ih]
    simp only [setCell_cell, List.mem_cons]
    by_cases h1 : r = toRow
    · by_cases h2 : c ∈ cs
      · simp [h1, h2, hne]
      · by_cases h3 : c = c0
        · simp [h1, h2, h3]
        · simp [h1, h2, h3]
    · simp [h1]

theorem copy_row_to_row_cell (g : Grid) (fromRow toRow : Nat) (hne : fromRow ≠ toRow)
    (r c : Nat) :
    (copy_row_to_row g fromRow toRow).cell r c
      = if r = toRow ∧ c < TETRIS_WIDTH then g.cell fromRow c else g.cell r c := by
  unfold copy_row_to_row
  rw [foldl_copy_cell fromRow toRow hne]
  simp [List.mem_range]

/-- The scroll loop over `n` rows starting at `b`. -/
theorem scroll_fold_cell (b : Nat) : ∀ (n : Nat) (g : Grid) (i c : Nat),
    (((List.range' b n).reverse).foldl (fun g rr => copy_row_to_row g rr (rr + 1)) g).cell i c
      = if b < i ∧ i ≤ b + n ∧ c < TETRIS_WIDTH then g.cell (i - 1) c else g.cell i c := by
  intro n
  induction n with
  | zero =>
    intro g i c
    have h : ¬ (b < i ∧ i ≤ b + 0 ∧ c < TETRIS_WIDTH) := by omega
    simp only [List.range'_zero, List.reverse_nil, List.foldl_nil, h, if_false]
  | succ n ih =>
    intro g i c
    rw [List.range'_concat, List.reverse_append, List.reverse_singleton, List.singleton_append,
      List.foldl_cons, ih]
    simp only [Nat.one_mul]
    rw [copy_row_to_row_cell _ _ _ (by omega), copy_row_to_row_cell _ _ _ (by omega)]
    split_ifs <;> first | rfl | (exfalso; omega) | (congr 1; omega)

theorem scroll_down_cell (g : Grid) (b r i c : Nat) :
    (scroll_down g b r).cell i c
      = if b < i ∧ i ≤ r ∧ c < TETRIS_WIDTH then g.cell (i - 1) c else g.cell i c := by
  unfold scroll_down
  rw [scroll_fold_cell]
  by_cases h : b ≤ r
  · have : b + (r - b) = r := by omega
    rw [this]
  · have h1 : ¬ (b < i ∧ i ≤ b + (r - b) ∧ c < TETRIS_WIDTH) := by omega
    have h2 : ¬ (b < i ∧ i ≤ r ∧ c < TETRIS_WIDTH) := by omega
    simp [h1, h2]

/-! ### Rows -/

theorem all_map_apply {α β : Type} (f : α → β) (p : β → Bool) (l : List α) :
    (l.map f).all p = l.all (fun a => p (f a)) := by
  induction l with
  | nil => rfl
  | cons a l ih => simp only [List.map_cons, List.all_cons, ih]

theorem check_row_is_full_eq (g : Grid) (r : Nat) :
    check_row_is_full g r = isFullRow (rowOf g r) := by
  unfold check_row_is_full isFullRow rowOf
  rw [all_map_apply]

theorem check_row_is_empty_iff (g : Grid) (r : Nat) :
    check_row_is_empty g r = true ↔ ∀ c, c < TETRIS_WIDTH → g.cell r c = Block.Empty := by
  simp [check_row_is_empty, List.all_eq_true, List.mem_range]

theorem check_row_is_full_iff (g : Grid) (r : Nat) :
    check_row_is_full g r = true ↔ ∀ c, c < TETRIS_WIDTH → g.cell r c ≠ Block.Empty := by
  simp [check_row_is_full, List.all_eq_true, List.mem_range]

theorem rowOf_congr {g g' : Grid} {i j : Nat}
    (h : ∀ c, c < TETRIS_WIDTH → g'.cell i c = g.cell j c) : rowOf g' i = rowOf g j := by
  unfold rowOf
  apply List.map_congr_left
  intro c hc
  exact h c (List.mem_range.mp hc)

theorem rowOf_eq_emptyRow_iff (g : Grid) (r : Nat) :
    rowOf g r = emptyRow ↔ check_row_is_empty g r = true := by
  rw [check_row_is_empty_iff]
  constructor
  · intro h c hc
    have h1 : (rowOf g r)[c]? = emptyRow[c]? := by rw [h]
    simpa [rowOf, emptyRow, List.getElem?_map, List.getElem?_range hc, List.getElem?_replicate, hc]
      using h1
  · intro h
    apply List.ext_getElem?
    intro c
    by_cases hc : c < TETRIS_WIDTH
    · simp [rowOf, emptyRow, List.getElem?_map, List.getElem?_range hc, List.getElem?_replicate,
        hc, h c hc]
    · have h1 : (List.range TETRIS_WIDTH).length ≤ c := by simp; omega
      simp [rowOf, emptyRow, List.getElem?_map, List.getElem?_replicate, hc,
        List.getElem?_eq_none h1]

theorem isFullRow_emptyRow : isFullRow emptyRow = false := by decide

theorem rowOf_scroll_down (g : Grid) (b r i : Nat) :
    rowOf (scroll_down g b r) i = if b < i ∧ i ≤ r then rowOf g (i - 1) else rowOf g i := by
  by_cases h : b < i ∧ i ≤ r
  · rw [if_pos h]
    apply rowOf_congr
    intro c hc
    rw [scroll_down_cell, if_pos ⟨h.1, h.2, hc⟩]
  · rw [if_neg h]
    apply rowOf_congr
    intro c hc
    rw [scroll_down_cell, if_neg (fun h' => h ⟨h'.1, h'.2.1⟩)]

theorem rowSegment_succ_last (g : Grid) (lo n : Nat) :
    rowSegment g lo (n + 1) = rowSegment g lo n ++ [rowOf g (lo + n)] := by
  simp [rowSegment, List.range'_concat]

theorem rowSegment_succ_first (g : Grid) (lo n : Nat) :
    rowSegment g lo (n + 1) = rowOf g lo :: rowSegment g (lo + 1) n := by
  simp [rowSegment, List.range'_succ]

theorem rowSegment_congr {g g' : Grid} (lo n : Nat)
    (h : ∀ i, lo ≤ i → i < lo + n → rowOf g' i = rowOf g i) :
    rowSegment g' lo n = rowSegment g lo n := by
  unfold rowSegment
  apply List.map_congr_left
  intro i hi
  rw [List.mem_range'_1] at hi
  exact h i hi.1 hi.2

theorem rowSegment_append (g : Grid) (lo n m : Nat) :
    rowSegment g lo (n + m) = rowSegment g lo n ++ rowSegment g (lo + n) m := by
  unfold rowSegment
  rw [Nat.add_comm n m, ← List.range'_append_1, List.map_append]

theorem rowSegment_scroll_down (g : Grid) (b r : Nat) (h : b ≤ r) :
    rowSegment (scroll_down g b r) (b + 1) (r - b) = rowSegment g b (r - b) := by
  unfold rowSegment
  have h1 : List.range' (b + 1) (r - b) = (List.range' b (r - b)).map (1 + ·) := by
    rw [List.map_add_range', Nat.add_comm]
  rw [h1, List.map_map]
  apply List.map_congr_left
  intro i hi
  rw [List.mem_range'_1] at hi
  simp only [Function.comp_apply]
  rw [rowOf_scroll_down, if_pos (by omega)]
  congr 1
  omega

/-! ### The loop of `eliminate_lines` -/

theorem eliminate_loop_done (b fuel r : Nat) (g : Grid) (h : r ≤ b) :
    eliminate_loop b fuel r g = some g := by
  unfold eliminate_loop
  rw [if_neg (by omega)]

theorem eliminate_loop_zero (b r : Nat) (g : Grid) (h : b < r) :
    eliminate_loop b 0 r g = none := by
  unfold eliminate_loop
  rw [if_pos h]

theorem eliminate_loop_full (b fuel r : Nat) (g : Grid) (h : b < r)
    (hf : check_row_is_full g r = true) :
    eliminate_loop b (fuel + 1) r g = eliminate_loop b fuel r (scroll_down g b r) := by
  rw [eliminate_loop, if_pos h]
  simp only [hf, if_true]

theorem eliminate_loop_not_full (b fuel r : Nat) (g : Grid) (h : b < r)
    (hf : check_row_is_full g r = false) :
    eliminate_loop b (fuel + 1) r g = eliminate_loop b fuel (r - 1) g := by
  rw [eliminate_loop, if_pos h]
  simp [hf]

/-- More fuel does not change a result. -/
theorem eliminate_loop_mono (b : Nat) : ∀ (fuel r : Nat) (g g' : Grid) (k : Nat),
    eliminate_loop b fuel r g = some g' → eliminate_loop b (fuel + k) r g = some g' := by
  intro fuel
  induction fuel with
  | zero =>
    intro r g g' k h
    by_cases hr : b < r
    · rw [eliminate_loop_zero b r g hr] at h; cases h
    · rw [eliminate_loop_done b _ r g (by omega)] at h ⊢; exact h
  | succ fuel ih =>
    intro r g g' k h
    by_cases hr : b < r
    · have e : fuel + 1 + k = (fuel + k) + 1 := by omega
      rw [e]
      cases hf : check_row_is_full g r with
      | true =>
        rw [eliminate_loop_full b _ r g hr hf] at h ⊢
        exact ih _ _ _ k h
      | false =>
        rw [eliminate_loop_not_full b _ r g hr hf] at h ⊢
        exact ih _ _ _ k h
    · rw [eliminate_loop_done b _ r g (by omega)] at h ⊢; exact h

/-- The loop never writes a row at or above the boundary, a row below its
start row, or a column outside the grid. -/
theorem eliminate_loop_frame (b : Nat) : ∀ (fuel r : Nat) (g g' : Grid),
    eliminate_loop b fuel r g = some g' →
    ∀ i c, (i ≤ b ∨ r < i ∨ TETRIS_WIDTH ≤ c) → g'.cell i c = g.cell i c := by
  intro fuel
  induction fuel with
  | zero =>
    intro r g g' h i c _
    by_cases hr : b < r
    · rw [eliminate_loop_zero b r g hr] at h; cases h
    · rw [eliminate_loop_done b _ r g (by omega)] at h; cases h; rfl
  | succ fuel ih =>
    intro r g g' h i c hic
    by_cases hr : b < r
    · cases hf : check_row_is_full g r with
      | true =>
        rw [eliminate_loop_full b _ r g hr hf] at h
        rw [ih _ _ _ h i c hic, scroll_down_cell, if_neg (by omega)]
      | false =>
        rw [eliminate_loop_not_full b _ r g hr hf] at h
        exact ih _ _ _ h i c (by omega)
    · rw [eliminate_loop_done b _ r g (by omega)] at h; cases h; rfl

/-- Rows that are not full are skipped: the loop only moves `r` up. -/
theorem eliminate_loop_skip (b : Nat) : ∀ (d fuel r : Nat) (g : Grid),
    b + d ≤ r → (∀ i, r - d < i → i ≤ r → check_row_is_full g i = false) →
    eliminate_loop b (fuel + d) r g = eliminate_loop b fuel (r - d) g := by
  intro d
  induction d with
  | zero => intro fuel r g _ _; rfl
  | succ d ih =>
    intro fuel r g hr hnf
    have e : fuel + (d + 1) = (fuel + d) + 1 := by omega
    rw [e, eliminate_loop_not_full b _ r g (by omega) (hnf r (by omega) (by omega)),
      ih fuel (r - 1) g (by omega) (fun i h1 h2 => hnf i (by omega) (by omega))]
    congr 1
    omega

/-- With no full row between the boundary and `r` the loop returns its grid. -/
theorem eliminate_loop_no_full (b fuel r : Nat) (g : Grid) (hfuel : r - b ≤ fuel)
    (hnf : ∀ i, b < i → i ≤ r → check_row_is_full g i = false) :
    eliminate_loop b fuel r g = some g := by
  by_cases hr : b ≤ r
  · obtain ⟨f, rfl⟩ : ∃ f, fuel = f + (r - b) := ⟨fuel - (r - b), by omega⟩
    rw [eliminate_loop_skip b (r - b) f r g (by omega) (fun i h1 h2 => hnf i (by omega) h2)]
    exact eliminate_loop_done b f _ g (by omega)
  · exact eliminate_loop_done b fuel r g (by omega)

/-- Loop invariant for a boundary row that is `Empty`: the rows between the
boundary and `r` are compacted. -/
theorem eliminate_loop_compacts (b : Nat) : ∀ (fuel r : Nat) (g : Grid),
    b ≤ r → rowOf g b = emptyRow →
    (r - b) + (rowSegment g (b + 1) (r - b)).countP isFullRow ≤ fuel →
    ∃ g', eliminate_loop b fuel r g = some g' ∧
      (∀ i c, (i ≤ b ∨ r < i ∨ TETRIS_WIDTH ≤ c) → g'.cell i c = g.cell i c) ∧
      rowSegment g' (b + 1) (r - b)
        = List.replicate ((rowSegment g (b + 1) (r - b)).countP isFullRow) emptyRow
          ++ (rowSegment g (b + 1) (r - b)).filter (fun row => !isFullRow row) := by
  intro fuel
  induction fuel with
  | zero =>
    intro r g hbr _ hm
    have hr : r = b := by omega
    subst hr
    exact ⟨g, eliminate_loop_done _ _ _ g (le_refl _), fun _ _ _ => rfl, by simp [rowSegment]⟩
  | succ fuel ih =>
    intro r g hbr hb hm
    by_cases hr : r = b
    · subst hr
      exact ⟨g, eliminate_loop_done _ _ _ g (le_refl _), fun _ _ _ => rfl, by simp [rowSegment]⟩
    · obtain ⟨n, hn⟩ : ∃ n, r - b = n + 1 := ⟨r - b - 1, by omega⟩
      have hrn : b + 1 + n = r := by omega
      have hseg : rowSegment g (b + 1) (r - b) = rowSegment g (b + 1) n ++ [rowOf g r] := by
        rw [hn, rowSegment_succ_last, hrn]
      have hn' : r - 1 - b = n := by omega
      cases hf : check_row_is_full g r with
      | false =>
        have hf' : isFullRow (rowOf g r) = false := by rw [← check_row_is_full_eq]; exact hf
        have hcount : (rowSegment g (b + 1) (r - b)).countP isFullRow
            = (rowSegment g (b + 1) n).countP isFullRow := by
          rw [hseg, List.countP_append]; simp [hf']
        rw [hcount] at hm
        obtain ⟨g', hg', hframe, hrows⟩ := ih (r - 1) g (by omega) hb (by rw [hn']; omega)
        refine ⟨g', ?_, ?_, ?_⟩
        · rw [eliminate_loop_not_full b _ r g (by omega) hf]; exact hg'
        · intro i c hic
          exact eliminate_loop_frame b _ _ _ _
            (by rw [eliminate_loop_not_full b _ r g (by omega) hf]; exact hg') i c hic
        · have hrow : rowOf g' r = rowOf g r :=
            rowOf_congr (fun c _ => hframe r c (by omega))
          rw [hn'] at hrows
          rw [hcount, hseg, List.filter_append, hn, rowSegment_succ_last, hrn, hrows, hrow]
          simp [hf']
      | true =>
        have hf' : isFullRow (rowOf g r) = true := by rw [← check_row_is_full_eq]; exact hf
        have hcount : (rowSegment g (b + 1) (r - b)).countP isFullRow
            = (rowSegment g (b + 1) n).countP isFullRow + 1 := by
          rw [hseg, List.countP_append]; simp [hf']
        rw [hcount] at hm
        have hcount1 : (emptyRow :: rowSegment g (b + 1) n).countP isFullRow
            = (rowSegment g (b + 1) n).countP isFullRow := by
          rw [List.countP_cons_of_neg]; simp [isFullRow_emptyRow]
        have hseg1 : rowSegment (scroll_down g b r) (b + 1) (r - b)
            = emptyRow :: rowSegment g (b + 1) n := by
          rw [rowSegment_scroll_down g b r hbr, hn, rowSegment_succ_first, hb]
        have hb1 : rowOf (scroll_down g b r) b = emptyRow := by
          rw [rowOf_scroll_down, if_neg (by omega)]; exact hb
        obtain ⟨g', hg', hframe, hrows⟩ := ih r (scroll_down g b r) hbr hb1
          (by rw [hseg1, hcount1]; omega)
        refine ⟨g', ?_, ?_, ?_⟩
        · rw [eliminate_loop_full b _ r g (by omega) hf]; exact hg'
        · intro i c hic
          exact eliminate_loop_frame b _ _ _ _
            (by rw [eliminate_loop_full b _ r g (by omega) hf]; exact hg') i c hic
        · rw [hrows, hcount, hseg1, hcount1, hseg, List.filter_append]
          simp [hf', isFullRow_emptyRow, List.replicate_succ', List.append_assoc]

/-! ### The boundary search -/

/-- Scanning upwards in index from `s`: the result is the last index in
`s .. s + n` accepted by `P`, or `s` itself. -/
theorem foldl_scan_down (P : Nat → Bool) (s : Nat) : ∀ n : Nat,
    let b := (List.range' (s + 1) n).foldl (fun b r => if P r then r else b) s
    s ≤ b ∧ b ≤ s + n ∧ (b = s ∨ P b = true) ∧ ∀ r, b < r → r ≤ s + n → P r = false := by
  intro n
  induction n with
  | zero => simp; intro r h1 h2; omega
  | succ n ih =>
    simp only [List.range'_concat, List.foldl_append, List.foldl_cons, List.foldl_nil,
      Nat.one_mul] at ih ⊢
    obtain ⟨h1, h2, h3, h4⟩ := ih
    cases hP : P (s + 1 + n) with
    | true =>
      simp only [if_true]
      refine ⟨by omega, by omega, Or.inr hP, fun r hr1 hr2 => by omega⟩
    | false =>
      simp only [Bool.false_eq_true, if_false]
      refine ⟨h1, by omega, h3, fun r hr1 hr2 => ?_⟩
      by_cases hr : r = s + 1 + n
      · rw [hr]; exact hP
      · exact h4 r hr1 (by omega)

/-- Scanning downwards in index over `lo .. lo + n - 1`: the result is the
least accepted index, or the start value when none is accepted. -/
theorem foldl_scan_up (P : Nat → Bool) (init lo : Nat) : ∀ n : Nat,
    let b := ((List.range' lo n).reverse).foldl (fun b r => if P r then r else b) init
    (b = init ∧ ∀ r, lo ≤ r → r < lo + n → P r = false) ∨
    (lo ≤ b ∧ b < lo + n ∧ P b = true ∧ ∀ r, lo ≤ r → r < b → P r = false) := by
  intro n
  induction n generalizing lo with
  | zero => left; simp; intro r h1 h2; omega
  | succ n ih =>
    simp only [List.range'_succ, List.reverse_cons, List.foldl_append, List.foldl_cons,
      List.foldl_nil]
    cases hP : P lo with
    | true =>
      right
      simp only [if_true]
      exact ⟨le_refl _, by omega, hP, fun r h1 h2 => by omega⟩
    | false =>
      simp only [Bool.false_eq_true, if_false]
      rcases ih (lo + 1) with ⟨h1, h2⟩ | ⟨h1, h2, h3, h4⟩
      · left
        refine ⟨h1, fun r hr1 hr2 => ?_⟩
        by_cases hr : r = lo
        · rw [hr]; exact hP
        · exact h2 r (by omega) (by omega)
      · right
        refine ⟨by omega, by omega, h3, fun r hr1 hr2 => ?_⟩
        by_cases hr : r = lo
        · rw [hr]; exact hP
        · exact h4 r (by omega) hr2

theorem find_the_bottom_empty_line_eq (g : Grid) :
    find_the_bottom_empty_line g =
      if check_row_is_empty g 16 then
        (List.range' (16 + 1) 15).foldl (fun b r => if check_row_is_empty g r then r else b) 16
      else
        ((List.range' 4 12).reverse).foldl (fun b r => if check_row_is_empty g r then r else b) 16 :=
  rfl

/-- The boundary index lies between `TETRIS_EXTRA_HEIGHT` and the last row. -/
theorem find_the_bottom_empty_line_bounds (g : Grid) :
    TETRIS_EXTRA_HEIGHT ≤ find_the_bottom_empty_line g ∧
      find_the_bottom_empty_line g < TETRIS_ALL_HEIGHT := by
  rw [find_the_bottom_empty_line_eq]
  simp only [TETRIS_ALL_HEIGHT, TETRIS_HEIGHT, TETRIS_EXTRA_HEIGHT]
  split
  · have h := foldl_scan_down (check_row_is_empty g) 16 15
    simp only at h
    omega
  · have h := foldl_scan_up (check_row_is_empty g) 16 4 12
    simp only at h
    omega

/-- A settled stack: rows `0 .. k - 1` entirely `Empty`, each of the rows
`k .. 31` with a non-Empty cell. -/
theorem find_the_bottom_empty_line_settled (g : Grid) (k : Nat) (hk5 : 5 ≤ k)
    (hE : ∀ r, r < k → check_row_is_empty g r = true)
    (hN : ∀ r, k ≤ r → r < TETRIS_ALL_HEIGHT → check_row_is_empty g r = false) :
    find_the_bottom_empty_line g < k := by
  have hb := find_the_bottom_empty_line_bounds g
  revert hb
  rw [find_the_bottom_empty_line_eq]
  simp only [TETRIS_ALL_HEIGHT, TETRIS_HEIGHT, TETRIS_EXTRA_HEIGHT] at hN ⊢
  split
  · rename_i h16
    have h := foldl_scan_down (check_row_is_empty g) 16 15
    simp only at h
    obtain ⟨h1, h2, h3, h4⟩ := h
    intro hb
    by_contra hlt
    have := hN _ (by omega) hb.2
    rcases h3 with h3 | h3
    · rw [h3] at this; rw [this] at h16; cases h16
    · rw [this] at h3; cases h3
  · have h := foldl_scan_up (check_row_is_empty g) 16 4 12
    simp only at h
    intro hb
    rcases h with ⟨_, h2⟩ | ⟨h1, h2, h3, h4⟩
    · have := h2 4 (by omega) (by omega)
      rw [hE 4 (by omega)] at this; cases this
    · by_contra hlt
      have := h4 4 (by omega) (by omega)
      rw [hE 4 (by omega)] at this; cases this

/-! ### Whole-grid statements -/

theorem rowsOf_eq_rowSegment (g : Grid) : rowsOf g = rowSegment g 0 TETRIS_ALL_HEIGHT := by
  unfold rowsOf rowSegment
  rw [List.range_eq_range']

theorem fullRowCount_eq (g : Grid) : fullRowCount g = (rowsOf g).countP isFullRow := by
  unfold fullRowCount rowsOf
  rw [List.countP_map, List.countP_eq_length_filter]
  congr 1

theorem survivingRows_eq (g : Grid) :
    survivingRows g = (rowsOf g).filter (fun row => !isFullRow row) := by
  unfold survivingRows rowsOf
  rw [List.filter_map]
  congr 1

theorem rowSegment_all_empty (g : Grid) (lo n : Nat)
    (h : ∀ i, lo ≤ i → i < lo + n → rowOf g i = emptyRow) :
    rowSegment g lo n = List.replicate n emptyRow := by
  induction n generalizing lo with
  | zero => simp [rowSegment]
  | succ n ih =>
    rw [rowSegment_succ_first, h lo (le_refl _) (by omega),
      ih (lo + 1) (fun i h1 h2 => h i (by omega) (by omega)), List.replicate_succ]

theorem not_full_of_empty_cell (g : Grid) (r : Nat)
    (h : ∃ c, c < TETRIS_WIDTH ∧ g.cell r c = Block.Empty) : check_row_is_full g r = false := by
  cases hf : check_row_is_full g r with
  | false => rfl
  | true =>
    obtain ⟨c, hc, he⟩ := h
    exact absurd he ((check_row_is_full_iff g r).mp hf c hc)

/-- Elimination on a settled stack is compaction. -/
theorem eliminate_lines_settled_rows (g : Grid) (k fuel : Nat) (hk5 : 5 ≤ k)
    (hE : ∀ r, r < k → check_row_is_empty g r = true)
    (hN : ∀ r, k ≤ r → r < TETRIS_ALL_HEIGHT → check_row_is_empty g r = false)
    (hfuel : 2 * TETRIS_ALL_HEIGHT ≤ fuel) :
    ∃ g', eliminate_lines fuel g = some g' ∧ rowsOf g' = compactedRows g := by
  have hb := find_the_bottom_empty_line_bounds g
  have hbk := find_the_bottom_empty_line_settled g k hk5 hE hN
  generalize hbdef : find_the_bottom_empty_line g = b at hb hbk
  simp only [TETRIS_ALL_HEIGHT, TETRIS_HEIGHT, TETRIS_EXTRA_HEIGHT] at hb hfuel
  have hrowb : rowOf g b = emptyRow := (rowOf_eq_emptyRow_iff g b).mpr (hE b hbk)
  have hlen : (rowSegment g (b + 1) (31 - b)).length = 31 - b := by simp [rowSegment]
  have hcnt := List.countP_le_length isFullRow (l := rowSegment g (b + 1) (31 - b))
  obtain ⟨g', hg', hframe, hrows⟩ :=
    eliminate_loop_compacts b fuel 31 g (by omega) hrowb (by omega)
  refine ⟨g', ?_, ?_⟩
  · unfold eliminate_lines
    rw [hbdef]
    exact hg'
  · have hsplit : ∀ h : Grid, rowsOf h = rowSegment h 0 (b + 1) ++ rowSegment h (b + 1) (31 - b) := by
      intro h
      have e : TETRIS_ALL_HEIGHT = (b + 1) + (31 - b) := by
        simp only [TETRIS_ALL_HEIGHT, TETRIS_HEIGHT, TETRIS_EXTRA_HEIGHT]
        omega
      rw [rowsOf_eq_rowSegment, e, rowSegment_append, Nat.zero_add]
    have htop : rowSegment g 0 (b + 1) = List.replicate (b + 1) emptyRow :=
      rowSegment_all_empty g 0 (b + 1)
        (fun i _ hi => (rowOf_eq_emptyRow_iff g i).mpr (hE i (by omega)))
    have htop' : rowSegment g' 0 (b + 1) = rowSegment g 0 (b + 1) :=
      rowSegment_congr 0 (b + 1) (fun i _ hi => rowOf_congr (fun c _ => hframe i c (by omega)))
    unfold compactedRows
    rw [fullRowCount_eq, survivingRows_eq, hsplit g', hsplit g, htop', hrows, htop,
      List.countP_append, List.filter_append]
    have h1 : List.countP isFullRow (List.replicate (b + 1) emptyRow) = 0 := by
      rw [List.countP_eq_zero]
      intro row hrow
      rw [List.eq_of_mem_replicate hrow, isFullRow_emptyRow]
      simp
    have h2 : List.filter (fun row => !isFullRow row) (List.replicate (b + 1) emptyRow)
        = List.replicate (b + 1) emptyRow := by
      rw [List.filter_eq_self]
      intro row hrow
      rw [List.eq_of_mem_replicate hrow, isFullRow_emptyRow]
      rfl
    rw [h1, h2, Nat.zero_add, ← List.append_assoc, ← List.append_assoc, ← List.replicate_add,
      ← List.replicate_add, Nat.add_comm]

/-- Elimination on a grid with exactly one full row. -/
theorem eliminate_lines_one_full_row (g : Grid) (r fuel : Nat) (hr : r < TETRIS_ALL_HEIGHT)
    (hfull : check_row_is_full g r = true)
    (honly : ∀ r', r' < TETRIS_ALL_HEIGHT → r' ≠ r → check_row_is_full g r' = false)
    (hfuel : TETRIS_ALL_HEIGHT ≤ fuel) :
    ∃ g', eliminate_lines fuel g = some g' ∧
      ∀ i c, g'.cell i c =
        if find_the_bottom_empty_line g < i ∧ i ≤ r ∧ c < TETRIS_WIDTH then g.cell (i - 1) c
        else g.cell i c := by
  have hb := find_the_bottom_empty_line_bounds g
  unfold eliminate_lines
  generalize find_the_bottom_empty_line g = b at hb ⊢
  simp only [TETRIS_ALL_HEIGHT, TETRIS_HEIGHT, TETRIS_EXTRA_HEIGHT] at hb hfuel hr honly ⊢
  by_cases hbr : b < r
  · refine ⟨scroll_down g b r, ?_, fun i c => scroll_down_cell g b r i c⟩
    obtain ⟨f, rfl⟩ : ∃ f, fuel = f + (31 - r) := ⟨fuel - (31 - r), by omega⟩
    have e1 : (28 + 4 - 1 : Nat) = 31 := rfl
    rw [e1, eliminate_loop_skip b (31 - r) f 31 g (by omega)
      (fun i h1 h2 => honly i (by omega) (by omega))]
    have e2 : 31 - (31 - r) = r := by omega
    obtain ⟨f', rfl⟩ : ∃ f', f = f' + 1 := ⟨f - 1, by omega⟩
    rw [e2, eliminate_loop_full b f' r g hbr hfull]
    apply eliminate_loop_no_full b f' r _ (by omega)
    intro i hi1 hi2
    rw [check_row_is_full_eq, rowOf_scroll_down, if_pos ⟨hi1, hi2⟩, ← check_row_is_full_eq]
    exact honly (i - 1) (by omega) (by omega)
  · refine ⟨g, ?_, fun i c => ?_⟩
    · apply eliminate_loop_no_full b fuel _ g (by omega)
      intro i hi1 hi2
      exact honly i (by omega) (by omega)
    · rw [if_neg (by omega)]

/-- Elimination on a grid without a full row. -/
theorem eliminate_lines_unchanged (g : Grid) (fuel : Nat)
    (hnf : ∀ r, r < TETRIS_ALL_HEIGHT → check_row_is_full g r = false)
    (hfuel : TETRIS_ALL_HEIGHT ≤ fuel) :
    eliminate_lines fuel g = some g := by
  have hb := find_the_bottom_empty_line_bounds g
  unfold eliminate_lines
  simp only [TETRIS_ALL_HEIGHT, TETRIS_HEIGHT, TETRIS_EXTRA_HEIGHT] at hb hfuel hnf ⊢
  apply eliminate_loop_no_full _ fuel _ g (by omega)
  intro i hi1 hi2
  exact hnf i (by omega)

/-! ### Claims about `eliminate_lines` -/

/-- C2. On a settled stack (rows `0 .. k - 1` entirely Empty and each of the
rows `k .. 31` with a non-Empty cell, `5 ≤ k ≤ 32`) `eliminate_lines` terminates
and returns the compaction of its input: as many Empty rows as the input has
full rows, followed by the rows of the input that are not full, in their
original order. -/
theorem eliminate_lines_compacts_settled_stack (g : Grid) (k fuel : Nat)
    (hk5 : 5 ≤ k) (_hk32 : k ≤ TETRIS_ALL_HEIGHT)
    (hE : ∀ r, r < k → ∀ c, c < TETRIS_WIDTH → g.cell r c = Block.Empty)
    (hN : ∀ r, k ≤ r → r < TETRIS_ALL_HEIGHT → ∃ c, c < TETRIS_WIDTH ∧ g.cell r c ≠ Block.Empty)
    (hfuel : 2 * TETRIS_ALL_HEIGHT ≤ fuel) :
    ∃ g', eliminate_lines fuel g = some g' ∧
      rowsOf g' = List.replicate (fullRowCount g) emptyRow ++ survivingRows g := by
  apply eliminate_lines_settled_rows g k fuel hk5 _ _ hfuel
  · intro r hr
    exact (check_row_is_empty_iff g r).mpr (hE r hr)
  · intro r hr1 hr2
    cases he : check_row_is_empty g r with
    | false => rfl
    | true =>
      obtain ⟨c, hc, hne⟩ := hN r hr1 hr2
      exact absurd ((check_row_is_empty_iff g r).mp he c hc) hne

theorem eliminate_lines_compacts_settled_stack_witness :
    ∃ g', eliminate_lines 64 settledExample = some g' ∧
      rowsOf g' = List.replicate (fullRowCount settledExample) emptyRow
        ++ survivingRows settledExample :=
  eliminate_lines_compacts_settled_stack settledExample 28 64 (by decide) (by decide)
    (by decide) (by decide) (by decide)

/-- C3, as stated, fails: `floatingExample` has exactly one full row (row 31),
and row 30 of the result is not the input row 29 (the block at row 29,
column 0 has not moved down). -/
theorem eliminate_lines_single_full_row_counterexample :
    (∀ c, c < TETRIS_WIDTH → floatingExample.cell 31 c ≠ Block.Empty) ∧
    (∀ r, r < TETRIS_ALL_HEIGHT → r ≠ 31 →
      ∃ c, c < TETRIS_WIDTH ∧ floatingExample.cell r c = Block.Empty) ∧
    floatingExample.cell 29 0 = Block.O ∧
    (eliminate_lines 64 floatingExample).map (fun g' => g'.cell 30 0) = some Block.Empty := by
  decide

/-- C3 (amended). On a grid with exactly one full row, at index `r`,
`eliminate_lines` terminates; with `b` the index returned by
`find_the_bottom_empty_line`, row `i` of the result is the input row `i - 1`
for `b < i ≤ r` and the input row `i` for every other `i` (so nothing changes
when `r ≤ b`).  When moreover rows `0 .. b` of the input are Empty and `b < r`,
row 0 of the result is Empty, row `i` is the input row `i - 1` for
`1 ≤ i ≤ r`, and row `i` is the input row `i` for `i > r`. -/
theorem eliminate_lines_single_full_row (g : Grid) (r fuel : Nat)
    (hr : r < TETRIS_ALL_HEIGHT)
    (hfull : ∀ c, c < TETRIS_WIDTH → g.cell r c ≠ Block.Empty)
    (honly : ∀ r', r' < TETRIS_ALL_HEIGHT → r' ≠ r →
      ∃ c, c < TETRIS_WIDTH ∧ g.cell r' c = Block.Empty)
    (hfuel : TETRIS_ALL_HEIGHT ≤ fuel) :
    ∃ g', eliminate_lines fuel g = some g' ∧
      (∀ i c, i < TETRIS_ALL_HEIGHT → c < TETRIS_WIDTH →
        g'.cell i c =
          if find_the_bottom_empty_line g < i ∧ i ≤ r then g.cell (i - 1) c else g.cell i c) ∧
      ((∀ i, i ≤ find_the_bottom_empty_line g → ∀ c, c < TETRIS_WIDTH → g.cell i c = Block.Empty) →
        find_the_bottom_empty_line g < r →
        (∀ c, c < TETRIS_WIDTH → g'.cell 0 c = Block.Empty) ∧
        (∀ i, 1 ≤ i → i ≤ r → ∀ c, c < TETRIS_WIDTH → g'.cell i c = g.cell (i - 1) c) ∧
        (∀ i, r < i → i < TETRIS_ALL_HEIGHT → ∀ c, c < TETRIS_WIDTH → g'.cell i c = g.cell i c)) := by
  obtain ⟨g', hg', hcell⟩ := eliminate_lines_one_full_row g r fuel hr
    ((check_row_is_full_iff g r).mpr hfull)
    (fun r' h1 h2 => not_full_of_empty_cell g r' (honly r' h1 h2)) hfuel
  refine ⟨g', hg', ?_, ?_⟩
  · intro i c _ hc
    rw [hcell i c]
    by_cases h : find_the_bottom_empty_line g < i ∧ i ≤ r
    · rw [if_pos ⟨h.1, h.2, hc⟩, if_pos h]
    · rw [if_neg (fun h' => h ⟨h'.1, h'.2.1⟩), if_neg h]
  · intro htop hbr
    refine ⟨fun c hc => ?_, fun i hi1 hi2 c hc => ?_, fun i hi1 _ c _ => ?_⟩
    · rw [hcell 0 c, if_neg (by omega)]
      exact htop 0 (Nat.zero_le _) c hc
    · rw [hcell i c]
      by_cases h : find_the_bottom_empty_line g < i
      · rw [if_pos ⟨h, hi2, hc⟩]
      · rw [if_neg (fun h' => h h'.1), htop i (by omega) c hc, htop (i - 1) (by omega) c hc]
    · rw [hcell i c, if_neg (by omega)]

theorem eliminate_lines_single_full_row_witness :
    ∃ g', eliminate_lines 64 oneFullRowExample = some g' ∧
      (∀ i c, i < TETRIS_ALL_HEIGHT → c < TETRIS_WIDTH →
        g'.cell i c =
          if find_the_bottom_empty_line oneFullRowExample < i ∧ i ≤ 31
          then oneFullRowExample.cell (i - 1) c else oneFullRowExample.cell i c) ∧
      (∀ c, c < TETRIS_WIDTH → g'.cell 0 c = Block.Empty) ∧
      (∀ i, 1 ≤ i → i ≤ 31 → ∀ c, c < TETRIS_WIDTH →
        g'.cell i c = oneFullRowExample.cell (i - 1) c) ∧
      (∀ i, 31 < i → i < TETRIS_ALL_HEIGHT → ∀ c, c < TETRIS_WIDTH →
        g'.cell i c = oneFullRowExample.cell i c) := by
  obtain ⟨g', h1, h2, h3⟩ :=
    eliminate_lines_single_full_row oneFullRowExample 31 64 (by decide) (by decide) (by decide)
      (by decide)
  exact ⟨g', h1, h2, h3 (by decide) (by decide)⟩

/-- C4. On a grid without a full row `eliminate_lines` terminates and returns
its input unchanged; hence the number of non-Empty cells is unchanged and a
second application changes nothing. -/
theorem eliminate_lines_no_full_row (g : Grid) (fuel : Nat)
    (hnf : ∀ r, r < TETRIS_ALL_HEIGHT → ∃ c, c < TETRIS_WIDTH ∧ g.cell r c = Block.Empty)
    (hfuel : TETRIS_ALL_HEIGHT ≤ fuel) :
    eliminate_lines fuel g = some g ∧
      (eliminate_lines fuel g).map nonEmptyCount = some (nonEmptyCount g) ∧
      (eliminate_lines fuel g).bind (eliminate_lines fuel) = some g := by
  have h : eliminate_lines fuel g = some g :=
    eliminate_lines_unchanged g fuel (fun r hr => not_full_of_empty_cell g r (hnf r hr)) hfuel
  refine ⟨h, ?_, ?_⟩
  · rw [h]; rfl
  · rw [h]; exact h

theorem eliminate_lines_no_full_row_witness :
    eliminate_lines 32 oneBlockExample = some oneBlockExample ∧
      (eliminate_lines 32 oneBlockExample).map nonEmptyCount
        = some (nonEmptyCount oneBlockExample) ∧
      (eliminate_lines 32 oneBlockExample).bind (eliminate_lines 32) = some oneBlockExample :=
  eliminate_lines_no_full_row oneBlockExample 32 (by decide) (by decide)

/-! ### Grid access and the collision loop -/

theorem data_get_eq_some_empty_iff (g : Grid) (r c : Int) :
    data_get g r c = some Block.Empty ↔ onEmptyCell g ⟨r, c⟩ = true := by
  unfold data_get onEmptyCell
  by_cases h : 0 ≤ r ∧ r < (TETRIS_ALL_HEIGHT : Int) ∧ 0 ≤ c ∧ c < (TETRIS_WIDTH : Int)
  · rw [if_pos h]
    simp [h.1, h.2.1, h.2.2.1, h.2.2.2]
  · rw [if_neg h]
    simp only [Bool.and_eq_true, decide_eq_true_eq]
    constructor
    · intro h'; cases h'
    · intro h'; exact absurd ⟨h'.1.1.1.1, h'.1.1.1.2, h'.1.1.2, h'.1.2⟩ h

theorem data_get_in_bounds (g : Grid) (r c : Int) (h0 : 0 ≤ r) (h1 : r < (TETRIS_ALL_HEIGHT : Int))
    (h2 : 0 ≤ c) (h3 : c < (TETRIS_WIDTH : Int)) :
    data_get g r c = some (g.cell r.toNat c.toNat) := by
  unfold data_get
  rw [if_pos ⟨h0, h1, h2, h3⟩]

theorem onEmptyCell_bounds {g : Grid} {p : Pos} (h : onEmptyCell g p = true) :
    0 ≤ p.row ∧ p.row < (TETRIS_ALL_HEIGHT : Int) ∧ 0 ≤ p.col ∧ p.col < (TETRIS_WIDTH : Int) ∧
      g.cell p.row.toNat p.col.toNat = Block.Empty := by
  unfold onEmptyCell at h
  simp only [Bool.and_eq_true, decide_eq_true_eq] at h
  exact ⟨h.1.1.1.1, h.1.1.1.2, h.1.1.2, h.1.2, h.2⟩

/-- The loop reports no collision exactly when every cell passes the bound
test and lies on an Empty cell of the grid. -/
theorem collision_loop_eq_false_iff (oob : Int → Int → Bool) (g : Grid) (pos : Pos)
    (shape : List Pos) :
    collision_loop oob g pos shape = some false ↔
      ∀ p ∈ shape, oob (pos.row + p.row) (pos.col + p.col) = false ∧
        onEmptyCell g ⟨pos.row + p.row, pos.col + p.col⟩ = true := by
  induction shape with
  | nil => simp [collision_loop]
  | cons p rest ih =>
    simp only [collision_loop, List.mem_cons, forall_eq_or_imp]
    cases hoob : oob (pos.row + p.row) (pos.col + p.col) with
    | true => simp
    | false =>
      simp only [Bool.false_eq_true, if_false, true_and]
      cases hget : data_get g (pos.row + p.row) (pos.col + p.col) with
      | none =>
        constructor
        · intro h; cases h
        · intro h
          have h1 := h.1
          rw [← data_get_eq_some_empty_iff, hget] at h1
          cases h1
      | some b =>
        by_cases hb : b = Block.Empty
        · subst hb
          simp only [ne_eq, not_true_eq_false, if_false]
          rw [ih, ← data_get_eq_some_empty_iff, hget]
          simp
        · simp only [ne_eq, hb, not_false_eq_true, if_true]
          rw [← data_get_eq_some_empty_iff, hget]
          simp [hb]

/-- The loop reads only cells that passed the bound test; when each of those
is a cell of the grid it returns a result. -/
theorem collision_loop_isSome (oob : Int → Int → Bool) (g : Grid) (pos : Pos)
    (shape : List Pos)
    (h : ∀ p ∈ shape, oob (pos.row + p.row) (pos.col + p.col) = false →
      0 ≤ pos.row + p.row ∧ pos.row + p.row < (TETRIS_ALL_HEIGHT : Int) ∧
        0 ≤ pos.col + p.col ∧ pos.col + p.col < (TETRIS_WIDTH : Int)) :
    ∃ b, collision_loop oob g pos shape = some b := by
  induction shape with
  | nil => exact ⟨false, rfl⟩
  | cons p rest ih =>
    simp only [collision_loop]
    cases hoob : oob (pos.row + p.row) (pos.col + p.col) with
    | true => exact ⟨true, by simp⟩
    | false =>
      obtain ⟨h0, h1, h2, h3⟩ := h p (List.mem_cons_self _ _) hoob
      rw [data_get_in_bounds g _ _ h0 h1 h2 h3]
      simp only [Bool.false_eq_true, if_false]
      by_cases hb : g.cell (pos.row + p.row).toNat (pos.col + p.col).toNat = Block.Empty
      · simp only [ne_eq, hb, not_true_eq_false, if_false]
        exact ih (fun q hq => h q (List.mem_cons_of_mem _ hq))
      · exact ⟨true, by simp [hb]⟩

/-! ### The shape table -/

/-- A table row exists exactly for the seven piece kinds and the rotation
indices `0 .. 3`. -/
theorem shapeOf_eq_some {block : Block} {rot : Int} {shape : List Pos}
    (h : shapeOf block rot = some shape) :
    block ≠ Block.Empty ∧ ∃ n : Nat, n < 4 ∧ rot = (n : Int) := by
  unfold shapeOf at h
  by_cases hneg : rot < 0
  · rw [if_pos hneg] at h; cases h
  · rw [if_neg hneg] at h
    obtain ⟨n, rfl⟩ : ∃ n : Nat, rot = (n : Int) := ⟨rot.toNat, by omega⟩
    refine ⟨?_, n, ?_, rfl⟩
    · rintro rfl
      simp [blockShapeMap, Block.index] at h
    · by_contra hn
      have hn4 : 4 ≤ n := by omega
      cases block <;>
        simp [blockShapeMap, Block.index, List.getElem?_eq_none, hn4] at h

/-- Every offset of the table is within two cells of the anchor. -/
theorem shapeOf_offsets {block : Block} {rot : Int} {shape : List Pos}
    (h : shapeOf block rot = some shape) :
    ∀ p ∈ shape, -2 ≤ p.row ∧ p.row ≤ 2 ∧ -2 ≤ p.col ∧ p.col ≤ 2 := by
  obtain ⟨_, n, hn, rfl⟩ := shapeOf_eq_some h
  intro p hp
  cases block <;> interval_cases n <;>
    simp [shapeOf, blockShapeMap, Block.index] at h <;>
    (subst h; simp at hp; rcases hp with rfl | rfl | rfl | rfl <;> decide)

theorem occupiedCells_eq_some {context : TetrisContext} {cells : List Pos}
    (h : occupiedCells context = some cells) :
    ∃ shape, shapeOf context.currentBlock context.currentBlockRotateTimes = some shape ∧
      cells = shape.map (fun p =>
        ⟨context.currentBlockPos.row + p.row, context.currentBlockPos.col + p.col⟩) := by
  unfold occupiedCells at h
  cases hs : shapeOf context.currentBlock context.currentBlockRotateTimes with
  | none => rw [hs] at h; cases h
  | some shape =>
    rw [hs] at h
    exact ⟨shape, rfl, by simpa using h.symm⟩

theorem pieceInBoundsOnEmpty_iff (context : TetrisContext) :
    pieceInBoundsOnEmpty context = true ↔
      ∃ shape, shapeOf context.currentBlock context.currentBlockRotateTimes = some shape ∧
        ∀ p ∈ shape, onEmptyCell context.data
          ⟨context.currentBlockPos.row + p.row, context.currentBlockPos.col + p.col⟩ = true := by
  unfold pieceInBoundsOnEmpty occupiedCells
  cases hs : shapeOf context.currentBlock context.currentBlockRotateTimes with
  | none => simp
  | some shape => simp [List.all_eq_true]

/-! ### Lateral moves -/

theorem withCol_withCol_back (context : TetrisContext) (c c' : Int)
    (h : c' = context.currentBlockPos.col) : withCol (withCol context c) c' = context := by
  subst h
  cases context
  rfl

theorem withRow_withRow_back (context : TetrisContext) (r r' : Int)
    (h : r' = context.currentBlockPos.row) : withRow (withRow context r) r' = context := by
  subst h
  cases context
  rfl

theorem move_left_eq (context : TetrisContext) (h : pieceInBoundsOnEmpty context = true) :
    move_left context =
      some (if leftFree context then withCol context (context.currentBlockPos.col - 1)
        else context) := by
  obtain ⟨shape, hs, hall⟩ := (pieceInBoundsOnEmpty_iff context).mp h
  have hchk : check_left_collision (withCol context (context.currentBlockPos.col - 1))
      = collision_loop (fun _ c => decide (c < 0)) context.data
          ⟨context.currentBlockPos.row, context.currentBlockPos.col - 1⟩ shape := by
    simp [check_left_collision, check_collision, withCol, hs]
  have hfree : leftFree context = shape.all (fun p =>
      decide (0 ≤ context.currentBlockPos.col + p.col - 1) &&
        onEmptyCell context.data
          ⟨context.currentBlockPos.row + p.row, context.currentBlockPos.col + p.col - 1⟩) := by
    simp only [leftFree, occupiedCells, hs, Option.map_some', all_map_apply]
  obtain ⟨b, hb⟩ := collision_loop_isSome (fun _ c => decide (c < 0)) context.data
    ⟨context.currentBlockPos.row, context.currentBlockPos.col - 1⟩ shape
    (by
      intro p hp hoob
      have hbd := onEmptyCell_bounds (hall p hp)
      simp only [decide_eq_false_iff_not] at hoob
      simp only at hbd ⊢
      omega)
  have hiff := collision_loop_eq_false_iff (fun _ c => decide (c < 0)) context.data
    ⟨context.currentBlockPos.row, context.currentBlockPos.col - 1⟩ shape
  have hfree_iff : leftFree context = true ↔ b = false := by
    rw [hfree, List.all_eq_true, ← Option.some_inj, ← hb, hiff]
    constructor
    · intro hf p hp
      have := hf p hp
      simp only [Bool.and_eq_true, decide_eq_true_eq] at this
      have e : context.currentBlockPos.col - 1 + p.col
          = context.currentBlockPos.col + p.col - 1 := by ring
      simp only [e, decide_eq_false_iff_not]
      exact ⟨by omega, this.2⟩
    · intro hf p hp
      have := hf p hp
      have e : context.currentBlockPos.col - 1 + p.col
          = context.currentBlockPos.col + p.col - 1 := by ring
      simp only [e, decide_eq_false_iff_not] at this
      simp only [Bool.and_eq_true, decide_eq_true_eq]
      exact ⟨by omega, this.2⟩
  unfold move_left
  simp only [hchk, hb]
  cases b with
  | false =>
    rw [if_pos (hfree_iff.mpr rfl)]
  | true =>
    have hnf : ¬ leftFree context = true := fun hf => by
      have := hfree_iff.mp hf; cases this
    rw [if_neg hnf]
    simp only
    rw [withCol_withCol_back]
    simp [withCol]

theorem move_right_eq (context : TetrisContext) (h : pieceInBoundsOnEmpty context = true) :
    move_right context =
      some (if rightFree context then withCol context (context.currentBlockPos.col + 1)
        else context) := by
  obtain ⟨shape, hs, hall⟩ := (pieceInBoundsOnEmpty_iff context).mp h
  have hchk : check_right_collision (withCol context (context.currentBlockPos.col + 1))
      = collision_loop (fun _ c => decide (c ≥ (TETRIS_WIDTH : Int))) context.data
          ⟨context.currentBlockPos.row, context.currentBlockPos.col + 1⟩ shape := by
    simp [check_right_collision, check_collision, withCol, hs]
  have hfree : rightFree context = shape.all (fun p =>
      decide (context.currentBlockPos.col + p.col + 1 < (TETRIS_WIDTH : Int)) &&
        onEmptyCell context.data
          ⟨context.currentBlockPos.row + p.row, context.currentBlockPos.col + p.col + 1⟩) := by
    simp only [rightFree, occupiedCells, hs, Option.map_some', all_map_apply]
  obtain ⟨b, hb⟩ := collision_loop_isSome (fun _ c => decide (c ≥ (TETRIS_WIDTH : Int)))
    context.data ⟨context.currentBlockPos.row, context.currentBlockPos.col + 1⟩ shape
    (by
      intro p hp hoob
      have hbd := onEmptyCell_bounds (hall p hp)
      simp only [decide_eq_false_iff_not] at hoob
      simp only at hbd ⊢
      omega)
  have hiff := collision_loop_eq_false_iff (fun _ c => decide (c ≥ (TETRIS_WIDTH : Int)))
    context.data ⟨context.currentBlockPos.row, context.currentBlockPos.col + 1⟩ shape
  have hfree_iff : rightFree context = true ↔ b = false := by
    rw [hfree, List.all_eq_true, ← Option.some_inj, ← hb, hiff]
    constructor
    · intro hf p hp
      have := hf p hp
      simp only [Bool.and_eq_true, decide_eq_true_eq] at this
      have e : context.currentBlockPos.col + 1 + p.col
          = context.currentBlockPos.col + p.col + 1 := by ring
      simp only [e, decide_eq_false_iff_not]
      exact ⟨by omega, this.2⟩
    · intro hf p hp
      have := hf p hp
      have e : context.currentBlockPos.col + 1 + p.col
          = context.currentBlockPos.col + p.col + 1 := by ring
      simp only [e, decide_eq_false_iff_not] at this
      simp only [Bool.and_eq_true, decide_eq_true_eq]
      exact ⟨by omega, this.2⟩
  unfold move_right
  simp only [hchk, hb]
  cases b with
  | false =>
    rw [if_pos (hfree_iff.mpr rfl)]
  | true =>
    have hnf : ¬ rightFree context = true := fun hf => by
      have := hfree_iff.mp hf; cases this
    rw [if_neg hnf]
    simp only
    rw [withCol_withCol_back]
    simp [withCol]

/-! ### Locking -/

theorem gridWithCells_nil (g : Grid) (block : Block) : gridWithCells g [] block = g := by
  ext r c
  simp [gridWithCells]

theorem gridWithCells_cons (g : Grid) (block : Block) (r c : Int) (cells : List Pos)
    (hr : 0 ≤ r) (hc : 0 ≤ c) :
    gridWithCells (setCell g r.toNat c.toNat block) cells block
      = gridWithCells g (⟨r, c⟩ :: cells) block := by
  ext r' c'
  simp only [gridWithCells, setCell_cell, List.any_cons]
  by_cases h1 : r' = r.toNat ∧ c' = c.toNat
  · have hr' : r = (r' : Int) := by omega
    have hc' : c = (c' : Int) := by omega
    have hd : (decide (r = (r' : Int)) && decide (c = (c' : Int))) = true := by
      rw [decide_eq_true hr', decide_eq_true hc']; rfl
    rw [if_pos h1]
    simp only [hd, Bool.true_or, if_true, ite_self]
  · have hd : (decide (r = (r' : Int)) && decide (c = (c' : Int))) = false := by
      rw [Bool.and_eq_false_iff, decide_eq_false_iff_not, decide_eq_false_iff_not]
      by_contra hcon
      exact h1 ⟨by omega, by omega⟩
    rw [if_neg h1]
    simp only [hd, Bool.false_or]

/-- The store loop writes exactly the cells of the piece. -/
theorem save_loop_eq (block : Block) (pos : Pos) : ∀ (shape : List Pos) (g : Grid),
    (∀ p ∈ shape, 0 ≤ pos.row + p.row ∧ pos.row + p.row < (TETRIS_ALL_HEIGHT : Int) ∧
      0 ≤ pos.col + p.col ∧ pos.col + p.col < (TETRIS_WIDTH : Int)) →
    save_loop block pos shape g
      = some (gridWithCells g (shape.map (fun p => ⟨pos.row + p.row, pos.col + p.col⟩)) block) := by
  intro shape
  induction shape with
  | nil => intro g _; simp [save_loop, gridWithCells_nil]
  | cons p rest ih =>
    intro g h
    obtain ⟨h0, h1, h2, h3⟩ := h p (List.mem_cons_self _ _)
    simp only [save_loop, data_set, if_pos (And.intro h0 (And.intro h1 (And.intro h2 h3)))]
    rw [ih _ (fun q hq => h q (List.mem_cons_of_mem _ hq)), List.map_cons,
      gridWithCells_cons _ _ _ _ _ h0 h2]

theorem save_current_block_eq (context : TetrisContext)
    (h : pieceInBoundsOnEmpty context = true) :
    ∃ g, lockedGrid context = some g ∧
      save_current_block context = some { context with data := g } := by
  obtain ⟨shape, hs, hall⟩ := (pieceInBoundsOnEmpty_iff context).mp h
  refine ⟨gridWithCells context.data
    (shape.map (fun p => ⟨context.currentBlockPos.row + p.row,
      context.currentBlockPos.col + p.col⟩)) context.currentBlock, ?_, ?_⟩
  · simp [lockedGrid, occupiedCells, hs]
  · unfold save_current_block
    simp only [hs]
    rw [save_loop_eq _ _ _ _ (fun p hp => by
      have := onEmptyCell_bounds (hall p hp)
      exact ⟨this.1, this.2.1, this.2.2.1, this.2.2.2.1⟩)]

/-! ### `move_down` -/

theorem gen_random_block_fields (rand1 rand2 : Nat) (context : TetrisContext) :
    (gen_random_block rand1 rand2 context).data = context.data ∧
    (gen_random_block rand1 rand2 context).gameOver = context.gameOver ∧
    (gen_random_block rand1 rand2 context).currentBlock = Block.ofIndex (rand1 % 7) ∧
    (gen_random_block rand1 rand2 context).currentBlockRotateTimes = ((rand2 % 4 : Nat) : Int) ∧
    (gen_random_block rand1 rand2 context).currentBlockPos = ⟨2, 8⟩ :=
  ⟨rfl, rfl, rfl, rfl, rfl⟩

theorem locksPiece_eq_true_iff (context : TetrisContext) :
    locksPiece context = true ↔
      check_down_collision (withRow context (context.currentBlockPos.row + 1)) = some true := by
  simp [locksPiece]

/-- A call that does not lock only moves the anchor one row down. -/
theorem move_down_free (fuel rand1 rand2 : Nat) (context s' : TetrisContext)
    (h : move_down fuel rand1 rand2 context = some s') (hl : locksPiece context = false) :
    s' = withRow context (context.currentBlockPos.row + 1) := by
  unfold move_down at h
  cases hc : check_down_collision (withRow context (context.currentBlockPos.row + 1)) with
  | none => simp [hc] at h
  | some b =>
    cases b with
    | true => simp [locksPiece, hc] at hl
    | false => simp [hc] at h; exact h.symm

/-- A call that locks: the piece is saved, lines are eliminated, the flag is
set from row `TETRIS_EXTRA_HEIGHT`, and a piece is spawned. -/
theorem move_down_lock (fuel rand1 rand2 : Nat) (context s' : TetrisContext)
    (h : move_down fuel rand1 rand2 context = some s') (hl : locksPiece context = true) :
    ∃ saved g, save_current_block context = some saved ∧
      eliminate_lines fuel saved.data = some g ∧
      s'.data = g ∧
      s'.gameOver = (saved.gameOver || !check_row_is_empty g TETRIS_EXTRA_HEIGHT) ∧
      s'.currentBlock = Block.ofIndex (rand1 % 7) ∧
      s'.currentBlockRotateTimes = ((rand2 % 4 : Nat) : Int) ∧
      s'.currentBlockPos = ⟨2, 8⟩ := by
  rw [locksPiece_eq_true_iff] at hl
  unfold move_down at h
  simp only [hl] at h
  rw [withRow_withRow_back _ _ _ (by simp [withRow])] at h
  cases hsave : save_current_block context with
  | none => simp [hsave] at h
  | some saved =>
    cases helim : eliminate_lines fuel saved.data with
    | none => simp [hsave, helim] at h
    | some g =>
      simp only [hsave, helim, Option.some.injEq] at h
      subst h
      refine ⟨saved, g, rfl, helim, ?_⟩
      cases hrow : check_row_is_empty g TETRIS_EXTRA_HEIGHT <;>
        simp [gen_random_block, TETRIS_WIDTH]

theorem save_current_block_gameOver (context saved : TetrisContext)
    (h : save_current_block context = some saved) : saved.gameOver = context.gameOver := by
  unfold save_current_block at h
  cases hs : shapeOf context.currentBlock context.currentBlockRotateTimes with
  | none => simp [hs] at h
  | some shape =>
    cases hl : save_loop context.currentBlock context.currentBlockPos shape context.data with
    | none => simp [hs, hl] at h
    | some g => simp [hs, hl] at h; subst h; rfl

/-- For a piece in bounds and on Empty cells the collision check of `move_down`
reports a collision exactly when the piece is blocked below. -/
theorem locksPiece_eq_downBlocked (context : TetrisContext)
    (h : pieceInBoundsOnEmpty context = true) :
    locksPiece context = downBlocked context := by
  obtain ⟨shape, hs, hall⟩ := (pieceInBoundsOnEmpty_iff context).mp h
  have hchk : check_down_collision (withRow context (context.currentBlockPos.row + 1))
      = collision_loop (fun r _ => decide (r ≥ (TETRIS_ALL_HEIGHT : Int))) context.data
          ⟨context.currentBlockPos.row + 1, context.currentBlockPos.col⟩ shape := by
    simp [check_down_collision, check_collision, withRow, hs]
  have hblocked : downBlocked context = shape.any (fun p =>
      decide (context.currentBlockPos.row + p.row + 1 ≥ (TETRIS_ALL_HEIGHT : Int)) ||
        !onEmptyCell context.data
          ⟨context.currentBlockPos.row + p.row + 1, context.currentBlockPos.col + p.col⟩) := by
    simp only [downBlocked, occupiedCells, hs, Option.map_some', List.any_map]
    rfl
  obtain ⟨b, hb⟩ := collision_loop_isSome (fun r _ => decide (r ≥ (TETRIS_ALL_HEIGHT : Int)))
    context.data ⟨context.currentBlockPos.row + 1, context.currentBlockPos.col⟩ shape
    (by
      intro p hp hoob
      have hbd := onEmptyCell_bounds (hall p hp)
      simp only [decide_eq_false_iff_not] at hoob
      simp only at hbd ⊢
      omega)
  have hiff := collision_loop_eq_false_iff (fun r _ => decide (r ≥ (TETRIS_ALL_HEIGHT : Int)))
    context.data ⟨context.currentBlockPos.row + 1, context.currentBlockPos.col⟩ shape
  have hfalse : downBlocked context = false ↔ b = false := by
    rw [hblocked, List.any_eq_false, ← Option.some_inj, ← hb, hiff]
    constructor
    · intro hf p hp
      have := hf p hp
      simp only [Bool.or_eq_true, decide_eq_true_eq, Bool.not_eq_true', not_or, not_le,
        Bool.not_eq_false] at this
      have e : context.currentBlockPos.row + 1 + p.row
          = context.currentBlockPos.row + p.row + 1 := by ring
      simp only [e, decide_eq_false_iff_not]
      exact ⟨by omega, this.2⟩
    · intro hf p hp
      have := hf p hp
      have e : context.currentBlockPos.row + 1 + p.row
          = context.currentBlockPos.row + p.row + 1 := by ring
      simp only [e, decide_eq_false_iff_not] at this
      simp only [Bool.or_eq_true, decide_eq_true_eq, Bool.not_eq_true', not_or, not_le,
        Bool.not_eq_false]
      exact ⟨by omega, this.2⟩
  unfold locksPiece
  rw [hchk, hb]
  cases b with
  | false => rw [hfalse.mpr rfl]; rfl
  | true =>
    cases hd : downBlocked context with
    | true => rfl
    | false => have := hfalse.mp hd; cases this

/-! ### Frame facts of the moves -/

theorem move_left_frame (context s' : TetrisContext) (h : move_left context = some s') :
    s'.data = context.data ∧ s'.currentBlock = context.currentBlock ∧
      s'.currentBlockRotateTimes = context.currentBlockRotateTimes ∧
      s'.currentBlockPos.row = context.currentBlockPos.row ∧ s'.gameOver = context.gameOver := by
  unfold move_left at h
  cases hc : check_left_collision (withCol context (context.currentBlockPos.col - 1)) with
  | none => simp [hc] at h
  | some b => cases b <;> (simp [hc] at h; subst h; exact ⟨rfl, rfl, rfl, rfl, rfl⟩)

theorem move_right_frame (context s' : TetrisContext) (h : move_right context = some s') :
    s'.data = context.data ∧ s'.currentBlock = context.currentBlock ∧
      s'.currentBlockRotateTimes = context.currentBlockRotateTimes ∧
      s'.currentBlockPos.row = context.currentBlockPos.row ∧ s'.gameOver = context.gameOver := by
  unfold move_right at h
  cases hc : check_right_collision (withCol context (context.currentBlockPos.col + 1)) with
  | none => simp [hc] at h
  | some b => cases b <;> (simp [hc] at h; subst h; exact ⟨rfl, rfl, rfl, rfl, rfl⟩)

theorem rotate_frame (context s' : TetrisContext) (h : rotate context = some s') :
    s'.data = context.data ∧ s'.currentBlock = context.currentBlock ∧
      s'.currentBlockPos = context.currentBlockPos ∧ s'.gameOver = context.gameOver := by
  unfold rotate at h
  cases hc : check_left_right_down_collision
      { context with
        currentBlockRotateTimes := Int.tmod (context.currentBlockRotateTimes + 1) 4 } with
  | none => simp [hc] at h
  | some b => cases b <;> (simp [hc] at h; subst h; exact ⟨rfl, rfl, rfl, rfl⟩)

/-- The result of a locking call, as a function of the saved context and the
grid returned by `eliminate_lines`. -/
theorem move_down_lock_eq (fuel rand1 rand2 : Nat) (context : TetrisContext)
    (hl : locksPiece context = true) :
    move_down fuel rand1 rand2 context =
      (save_current_block context).bind (fun saved =>
        (eliminate_lines fuel saved.data).map (fun g =>
          gen_random_block rand1 rand2
            (if !check_row_is_empty g TETRIS_EXTRA_HEIGHT then
              { saved with data := g, gameOver := true }
            else { saved with data := g }))) := by
  rw [locksPiece_eq_true_iff] at hl
  unfold move_down
  simp only [hl]
  rw [withRow_withRow_back _ _ _ (by simp [withRow])]
  cases hsave : save_current_block context with
  | none => rfl
  | some saved =>
    cases helim : eliminate_lines fuel saved.data with
    | none => simp [helim]
    | some g => simp [helim]

/-! ### Claims about `move_down`, `move_left` and `move_right` -/

theorem full_row_not_empty_row (g : Grid) (r : Nat)
    (h : ∀ c, c < TETRIS_WIDTH → g.cell r c = Block.Empty) :
    ¬ ∀ c, c < TETRIS_WIDTH → g.cell r c ≠ Block.Empty :=
  fun hf => hf 0 (by decide) (h 0 (by decide))

/-- C5, as stated, fails in its last sentence: in `holeExample` the piece is in
bounds, on Empty cells and blocked below, and the lock fills the last Empty
cell of row 31, which becomes the only full row; yet the block at row 20,
column 0 is still at row 20 afterwards (row 21, column 0 is Empty): not
everything above the removed row has moved down. -/
theorem move_down_lock_counterexample :
    pieceInBoundsOnEmpty holeExample = true ∧ downBlocked holeExample = true ∧
    holeExample.data.cell 31 8 = Block.Empty ∧
    (lockedGrid holeExample).map (fun g => (check_row_is_full g 31, g.cell 20 0))
      = some (true, Block.J) ∧
    (move_down 64 0 0 holeExample).map (fun s => (s.data.cell 20 0, s.data.cell 21 0))
      = some (Block.J, Block.Empty) := by
  decide

/-- C5 (amended). For a piece in bounds and on Empty cells that is blocked
below, the grid after `move_down` is `eliminate_lines` applied to the old grid
with exactly the four cells of the piece, at its un-shifted position, set to
the kind of the piece (and `move_down` returns exactly when `eliminate_lines`
does).  When row `r` is the only full row of that locked grid, `move_down`
returns and, with `b` the index `find_the_bottom_empty_line` returns on the
locked grid, row `i` of the new grid is the locked row `i - 1` for `b < i ≤ r`
and the locked row `i` for every other `i`.  When the locked grid is moreover a
settled stack (rows `0 .. k - 1` Empty, rows `k .. 31` non-Empty, `5 ≤ k`), row
`r` is removed and every row above it moves down by one. -/
theorem move_down_lock_grid (context : TetrisContext) (fuel rand1 rand2 : Nat)
    (hok : pieceInBoundsOnEmpty context = true) (hblocked : downBlocked context = true) :
    (move_down fuel rand1 rand2 context).map (fun s => s.data)
        = (lockedGrid context).bind (eliminate_lines fuel) ∧
    ∀ (locked : Grid) (r : Nat), lockedGrid context = some locked →
      r < TETRIS_ALL_HEIGHT →
      (∀ c, c < TETRIS_WIDTH → locked.cell r c ≠ Block.Empty) →
      (∀ r', r' < TETRIS_ALL_HEIGHT → r' ≠ r →
        ∃ c, c < TETRIS_WIDTH ∧ locked.cell r' c = Block.Empty) →
      TETRIS_ALL_HEIGHT ≤ fuel →
      ∃ s', move_down fuel rand1 rand2 context = some s' ∧
        (∀ i c, i < TETRIS_ALL_HEIGHT → c < TETRIS_WIDTH →
          s'.data.cell i c =
            if find_the_bottom_empty_line locked < i ∧ i ≤ r then locked.cell (i - 1) c
            else locked.cell i c) ∧
        (∀ k, 5 ≤ k → settledFrom locked k →
          (∀ c, c < TETRIS_WIDTH → s'.data.cell 0 c = Block.Empty) ∧
          (∀ i, 1 ≤ i → i ≤ r → ∀ c, c < TETRIS_WIDTH →
            s'.data.cell i c = locked.cell (i - 1) c) ∧
          (∀ i, r < i → i < TETRIS_ALL_HEIGHT → ∀ c, c < TETRIS_WIDTH →
            s'.data.cell i c = locked.cell i c)) := by
  have hl : locksPiece context = true := by
    rw [locksPiece_eq_downBlocked context hok]; exact hblocked
  obtain ⟨g, hlg, hsave⟩ := save_current_block_eq context hok
  have hmd := move_down_lock_eq fuel rand1 rand2 context hl
  rw [hsave] at hmd
  simp only [Option.some_bind] at hmd
  constructor
  · rw [hmd, hlg]
    simp only [Option.some_bind]
    cases eliminate_lines fuel g with
    | none => rfl
    | some g' =>
      simp only [Option.map_some']
      congr 1
      exact (gen_random_block_fields rand1 rand2 _).1.trans (by split <;> rfl)
  · intro locked r hlocked hr hfull honly hfuel
    rw [hlg] at hlocked
    cases hlocked
    obtain ⟨g', hg', hcell⟩ := eliminate_lines_one_full_row g r fuel hr
      ((check_row_is_full_iff g r).mpr hfull)
      (fun r' h1 h2 => not_full_of_empty_cell g r' (honly r' h1 h2)) hfuel
    have hdata : ∀ s : TetrisContext, (gen_random_block rand1 rand2
        (if !check_row_is_empty g' TETRIS_EXTRA_HEIGHT then
          { s with data := g', gameOver := true }
        else { s with data := g' })).data = g' := by
      intro s
      exact (gen_random_block_fields rand1 rand2 _).1.trans (by split <;> rfl)
    refine ⟨_, by rw [hmd, hg']; rfl, ?_, ?_⟩
    · intro i c _ hc
      rw [hdata, hcell i c]
      by_cases h : find_the_bottom_empty_line g < i ∧ i ≤ r
      · rw [if_pos ⟨h.1, h.2, hc⟩, if_pos h]
      · rw [if_neg (fun h' => h ⟨h'.1, h'.2.1⟩), if_neg h]
    · intro k hk5 hsettled
      have hE : ∀ i, i < k → check_row_is_empty g i = true :=
        fun i hi => (check_row_is_empty_iff g i).mpr (hsettled.1 i hi)
      have hN : ∀ i, k ≤ i → i < TETRIS_ALL_HEIGHT → check_row_is_empty g i = false := by
        intro i hi1 hi2
        cases he : check_row_is_empty g i with
        | false => rfl
        | true =>
          obtain ⟨c, hc, hne⟩ := hsettled.2 i hi1 hi2
          exact absurd ((check_row_is_empty_iff g i).mp he c hc) hne
      have hbk := find_the_bottom_empty_line_settled g k hk5 hE hN
      have hkr : k ≤ r := by
        by_contra hlt
        exact full_row_not_empty_row g r (hsettled.1 r (by omega)) hfull
      refine ⟨?_, ?_, ?_⟩
      · intro c hc
        rw [hdata, hcell 0 c, if_neg (by omega)]
        exact hsettled.1 0 (by omega) c hc
      · intro i hi1 hi2 c hc
        rw [hdata, hcell i c]
        by_cases h : find_the_bottom_empty_line g < i
        · rw [if_pos ⟨h, hi2, hc⟩]
        · rw [if_neg (fun h' => h h'.1), hsettled.1 i (by omega) c hc,
            hsettled.1 (i - 1) (by omega) c hc]
      · intro i hi1 _ c _
        rw [hdata, hcell i c, if_neg (by omega)]

theorem move_down_lock_grid_witness :
    (move_down 64 0 0 settledHoleExample).map (fun s => s.data)
        = (lockedGrid settledHoleExample).bind (eliminate_lines 64) ∧
    ∃ s', move_down 64 0 0 settledHoleExample = some s' ∧
      (∀ c, c < TETRIS_WIDTH → s'.data.cell 0 c = Block.Empty) ∧
      (∀ i, 1 ≤ i → i ≤ 31 → ∀ c, c < TETRIS_WIDTH →
        s'.data.cell i c
          = (gridWithCells settledHoleGrid [⟨29, 8⟩, ⟨28, 8⟩, ⟨30, 8⟩, ⟨31, 8⟩] Block.I).cell
              (i - 1) c) ∧
      (∀ i, 31 < i → i < TETRIS_ALL_HEIGHT → ∀ c, c < TETRIS_WIDTH →
        s'.data.cell i c
          = (gridWithCells settledHoleGrid [⟨29, 8⟩, ⟨28, 8⟩, ⟨30, 8⟩, ⟨31, 8⟩] Block.I).cell
              i c) := by
  have h := move_down_lock_grid settledHoleExample 64 0 0 (by decide) (by decide)
  obtain ⟨s', h1, _, h3⟩ :=
    h.2 (gridWithCells settledHoleGrid [⟨29, 8⟩, ⟨28, 8⟩, ⟨30, 8⟩, ⟨31, 8⟩] Block.I) 31 rfl
      (by decide) (by decide) (by decide) (by decide)
  exact ⟨h.1, s', h1, h3 28 (by decide) (by unfold settledFrom; decide)⟩

theorem row_not_empty_iff (g : Grid) (r : Nat) :
    (!check_row_is_empty g r) = true ↔ ∃ c, c < TETRIS_WIDTH ∧ g.cell r c ≠ Block.Empty := by
  rw [Bool.not_eq_true', ← Bool.not_eq_true, check_row_is_empty_iff]
  push_neg
  rfl

/-- C7. After a `move_down` that locks the piece, `gameOver` is true if and
only if it was already true or row `TETRIS_EXTRA_HEIGHT` (row 4) of the grid
after elimination has a non-Empty cell; a `move_down` that does not lock, and
every `move_left`, `move_right` and `rotate`, leave `gameOver` unchanged.
(`s'` is the state the call returns; a call locks when its collision check
reports a collision.) -/
theorem gameOver_boundary_row (context s' : TetrisContext) (fuel rand1 rand2 : Nat) :
    (move_down fuel rand1 rand2 context = some s' → locksPiece context = true →
      (s'.gameOver = true ↔
        context.gameOver = true ∨
          ∃ c, c < TETRIS_WIDTH ∧ s'.data.cell TETRIS_EXTRA_HEIGHT c ≠ Block.Empty)) ∧
    (move_down fuel rand1 rand2 context = some s' → locksPiece context = false →
      s'.gameOver = context.gameOver) ∧
    (move_left context = some s' → s'.gameOver = context.gameOver) ∧
    (move_right context = some s' → s'.gameOver = context.gameOver) ∧
    (rotate context = some s' → s'.gameOver = context.gameOver) := by
  refine ⟨?_, ?_, ?_, ?_, ?_⟩
  · intro h hl
    obtain ⟨saved, g, hsave, _, hdata, hgo, _⟩ := move_down_lock fuel rand1 rand2 context s' h hl
    rw [save_current_block_gameOver context saved hsave, ← hdata] at hgo
    rw [hgo, Bool.or_eq_true, row_not_empty_iff]
  · intro h hl
    rw [move_down_free fuel rand1 rand2 context s' h hl]
    rfl
  · intro h; exact (move_left_frame context s' h).2.2.2.2
  · intro h; exact (move_right_frame context s' h).2.2.2.2
  · intro h; exact (rotate_frame context s' h).2.2.2

theorem gameOver_boundary_row_witness :
    ∃ s', move_down 64 0 0 topOutExample = some s' ∧
      (s'.gameOver = true ↔
        topOutExample.gameOver = true ∨
          ∃ c, c < TETRIS_WIDTH ∧ s'.data.cell TETRIS_EXTRA_HEIGHT c ≠ Block.Empty) := by
  cases h : move_down 64 0 0 topOutExample with
  | none =>
    have hsome : (move_down 64 0 0 topOutExample).isSome = true := by decide
    rw [h] at hsome
    cases hsome
  | some s' =>
    exact ⟨s', rfl, (gameOver_boundary_row topOutExample s' 64 0 0).1 h (by decide)⟩

/-- C9. For a piece in bounds and on Empty cells, `move_left` (resp.
`move_right`) returns a state that differs from the old one at most in the
anchor column: the column becomes `col - 1` (resp. `col + 1`) when every cell
of the piece shifted one column left (resp. right) has column `≥ 0` (resp.
`< 16`) and lies on an Empty cell, and otherwise the state is the one before
the call. -/
theorem lateral_moves (context : TetrisContext) (hok : pieceInBoundsOnEmpty context = true) :
    (∃ s', move_left context = some s' ∧
      s'.data = context.data ∧ s'.currentBlock = context.currentBlock ∧
      s'.currentBlockRotateTimes = context.currentBlockRotateTimes ∧
      s'.currentBlockPos.row = context.currentBlockPos.row ∧
      s'.gameOver = context.gameOver ∧
      s'.currentBlockPos.col =
        (if leftFree context then context.currentBlockPos.col - 1
          else context.currentBlockPos.col) ∧
      (leftFree context = false → s' = context)) ∧
    (∃ s', move_right context = some s' ∧
      s'.data = context.data ∧ s'.currentBlock = context.currentBlock ∧
      s'.currentBlockRotateTimes = context.currentBlockRotateTimes ∧
      s'.currentBlockPos.row = context.currentBlockPos.row ∧
      s'.gameOver = context.gameOver ∧
      s'.currentBlockPos.col =
        (if rightFree context then context.currentBlockPos.col + 1
          else context.currentBlockPos.col) ∧
      (rightFree context = false → s' = context)) := by
  constructor
  · have h := move_left_eq context hok
    obtain ⟨h1, h2, h3, h4, h5⟩ := move_left_frame context _ h
    refine ⟨_, h, h1, h2, h3, h4, h5, ?_, ?_⟩
    · cases hf : leftFree context <;> simp [withCol]
    · intro hf; simp [hf]
  · have h := move_right_eq context hok
    obtain ⟨h1, h2, h3, h4, h5⟩ := move_right_frame context _ h
    refine ⟨_, h, h1, h2, h3, h4, h5, ?_, ?_⟩
    · cases hf : rightFree context <;> simp [withCol]
    · intro hf; simp [hf]

theorem lateral_moves_witness :
    (leftFree rightEdgeExample = true ∧ rightFree rightEdgeExample = false) ∧
    (∃ s', move_left rightEdgeExample = some s' ∧
      s'.data = rightEdgeExample.data ∧ s'.currentBlock = rightEdgeExample.currentBlock ∧
      s'.currentBlockRotateTimes = rightEdgeExample.currentBlockRotateTimes ∧
      s'.currentBlockPos.row = rightEdgeExample.currentBlockPos.row ∧
      s'.gameOver = rightEdgeExample.gameOver ∧
      s'.currentBlockPos.col =
        (if leftFree rightEdgeExample then rightEdgeExample.currentBlockPos.col - 1
          else rightEdgeExample.currentBlockPos.col) ∧
      (leftFree rightEdgeExample = false → s' = rightEdgeExample)) ∧
    (∃ s', move_right rightEdgeExample = some s' ∧
      s'.data = rightEdgeExample.data ∧ s'.currentBlock = rightEdgeExample.currentBlock ∧
      s'.currentBlockRotateTimes = rightEdgeExample.currentBlockRotateTimes ∧
      s'.currentBlockPos.row = rightEdgeExample.currentBlockPos.row ∧
      s'.gameOver = rightEdgeExample.gameOver ∧
      s'.currentBlockPos.col =
        (if rightFree rightEdgeExample then rightEdgeExample.currentBlockPos.col + 1
          else rightEdgeExample.currentBlockPos.col) ∧
      (rightFree rightEdgeExample = false → s' = rightEdgeExample)) :=
  ⟨by decide, lateral_moves rightEdgeExample (by decide)⟩

/-! ### The right bound in the C++ port -/

/-- C10 at `rightEdgeExample` (Empty grid, O piece at row 2, column 14, in
bounds and on Empty cells; one column to the right two of its cells are at
column 16).  The C `move_right` leaves the piece where it is, and the C++
`check_right_collision` reports the collision on the shifted piece; but
`Tetris::move_right` tests `check_left_collision`, which does not reject the
shifted piece and goes on to read `blocks[2][16]`, outside the array row:
the call does not return the unchanged state. -/
theorem cpp_move_right_ignores_right_bound :
    pieceInBoundsOnEmpty rightEdgeExample = true ∧
    (occupiedCells rightEdgeExample).map
        (fun cells => cells.any (fun p => decide (p.col + 1 ≥ (TETRIS_WIDTH : Int))))
      = some true ∧
    (move_right rightEdgeExample).map (fun s => s.currentBlockPos) = some ⟨2, 14⟩ ∧
    Cpp.check_right_collision
        { Cpp.rightEdgeExample with blockInfo := Cpp.rightEdgeExample.blockInfo.go_right }
      = some true ∧
    Cpp.check_left_collision
        { Cpp.rightEdgeExample with blockInfo := Cpp.rightEdgeExample.blockInfo.go_right }
      = none ∧
    (Cpp.move_right Cpp.rightEdgeExample).isSome = false := by
  decide

/-! ### The reachable-state invariant -/

theorem shapeOf_mem_table {block : Block} {rot : Int} {shape : List Pos}
    (h : shapeOf block rot = some shape) : shape ∈ blockShapeMap.flatten := by
  unfold shapeOf at h
  split at h
  · cases h
  · cases hrots : blockShapeMap.get? block.index with
    | none => rw [hrots] at h; cases h
    | some rots =>
      rw [hrots] at h
      rw [List.mem_flatten]
      exact ⟨rots, List.get?_mem hrots, List.get?_mem h⟩

theorem table_rows_contiguous : ∀ shape ∈ blockShapeMap.flatten, rowsContiguous shape = true := by
  decide

theorem table_length : ∀ shape ∈ blockShapeMap.flatten, shape.length = 4 := by
  decide

/-- The rows covered by a piece form an interval. -/
theorem shape_rows_interval {block : Block} {rot : Int} {shape : List Pos}
    (h : shapeOf block rot = some shape) (p q : Pos) (hp : p ∈ shape) (hq : q ∈ shape)
    (t : Int) (h1 : p.row < t) (h2 : t < q.row) : ∃ u ∈ shape, u.row = t := by
  have hc := table_rows_contiguous shape (shapeOf_mem_table h)
  have hbp := shapeOf_offsets h p hp
  have hbq := shapeOf_offsets h q hq
  unfold rowsContiguous at hc
  rw [List.all_eq_true] at hc
  have ht : t ∈ [(-1 : Int), 0, 1] := by
    simp only [List.mem_cons, List.mem_singleton, List.not_mem_nil, or_false]
    omega
  have := hc t ht
  simp only [Bool.or_eq_true, Bool.not_eq_true', Bool.and_eq_false_iff, List.any_eq_false,
    List.any_eq_true, decide_eq_true_eq] at this
  rcases this with (h3 | h3) | h3
  · exact absurd h1 (by simpa using h3 p hp)
  · exact absurd h2 (by simpa using h3 q hq)
  · exact h3

theorem check_collision_eq_false {oob : Int → Int → Bool} {context : TetrisContext}
    (h : check_collision oob context = some false) : pieceInBoundsOnEmpty context = true := by
  unfold check_collision at h
  cases hs : shapeOf context.currentBlock context.currentBlockRotateTimes with
  | none => simp [hs] at h
  | some shape =>
    simp only [hs] at h
    rw [pieceInBoundsOnEmpty_iff]
    exact ⟨shape, hs, fun p hp => ((collision_loop_eq_false_iff _ _ _ _).mp h p hp).2⟩

theorem rotate_back (n : Int) (h0 : 0 ≤ n) (h4 : n < 4) :
    Int.tmod (Int.tmod (n + 1) 4 + 3) 4 = n := by
  have : n = 0 ∨ n = 1 ∨ n = 2 ∨ n = 3 := by omega
  rcases this with rfl | rfl | rfl | rfl <;> decide

/-- The clearing loops of `reset_tetris_map`. -/
theorem foldl_setCell_row (r : Nat) (b : Block) (cs : List Nat) :
    ∀ (g : Grid) (r' c' : Nat),
      (cs.foldl (fun g c => setCell g r c b) g).cell r' c'
        = if r' = r ∧ c' ∈ cs then b else g.cell r' c' := by
  induction cs with
  | nil => intro g r' c'; simp
  | cons c0 cs ih =>
    intro g r' c'
    rw [List.foldl_cons, ih]
    simp only [setCell_cell, List.mem_cons]
    split_ifs <;> first | rfl | (exfalso; tauto)

theorem foldl_clear_rows (b : Block) (cs rs : List Nat) :
    ∀ (g : Grid) (r' c' : Nat),
      (rs.foldl (fun g r => cs.foldl (fun g c => setCell g r c b) g) g).cell r' c'
        = if r' ∈ rs ∧ c' ∈ cs then b else g.cell r' c' := by
  induction rs with
  | nil => intro g r' c'; simp
  | cons r0 rs ih =>
    intro g r' c'
    rw [List.foldl_cons, ih, foldl_setCell_row]
    simp only [List.mem_cons]
    split_ifs <;> first | rfl | (exfalso; tauto)

theorem reset_tetris_map_cell (rand1 rand2 : Nat) (context : TetrisContext) (r c : Nat)
    (hr : r < TETRIS_ALL_HEIGHT) (hc : c < TETRIS_WIDTH) :
    (reset_tetris_map rand1 rand2 context).data.cell r c = Block.Empty := by
  show ((List.range TETRIS_ALL_HEIGHT).foldl
    (fun g r => (List.range TETRIS_WIDTH).foldl (fun g c => setCell g r c Block.Empty) g)
    context.data).cell r c = Block.Empty
  rw [foldl_clear_rows, if_pos ⟨List.mem_range.mpr hr, List.mem_range.mpr hc⟩]

/-- A piece at the spawn anchor lies on rows `0 .. 4`, columns `6 .. 10`. -/
theorem spawn_in_bounds_on_empty (s : TetrisContext) (k n : Nat) (hk : k < 7) (hn : n < 4)
    (hkind : s.currentBlock = Block.ofIndex k) (hrot : s.currentBlockRotateTimes = (n : Int))
    (hpos : s.currentBlockPos = ⟨2, 8⟩) (htop : topRowsEmpty s.data) :
    pieceInBoundsOnEmpty s = true := by
  rw [pieceInBoundsOnEmpty_iff, hkind, hrot, hpos]
  have hcell : ∀ r c : Int, 0 ≤ r → r ≤ 4 → 0 ≤ c → c < 16 →
      onEmptyCell s.data ⟨r, c⟩ = true := by
    intro r c h0 h1 h2 h3
    unfold onEmptyCell
    simp only [Bool.and_eq_true, decide_eq_true_eq, TETRIS_ALL_HEIGHT, TETRIS_HEIGHT,
      TETRIS_EXTRA_HEIGHT, TETRIS_WIDTH]
    refine ⟨⟨⟨⟨h0, by push_cast; omega⟩, h2⟩, by push_cast; omega⟩, ?_⟩
    exact htop r.toNat (by simp only [TETRIS_EXTRA_HEIGHT]; omega) c.toNat
      (by simp only [TETRIS_WIDTH]; omega)
  interval_cases k <;> interval_cases n <;>
    exact ⟨_, rfl, by
      intro p hp
      simp only [List.mem_cons, List.mem_singleton, List.not_mem_nil, or_false] at hp
      rcases hp with rfl | rfl | rfl | rfl <;> exact hcell _ _ (by decide) (by decide)
        (by decide) (by decide)⟩

theorem gridWithCells_cell_of_mem (g : Grid) (cells : List Pos) (b : Block) (p : Pos)
    (hp : p ∈ cells) (h0 : 0 ≤ p.row) (h1 : 0 ≤ p.col) :
    (gridWithCells g cells b).cell p.row.toNat p.col.toNat = b := by
  simp only [gridWithCells]
  rw [if_pos]
  rw [List.any_eq_true]
  exact ⟨p, hp, by simp; omega⟩

theorem gridWithCells_cell_of_not_mem (g : Grid) (cells : List Pos) (b : Block) (r c : Nat)
    (h : ∀ p ∈ cells, p.row ≠ (r : Int)) :
    (gridWithCells g cells b).cell r c = g.cell r c := by
  simp only [gridWithCells]
  rw [if_neg]
  rw [List.any_eq_true]
  rintro ⟨p, hp, hpc⟩
  simp only [Bool.and_eq_true, decide_eq_true_eq] at hpc
  exact h p hp hpc.1

theorem invariant_reset (rand1 rand2 : Nat) (context : TetrisContext) :
    pieceInvariant (reset_tetris_map rand1 rand2 context) := by
  have htop : topRowsEmpty (reset_tetris_map rand1 rand2 context).data := by
    intro r hr c hc
    exact reset_tetris_map_cell rand1 rand2 context r c
      (by simp only [TETRIS_ALL_HEIGHT, TETRIS_HEIGHT, TETRIS_EXTRA_HEIGHT] at hr ⊢; omega) hc
  exact ⟨spawn_in_bounds_on_empty _ (rand1 % 7) (rand2 % 4) (Nat.mod_lt _ (by decide))
    (Nat.mod_lt _ (by decide)) rfl rfl rfl htop, htop⟩

theorem invariant_move_left {s s' : TetrisContext} (hinv : pieceInvariant s)
    (h : move_left s = some s') : pieceInvariant s' := by
  have hdata := (move_left_frame s s' h).1
  refine ⟨?_, by rw [hdata]; exact hinv.2⟩
  unfold move_left at h
  cases hc : check_left_collision (withCol s (s.currentBlockPos.col - 1)) with
  | none => simp [hc] at h
  | some b =>
    cases b with
    | false =>
      simp only [hc, Option.some.injEq] at h
      subst h
      exact check_collision_eq_false hc
    | true =>
      simp only [hc, Option.some.injEq] at h
      rw [withCol_withCol_back _ _ _ (by simp [withCol])] at h
      subst h
      exact hinv.1

theorem invariant_move_right {s s' : TetrisContext} (hinv : pieceInvariant s)
    (h : move_right s = some s') : pieceInvariant s' := by
  have hdata := (move_right_frame s s' h).1
  refine ⟨?_, by rw [hdata]; exact hinv.2⟩
  unfold move_right at h
  cases hc : check_right_collision (withCol s (s.currentBlockPos.col + 1)) with
  | none => simp [hc] at h
  | some b =>
    cases b with
    | false =>
      simp only [hc, Option.some.injEq] at h
      subst h
      exact check_collision_eq_false hc
    | true =>
      simp only [hc, Option.some.injEq] at h
      rw [withCol_withCol_back _ _ _ (by simp [withCol])] at h
      subst h
      exact hinv.1

theorem invariant_rotate {s s' : TetrisContext} (hinv : pieceInvariant s)
    (h : rotate s = some s') : pieceInvariant s' := by
  have hdata := (rotate_frame s s' h).1
  refine ⟨?_, by rw [hdata]; exact hinv.2⟩
  unfold rotate at h
  cases hc : check_left_right_down_collision
      { s with currentBlockRotateTimes := Int.tmod (s.currentBlockRotateTimes + 1) 4 } with
  | none => simp [hc] at h
  | some b =>
    cases b with
    | false =>
      simp only [hc, Option.some.injEq] at h
      subst h
      exact check_collision_eq_false hc
    | true =>
      simp only [hc, Option.some.injEq] at h
      obtain ⟨shape, hs, _⟩ := (pieceInBoundsOnEmpty_iff s).mp hinv.1
      obtain ⟨_, n, hn, hrot⟩ := shapeOf_eq_some hs
      rw [rotate_back _ (by omega) (by omega)] at h
      subst h
      exact hinv.1

theorem move_down_check_free (fuel rand1 rand2 : Nat) (context s' : TetrisContext)
    (h : move_down fuel rand1 rand2 context = some s') (hl : locksPiece context = false) :
    check_down_collision (withRow context (context.currentBlockPos.row + 1)) = some false := by
  unfold move_down at h
  cases hc : check_down_collision (withRow context (context.currentBlockPos.row + 1)) with
  | none => simp [hc] at h
  | some b =>
    cases b with
    | true => simp [locksPiece, hc] at hl
    | false => rfl

theorem invariant_move_down_free {s s' : TetrisContext} (fuel rand1 rand2 : Nat)
    (hinv : pieceInvariant s) (h : move_down fuel rand1 rand2 s = some s')
    (hl : locksPiece s = false) : pieceInvariant s' := by
  have hc := move_down_check_free fuel rand1 rand2 s s' h hl
  rw [move_down_free fuel rand1 rand2 s s' h hl]
  exact ⟨check_collision_eq_false hc, hinv.2⟩

/-- `eliminate_lines` leaves rows `0 .. TETRIS_EXTRA_HEIGHT` as they are. -/
theorem eliminate_lines_top_rows (fuel : Nat) (g g' : Grid)
    (h : eliminate_lines fuel g = some g') (i c : Nat) (hi : i ≤ TETRIS_EXTRA_HEIGHT) :
    g'.cell i c = g.cell i c := by
  unfold eliminate_lines at h
  have hb := (find_the_bottom_empty_line_bounds g).1
  exact eliminate_loop_frame _ _ _ _ _ h i c (Or.inl (by omega))

theorem invariant_move_down_lock {s s' : TetrisContext} (fuel rand1 rand2 : Nat)
    (hinv : pieceInvariant s) (h : move_down fuel rand1 rand2 s = some s')
    (hl : locksPiece s = true) (hflag : s'.gameOver = false) : pieceInvariant s' := by
  obtain ⟨hok, htop⟩ := hinv
  obtain ⟨saved, g, hsave, helim, hdata, hgo, hkind, hrot, hpos⟩ :=
    move_down_lock fuel rand1 rand2 s s' h hl
  obtain ⟨locked, hlg, hsave'⟩ := save_current_block_eq s hok
  rw [hsave'] at hsave
  cases hsave
  simp only at helim
  rw [hflag] at hgo
  have hrow4 : check_row_is_empty g TETRIS_EXTRA_HEIGHT = true := by
    cases hr : check_row_is_empty g TETRIS_EXTRA_HEIGHT with
    | true => rfl
    | false => rw [hr] at hgo; simp at hgo
  have hrow4' : ∀ c, c < TETRIS_WIDTH → locked.cell TETRIS_EXTRA_HEIGHT c = Block.Empty := by
    intro c hc
    rw [← eliminate_lines_top_rows fuel locked g helim _ c (le_refl _)]
    exact (check_row_is_empty_iff g _).mp hrow4 c hc
  obtain ⟨shape, hs, hall⟩ := (pieceInBoundsOnEmpty_iff s).mp hok
  obtain ⟨hne, _⟩ := shapeOf_eq_some hs
  have hlocked : locked = gridWithCells s.data
      (shape.map (fun p => ⟨s.currentBlockPos.row + p.row, s.currentBlockPos.col + p.col⟩))
      s.currentBlock := by
    simp only [lockedGrid, occupiedCells, hs, Option.map_some', Option.some.injEq] at hlg
    exact hlg.symm
  -- no cell of the piece is on row 4
  have hA : ∀ p ∈ shape, s.currentBlockPos.row + p.row ≠ 4 := by
    intro p hp h4
    have hbd := onEmptyCell_bounds (hall p hp)
    simp only at hbd
    have hcell := gridWithCells_cell_of_mem s.data
      (shape.map (fun p => ⟨s.currentBlockPos.row + p.row, s.currentBlockPos.col + p.col⟩))
      s.currentBlock ⟨s.currentBlockPos.row + p.row, s.currentBlockPos.col + p.col⟩
      (List.mem_map_of_mem _ hp) hbd.1 hbd.2.2.1
    rw [← hlocked] at hcell
    simp only [h4] at hcell
    have := hrow4' (s.currentBlockPos.col + p.col).toNat
      (by simp only [TETRIS_WIDTH] at hbd ⊢; omega)
    simp only [TETRIS_EXTRA_HEIGHT] at this
    have h4' : (4 : Int).toNat = 4 := rfl
    rw [h4', this] at hcell
    exact hne hcell.symm
  -- some cell of the piece is below row 4
  have hB : ∃ p ∈ shape, 5 ≤ s.currentBlockPos.row + p.row := by
    have hblocked : downBlocked s = true := by
      rw [← locksPiece_eq_downBlocked s hok]; exact hl
    simp only [downBlocked, occupiedCells, hs, Option.map_some', List.any_map,
      List.any_eq_true, Function.comp_apply, Bool.or_eq_true, decide_eq_true_eq,
      Bool.not_eq_true'] at hblocked
    obtain ⟨p, hp, hcase⟩ := hblocked
    refine ⟨p, hp, ?_⟩
    have hbd := onEmptyCell_bounds (hall p hp)
    simp only [TETRIS_ALL_HEIGHT, TETRIS_HEIGHT, TETRIS_WIDTH] at hbd hcase
    have h4 := hA p hp
    rcases hcase with hcase | hcase
    · push_cast at hcase; omega
    · by_contra hlt
      have hle : s.currentBlockPos.row + p.row + 1 ≤ 4 := by omega
      have : onEmptyCell s.data
          ⟨s.currentBlockPos.row + p.row + 1, s.currentBlockPos.col + p.col⟩ = true := by
        unfold onEmptyCell
        simp only [Bool.and_eq_true, decide_eq_true_eq, TETRIS_ALL_HEIGHT, TETRIS_HEIGHT,
          TETRIS_EXTRA_HEIGHT, TETRIS_WIDTH]
        refine ⟨⟨⟨⟨by omega, by push_cast; omega⟩, hbd.2.2.1⟩, hbd.2.2.2.1⟩, ?_⟩
        exact htop _ (by simp only [TETRIS_EXTRA_HEIGHT]; omega) _
          (by simp only [TETRIS_WIDTH]; push_cast at hbd; omega)
      rw [this] at hcase
      cases hcase
  -- hence every cell of the piece is below row 4
  have hC : ∀ q ∈ shape, 5 ≤ s.currentBlockPos.row + q.row := by
    intro q hq
    by_contra hlt
    obtain ⟨p, hp, hp5⟩ := hB
    have h4 := hA q hq
    obtain ⟨u, hu, hur⟩ := shape_rows_interval hs q p hq hp (4 - s.currentBlockPos.row)
      (by omega) (by omega)
    exact hA u hu (by omega)
  have htop' : topRowsEmpty g := by
    intro i hi c hc
    rw [eliminate_lines_top_rows fuel locked g helim i c hi, hlocked,
      gridWithCells_cell_of_not_mem]
    · exact htop i hi c hc
    · intro p hp
      rw [List.mem_map] at hp
      obtain ⟨q, hq, rfl⟩ := hp
      have := hC q hq
      simp only [TETRIS_EXTRA_HEIGHT] at hi
      simp only
      omega
  rw [← hdata] at htop'
  exact ⟨spawn_in_bounds_on_empty s' (rand1 % 7) (rand2 % 4) (Nat.mod_lt _ (by decide))
    (Nat.mod_lt _ (by decide)) hkind hrot hpos htop', htop'⟩

/-- Every reachable state with `gameOver` false satisfies the invariant. -/
theorem reachable_invariant {s : TetrisContext} (h : Reachable s) :
    s.gameOver = false → pieceInvariant s := by
  induction h with
  | reset rand1 rand2 context => intro _; exact invariant_reset rand1 rand2 context
  | left _ hmove ih =>
    intro hflag
    rw [(move_left_frame _ _ hmove).2.2.2.2] at hflag
    exact invariant_move_left (ih hflag) hmove
  | right _ hmove ih =>
    intro hflag
    rw [(move_right_frame _ _ hmove).2.2.2.2] at hflag
    exact invariant_move_right (ih hflag) hmove
  | turn _ hmove ih =>
    intro hflag
    rw [(rotate_frame _ _ hmove).2.2.2] at hflag
    exact invariant_rotate (ih hflag) hmove
  | @down s s' fuel rand1 rand2 _ hmove ih =>
    intro hflag
    cases hl : locksPiece s with
    | false =>
      have hs' := move_down_free fuel rand1 rand2 s s' hmove hl
      have hflag' : s.gameOver = false := by rw [hs'] at hflag; exact hflag
      exact invariant_move_down_free fuel rand1 rand2 (ih hflag') hmove hl
    | true =>
      obtain ⟨saved, g, hsave, _, _, hgo, _⟩ := move_down_lock fuel rand1 rand2 s s' hmove hl
      rw [save_current_block_gameOver s saved hsave, hflag] at hgo
      have hflag' : s.gameOver = false := by
        cases hg : s.gameOver with
        | false => rfl
        | true => rw [hg] at hgo; simp at hgo
      exact invariant_move_down_lock fuel rand1 rand2 (ih hflag') hmove hl hflag

/-- C1. In every state reached from a reset by a finite sequence of
`move_left`, `move_right`, `rotate` and `move_down` (any draws at each spawn)
in which `gameOver` is false, the active piece has four occupied cells
(anchor + `blockShapeMap[kind][rotation][i]`), each at a row in `[0, 32)` and a
column in `[0, 16)` and on a grid cell that is Empty. -/
theorem reachable_piece_in_bounds_on_empty (s : TetrisContext) (hreach : Reachable s)
    (hflag : s.gameOver = false) :
    ∃ cells, occupiedCells s = some cells ∧ cells.length = 4 ∧
      ∀ p ∈ cells, 0 ≤ p.row ∧ p.row < (TETRIS_ALL_HEIGHT : Int) ∧
        0 ≤ p.col ∧ p.col < (TETRIS_WIDTH : Int) ∧
        s.data.cell p.row.toNat p.col.toNat = Block.Empty := by
  obtain ⟨hok, _⟩ := reachable_invariant hreach hflag
  obtain ⟨shape, hs, hall⟩ := (pieceInBoundsOnEmpty_iff s).mp hok
  refine ⟨shape.map (fun p => ⟨s.currentBlockPos.row + p.row, s.currentBlockPos.col + p.col⟩),
    ?_, ?_, ?_⟩
  · simp [occupiedCells, hs]
  · rw [List.length_map]
    exact table_length shape (shapeOf_mem_table hs)
  · intro p hp
    rw [List.mem_map] at hp
    obtain ⟨q, hq, rfl⟩ := hp
    exact onEmptyCell_bounds (hall q hq)

set_option maxRecDepth 100000 in
theorem reachable_piece_in_bounds_on_empty_witness :
    ∃ s, ((move_left (reset_tetris_map 2 0 freeExample)).bind rotate).bind (move_down 64 0 0)
        = some s ∧
      ∃ cells, occupiedCells s = some cells ∧ cells.length = 4 ∧
        ∀ p ∈ cells, 0 ≤ p.row ∧ p.row < (TETRIS_ALL_HEIGHT : Int) ∧
          0 ≤ p.col ∧ p.col < (TETRIS_WIDTH : Int) ∧
          s.data.cell p.row.toNat p.col.toNat = Block.Empty := by
  cases h : ((move_left (reset_tetris_map 2 0 freeExample)).bind rotate).bind
      (move_down 64 0 0) with
  | none =>
    have hsome : (((move_left (reset_tetris_map 2 0 freeExample)).bind rotate).bind
        (move_down 64 0 0)).isSome = true := by decide
    rw [h] at hsome
    cases hsome
  | some s =>
    have hflag : (((move_left (reset_tetris_map 2 0 freeExample)).bind rotate).bind
        (move_down 64 0 0)).map (fun s => s.gameOver) = some false := by decide
    rw [h] at hflag
    obtain ⟨s2, h2, h3⟩ := Option.bind_eq_some.mp h
    obtain ⟨s1, h1, h2'⟩ := Option.bind_eq_some.mp h2
    exact ⟨s, rfl, reachable_piece_in_bounds_on_empty s
      (Reachable.down 64 0 0 (Reachable.turn (Reachable.left (Reachable.reset 2 0 freeExample) h1)
        h2') h3) (by simpa using hflag)⟩

/-! ### Rotation -/

theorem shapeOf_isSome (block : Block) (n : Nat) (hb : block ≠ Block.Empty) (hn : n < 4) :
    ∃ shape, shapeOf block (n : Int) = some shape := by
  cases block <;> first | exact absurd rfl hb | (interval_cases n <;> exact ⟨_, rfl⟩)

theorem tmod_succ_eq_emod (n : Nat) (hn : n < 4) :
    Int.tmod ((n : Int) + 1) 4 = ((n : Int) + 1) % 4 := by
  interval_cases n <;> decide

theorem succ_emod_range (n : Nat) :
    ∃ m : Nat, m < 4 ∧ ((n : Int) + 1) % 4 = (m : Int) :=
  ⟨(n + 1) % 4, Nat.mod_lt _ (by decide), by omega⟩

theorem rotate_eq (context : TetrisContext) (hok : pieceInBoundsOnEmpty context = true)
    (hrow : 2 ≤ context.currentBlockPos.row) :
    rotate context =
      some (if rotateFree context then
          { context with
            currentBlockRotateTimes := (context.currentBlockRotateTimes + 1) % 4 }
        else context) := by
  obtain ⟨shape, hs, _⟩ := (pieceInBoundsOnEmpty_iff context).mp hok
  obtain ⟨hne, n, hn, hrot⟩ := shapeOf_eq_some hs
  obtain ⟨m, hm, hm'⟩ := succ_emod_range n
  have htm : Int.tmod (context.currentBlockRotateTimes + 1) 4
      = (context.currentBlockRotateTimes + 1) % 4 := by
    rw [hrot]; exact tmod_succ_eq_emod n hn
  obtain ⟨shape', hs'⟩ := shapeOf_isSome context.currentBlock m hne hm
  have hs'' : shapeOf context.currentBlock ((context.currentBlockRotateTimes + 1) % 4)
      = some shape' := by rw [hrot, hm']; exact hs'
  have hchk : check_left_right_down_collision
      { context with
        currentBlockRotateTimes := Int.tmod (context.currentBlockRotateTimes + 1) 4 }
      = collision_loop
          (fun r c => decide (c < 0) || decide (c ≥ (TETRIS_WIDTH : Int))
            || decide (r ≥ (TETRIS_ALL_HEIGHT : Int)))
          context.data context.currentBlockPos shape' := by
    simp only [check_left_right_down_collision, check_collision, htm, hs'']
  have hfree : rotateFree context = shape'.all (fun p =>
      decide (0 ≤ context.currentBlockPos.col + p.col)
        && decide (context.currentBlockPos.col + p.col < (TETRIS_WIDTH : Int))
        && decide (context.currentBlockPos.row + p.row < (TETRIS_ALL_HEIGHT : Int))
        && onEmptyCell context.data
          ⟨context.currentBlockPos.row + p.row, context.currentBlockPos.col + p.col⟩) := by
    simp only [rotateFree, occupiedCells, hs'', Option.map_some', all_map_apply]
  obtain ⟨b, hb⟩ := collision_loop_isSome
    (fun r c => decide (c < 0) || decide (c ≥ (TETRIS_WIDTH : Int))
      || decide (r ≥ (TETRIS_ALL_HEIGHT : Int)))
    context.data context.currentBlockPos shape'
    (by
      intro p hp hoob
      have hoff := shapeOf_offsets hs'' p hp
      simp only [Bool.or_eq_false_iff, decide_eq_false_iff_not] at hoob
      omega)
  have hiff := collision_loop_eq_false_iff
    (fun r c => decide (c < 0) || decide (c ≥ (TETRIS_WIDTH : Int))
      || decide (r ≥ (TETRIS_ALL_HEIGHT : Int)))
    context.data context.currentBlockPos shape'
  have hfree_iff : rotateFree context = true ↔ b = false := by
    rw [hfree, List.all_eq_true, ← Option.some_inj, ← hb, hiff]
    constructor
    · intro hf p hp
      have := hf p hp
      simp only [Bool.and_eq_true, decide_eq_true_eq] at this
      simp only [Bool.or_eq_false_iff, decide_eq_false_iff_not]
      exact ⟨⟨⟨by omega, by omega⟩, by omega⟩, this.2⟩
    · intro hf p hp
      have := hf p hp
      simp only [Bool.or_eq_false_iff, decide_eq_false_iff_not] at this
      simp only [Bool.and_eq_true, decide_eq_true_eq]
      exact ⟨⟨⟨by omega, by omega⟩, by omega⟩, this.2⟩
  unfold rotate
  simp only [hchk, hb]
  cases b with
  | false =>
    rw [if_pos (hfree_iff.mpr rfl)]
    simp only [htm]
  | true =>
    have hnf : ¬ rotateFree context = true := fun hf => by
      have := hfree_iff.mp hf; cases this
    rw [if_neg hnf]
    simp only
    rw [rotate_back _ (by omega) (by omega)]

/-- C11. For a piece in bounds, on Empty cells, with anchor row `≥ 2` and
rotation index `q` in `0 .. 3`, `rotate` returns a state that differs from the
old one at most in the rotation index: the index becomes `(q + 1) mod 4` when
every cell of the piece at that rotation (same anchor) has its column in
`[0, 16)`, its row `< 32` and lies on an Empty cell, and otherwise it stays `q`.
The anchor, the grid, the kind and `gameOver` are unchanged. -/
theorem rotate_in_place (context : TetrisContext)
    (hok : pieceInBoundsOnEmpty context = true) (hrow : 2 ≤ context.currentBlockPos.row)
    (_hq0 : 0 ≤ context.currentBlockRotateTimes) (_hq4 : context.currentBlockRotateTimes < 4) :
    ∃ s', rotate context = some s' ∧
      s'.data = context.data ∧ s'.currentBlock = context.currentBlock ∧
      s'.currentBlockPos = context.currentBlockPos ∧ s'.gameOver = context.gameOver ∧
      s'.currentBlockRotateTimes =
        (if rotateFree context then (context.currentBlockRotateTimes + 1) % 4
          else context.currentBlockRotateTimes) ∧
      (rotateFree context = false → s' = context) := by
  have h := rotate_eq context hok hrow
  obtain ⟨h1, h2, h3, h4⟩ := rotate_frame context _ h
  refine ⟨_, h, h1, h2, h3, h4, ?_, ?_⟩
  · cases hf : rotateFree context <;> simp
  · intro hf; simp [hf]

theorem rotate_in_place_witness :
    (rotateFree freeExample = true ∧ rotateFree wallExample = false) ∧
    (∃ s', rotate freeExample = some s' ∧
      s'.data = freeExample.data ∧ s'.currentBlock = freeExample.currentBlock ∧
      s'.currentBlockPos = freeExample.currentBlockPos ∧
      s'.gameOver = freeExample.gameOver ∧
      s'.currentBlockRotateTimes =
        (if rotateFree freeExample then (freeExample.currentBlockRotateTimes + 1) % 4
          else freeExample.currentBlockRotateTimes) ∧
      (rotateFree freeExample = false → s' = freeExample)) ∧
    (∃ s', rotate wallExample = some s' ∧
      s'.data = wallExample.data ∧ s'.currentBlock = wallExample.currentBlock ∧
      s'.currentBlockPos = wallExample.currentBlockPos ∧
      s'.gameOver = wallExample.gameOver ∧
      s'.currentBlockRotateTimes =
        (if rotateFree wallExample then (wallExample.currentBlockRotateTimes + 1) % 4
          else wallExample.currentBlockRotateTimes) ∧
      (rotateFree wallExample = false → s' = wallExample)) :=
  ⟨by decide, rotate_in_place freeExample (by decide) (by decide) (by decide) (by decide),
    rotate_in_place wallExample (by decide) (by decide) (by decide) (by decide)⟩

/-! ### Unblocked down-move -/

theorem any_eq_not_all {α : Type} (l : List α) (f g : α → Bool)
    (h : ∀ a ∈ l, f a = !g a) : l.any f = !l.all g := by
  induction l with
  | nil => rfl
  | cons a l ih =>
    rw [List.any_cons, List.all_cons, h a (List.mem_cons_self _ _),
      ih (fun b hb => h b (List.mem_cons_of_mem _ hb)), Bool.not_and]

theorem downBlocked_eq_not_downFree (context : TetrisContext)
    (hok : pieceInBoundsOnEmpty context = true) :
    downBlocked context = !downFree context := by
  obtain ⟨shape, hs, _⟩ := (pieceInBoundsOnEmpty_iff context).mp hok
  simp only [downBlocked, downFree, occupiedCells, hs, Option.map_some']
  apply any_eq_not_all
  intro p _
  by_cases h : p.row + 1 < (TETRIS_ALL_HEIGHT : Int)
  · have h' : ¬ p.row + 1 ≥ (TETRIS_ALL_HEIGHT : Int) := by omega
    simp [h, h']
  · have h' : p.row + 1 ≥ (TETRIS_ALL_HEIGHT : Int) := by omega
    simp [h, h']

/-- For a piece in bounds and on Empty cells the collision check of
`move_down` returns, and its result is `downBlocked`. -/
theorem check_down_collision_eq (context : TetrisContext)
    (hok : pieceInBoundsOnEmpty context = true) :
    check_down_collision (withRow context (context.currentBlockPos.row + 1))
      = some (downBlocked context) := by
  obtain ⟨shape, hs, hall⟩ := (pieceInBoundsOnEmpty_iff context).mp hok
  have hchk : check_down_collision (withRow context (context.currentBlockPos.row + 1))
      = collision_loop (fun r _ => decide (r ≥ (TETRIS_ALL_HEIGHT : Int))) context.data
          ⟨context.currentBlockPos.row + 1, context.currentBlockPos.col⟩ shape := by
    simp [check_down_collision, check_collision, withRow, hs]
  obtain ⟨b, hb⟩ := collision_loop_isSome (fun r _ => decide (r ≥ (TETRIS_ALL_HEIGHT : Int)))
    context.data ⟨context.currentBlockPos.row + 1, context.currentBlockPos.col⟩ shape
    (by
      intro p hp hoob
      have hbd := onEmptyCell_bounds (hall p hp)
      simp only [decide_eq_false_iff_not] at hoob
      simp only at hbd ⊢
      omega)
  have hl := locksPiece_eq_downBlocked context hok
  unfold locksPiece at hl
  rw [hchk, hb] at hl
  rw [hchk, hb, ← hl]
  cases b <;> rfl

theorem move_down_unblocked (context : TetrisContext) (fuel rand1 rand2 : Nat)
    (hok : pieceInBoundsOnEmpty context = true) (hfree : downFree context = true) :
    move_down fuel rand1 rand2 context
      = some (withRow context (context.currentBlockPos.row + 1)) := by
  have hc := check_down_collision_eq context hok
  rw [downBlocked_eq_not_downFree context hok, hfree] at hc
  unfold move_down
  simp only [hc, Bool.not_true]

/-- C12. For a piece in bounds and on Empty cells, when every cell of the
piece shifted down by one row has row `< 32` and lies on an Empty cell,
`move_down` returns the old state with the anchor row increased by exactly 1:
the grid, the kind, the rotation, the anchor column and `gameOver` are
unchanged (no lock, no elimination, no spawn). -/
theorem move_down_only_moves (context : TetrisContext) (fuel rand1 rand2 : Nat)
    (hok : pieceInBoundsOnEmpty context = true) (hfree : downFree context = true) :
    ∃ s', move_down fuel rand1 rand2 context = some s' ∧
      s'.currentBlockPos.row = context.currentBlockPos.row + 1 ∧
      s'.currentBlockPos.col = context.currentBlockPos.col ∧
      s'.data = context.data ∧ s'.currentBlock = context.currentBlock ∧
      s'.currentBlockRotateTimes = context.currentBlockRotateTimes ∧
      s'.gameOver = context.gameOver ∧ locksPiece context = false :=
  ⟨_, move_down_unblocked context fuel rand1 rand2 hok hfree, rfl, rfl, rfl, rfl, rfl, rfl, by
    rw [locksPiece_eq_downBlocked context hok, downBlocked_eq_not_downFree context hok, hfree]
    rfl⟩

theorem move_down_only_moves_witness :
    ∃ s', move_down 0 3 1 freeExample = some s' ∧
      s'.currentBlockPos.row = freeExample.currentBlockPos.row + 1 ∧
      s'.currentBlockPos.col = freeExample.currentBlockPos.col ∧
      s'.data = freeExample.data ∧ s'.currentBlock = freeExample.currentBlock ∧
      s'.currentBlockRotateTimes = freeExample.currentBlockRotateTimes ∧
      s'.gameOver = freeExample.gameOver ∧ locksPiece freeExample = false :=
  move_down_only_moves freeExample 0 3 1 (by decide) (by decide)

/-! ### Spawn, shape table, rotation index, row predicates -/

theorem ofIndex_mod_ne_empty (n : Nat) : Block.ofIndex (n % 7) ≠ Block.Empty := by
  have h : n % 7 < 7 := Nat.mod_lt _ (by decide)
  generalize n % 7 = k at h
  interval_cases k <;> decide

/-- C15. For every state and every pair of values drawn by the two calls of
`rand()`, `gen_random_block` sets the kind to one of the seven piece kinds
(never `Empty`), the rotation index to a value in `0 .. 3`, the anchor to row 2,
column `TETRIS_WIDTH / 2 = 8`, and leaves the grid and `gameOver` unchanged. -/
theorem gen_random_block_result (context : TetrisContext) (rand1 rand2 : Nat) :
    (gen_random_block rand1 rand2 context).currentBlock ≠ Block.Empty ∧
    (gen_random_block rand1 rand2 context).currentBlock
      ∈ [Block.I, Block.O, Block.T, Block.S, Block.Z, Block.J, Block.L] ∧
    0 ≤ (gen_random_block rand1 rand2 context).currentBlockRotateTimes ∧
    (gen_random_block rand1 rand2 context).currentBlockRotateTimes < 4 ∧
    (gen_random_block rand1 rand2 context).currentBlockPos
      = ⟨2, ((TETRIS_WIDTH / 2 : Nat) : Int)⟩ ∧
    (gen_random_block rand1 rand2 context).currentBlockPos = ⟨2, 8⟩ ∧
    (gen_random_block rand1 rand2 context).data = context.data ∧
    (gen_random_block rand1 rand2 context).gameOver = context.gameOver := by
  refine ⟨ofIndex_mod_ne_empty rand1, ?_, ?_, ?_, rfl, rfl, rfl, rfl⟩
  · show Block.ofIndex (rand1 % 7) ∈ _
    have h : rand1 % 7 < 7 := Nat.mod_lt _ (by decide)
    generalize rand1 % 7 = k at h
    interval_cases k <;> decide
  · show (0 : Int) ≤ ((rand2 % 4 : Nat) : Int)
    omega
  · show ((rand2 % 4 : Nat) : Int) < 4
    omega

/-- C16, as stated, fails: a vertical I piece (rotation 1) at the spawn anchor
occupies rows `1 .. 4` of column 8; its lowest cell is on row 4, the first
visible row, not in the hidden buffer rows `0 .. 3`. -/
theorem spawn_hidden_buffer_counterexample :
    occupiedCells (spawnedPiece emptyGrid Block.I 1)
      = some [⟨2, 8⟩, ⟨1, 8⟩, ⟨3, 8⟩, ⟨4, 8⟩] ∧
    (occupiedCells (spawnedPiece emptyGrid Block.I 1)).map
        (fun cells => cells.any (fun p => decide ((TETRIS_EXTRA_HEIGHT : Int) ≤ p.row)))
      = some true := by
  decide

/-- C16 (amended). For every piece kind and every rotation index in `0 .. 3`,
the four occupied cells of a piece at the spawn anchor (row 2, column 8) lie
in rows `0 .. TETRIS_EXTRA_HEIGHT` (rows `0 .. 4`) and columns `6 .. 10`; they
all lie in the hidden buffer rows `0 .. 3` except for I at rotation 1, J at
rotation 2 and L at rotation 2, whose lowest cell is on row 4. -/
theorem spawn_rows (g : Grid) (block : Block) (q : Int) (hb : block ≠ Block.Empty)
    (hq0 : 0 ≤ q) (hq4 : q < 4) :
    ∃ cells, occupiedCells (spawnedPiece g block q) = some cells ∧ cells.length = 4 ∧
      (∀ p ∈ cells, 0 ≤ p.row ∧ p.row ≤ (TETRIS_EXTRA_HEIGHT : Int) ∧ 6 ≤ p.col ∧ p.col ≤ 10) ∧
      ((block, q) ∉ [(Block.I, (1 : Int)), (Block.J, 2), (Block.L, 2)] →
        ∀ p ∈ cells, p.row < (TETRIS_EXTRA_HEIGHT : Int)) ∧
      ((block, q) ∈ [(Block.I, (1 : Int)), (Block.J, 2), (Block.L, 2)] →
        ∃ p ∈ cells, p.row = (TETRIS_EXTRA_HEIGHT : Int)) := by
  obtain ⟨n, rfl⟩ : ∃ n : Nat, q = (n : Int) := ⟨q.toNat, by omega⟩
  have hn : n < 4 := by omega
  have e : occupiedCells (spawnedPiece g block (n : Int))
      = occupiedCells (spawnedPiece emptyGrid block (n : Int)) := rfl
  rw [e]
  cases block <;> first | exact absurd rfl hb | (interval_cases n <;> exact ⟨_, rfl, by decide⟩)

theorem spawn_rows_witness :
    ∃ cells, occupiedCells (spawnedPiece emptyGrid Block.J 2) = some cells ∧ cells.length = 4 ∧
      (∀ p ∈ cells, 0 ≤ p.row ∧ p.row ≤ (TETRIS_EXTRA_HEIGHT : Int) ∧ 6 ≤ p.col ∧ p.col ≤ 10) ∧
      ((Block.J, (2 : Int)) ∉ [(Block.I, (1 : Int)), (Block.J, 2), (Block.L, 2)] →
        ∀ p ∈ cells, p.row < (TETRIS_EXTRA_HEIGHT : Int)) ∧
      ((Block.J, (2 : Int)) ∈ [(Block.I, (1 : Int)), (Block.J, 2), (Block.L, 2)] →
        ∃ p ∈ cells, p.row = (TETRIS_EXTRA_HEIGHT : Int)) :=
  spawn_rows emptyGrid Block.J 2 (by decide) (by decide) (by decide)

/-- C18. For every one of the seven piece kinds and every rotation index in
`0 .. 3`, `blockShapeMap` holds exactly four offsets; they are pairwise distinct
and include the pivot offset `(0, 0)`. -/
theorem shape_table_well_formed (block : Block) (q : Int) (hb : block ≠ Block.Empty)
    (hq0 : 0 ≤ q) (hq4 : q < 4) :
    ∃ shape, shapeOf block q = some shape ∧ shape.length = 4 ∧ shape.Nodup ∧
      (⟨0, 0⟩ : Pos) ∈ shape := by
  obtain ⟨n, rfl⟩ : ∃ n : Nat, q = (n : Int) := ⟨q.toNat, by omega⟩
  have hn : n < 4 := by omega
  cases block <;> first | exact absurd rfl hb | (interval_cases n <;> exact ⟨_, rfl, by decide⟩)

theorem shape_table_well_formed_witness :
    ∃ shape, shapeOf Block.S 3 = some shape ∧ shape.length = 4 ∧ shape.Nodup ∧
      (⟨0, 0⟩ : Pos) ∈ shape :=
  shape_table_well_formed Block.S 3 (by decide) (by decide) (by decide)

/-- C19. For every grid and every row index `r` in `0 .. 31`,
`check_row_is_full` is true iff all 16 cells of the row are non-Empty and
`check_row_is_empty` is true iff all 16 cells are Empty; the two are never both
true, and both are false for a row with an Empty and a non-Empty cell. -/
theorem row_predicates (g : Grid) (r : Nat) (_hr : r < TETRIS_ALL_HEIGHT) :
    (check_row_is_full g r = true ↔ ∀ c, c < TETRIS_WIDTH → g.cell r c ≠ Block.Empty) ∧
    (check_row_is_empty g r = true ↔ ∀ c, c < TETRIS_WIDTH → g.cell r c = Block.Empty) ∧
    ¬ (check_row_is_full g r = true ∧ check_row_is_empty g r = true) ∧
    ((∃ c, c < TETRIS_WIDTH ∧ g.cell r c = Block.Empty) →
      (∃ c, c < TETRIS_WIDTH ∧ g.cell r c ≠ Block.Empty) →
      check_row_is_full g r = false ∧ check_row_is_empty g r = false) := by
  refine ⟨check_row_is_full_iff g r, check_row_is_empty_iff g r, ?_, ?_⟩
  · rintro ⟨hf, he⟩
    exact (check_row_is_full_iff g r).mp hf 0 (by decide)
      ((check_row_is_empty_iff g r).mp he 0 (by decide))
  · rintro he ⟨c, hc, hne⟩
    refine ⟨not_full_of_empty_cell g r he, ?_⟩
    cases h : check_row_is_empty g r with
    | false => rfl
    | true => exact absurd ((check_row_is_empty_iff g r).mp h c hc) hne

theorem row_predicates_witness :
    (check_row_is_full settledExample 30 = true ↔
      ∀ c, c < TETRIS_WIDTH → settledExample.cell 30 c ≠ Block.Empty) ∧
    (check_row_is_empty settledExample 30 = true ↔
      ∀ c, c < TETRIS_WIDTH → settledExample.cell 30 c = Block.Empty) ∧
    ¬ (check_row_is_full settledExample 30 = true ∧
      check_row_is_empty settledExample 30 = true) ∧
    check_row_is_full settledExample 30 = false ∧
    check_row_is_empty settledExample 30 = false := by
  obtain ⟨h1, h2, h3, h4⟩ := row_predicates settledExample 30 (by decide)
  exact ⟨h1, h2, h3, h4 (by decide) (by decide)⟩

theorem rotateBackward_rotateForward (q : Int) (h0 : 0 ≤ q) (h4 : q < 4) :
    rotateBackward (rotateForward q) = q := rotate_back q h0 h4

theorem rotateForward_range (q : Int) (h0 : 0 ≤ q) (h4 : q < 4) :
    0 ≤ rotateForward q ∧ rotateForward q < 4 := by
  have : q = 0 ∨ q = 1 ∨ q = 2 ∨ q = 3 := by omega
  rcases this with rfl | rfl | rfl | rfl <;> decide

/-- C17. For every rotation index `q` in `0 .. 3`: the inverse update
`(q + 3) % 4` undoes the forward update `(q + 1) % 4`; two forward updates
followed by two inverse updates give `q` again, and the occupied cells computed
from the shape table are then the original ones, for every kind, anchor and
grid.  The revert branch of the C `rotate` and `BlockInfo::un_rotate` after
`BlockInfo::rotate` in C++ are this inverse update. -/
theorem rotation_round_trip (q : Int) (h0 : 0 ≤ q) (h4 : q < 4) :
    rotateBackward (rotateForward q) = q ∧
    rotateBackward (rotateBackward (rotateForward (rotateForward q))) = q ∧
    (∀ context : TetrisContext, context.currentBlockRotateTimes = q →
      occupiedCells { context with
          currentBlockRotateTimes :=
            rotateBackward (rotateBackward (rotateForward (rotateForward q))) }
        = occupiedCells context ∧
      ({ context with
          currentBlockRotateTimes :=
            Int.tmod (Int.tmod (context.currentBlockRotateTimes + 1) 4 + 3) 4 } : TetrisContext)
        = context) ∧
    (∀ b : Cpp.BlockInfo, b.rotateTimes = q →
      b.rotate.un_rotate = b ∧ b.rotate.rotate.un_rotate.un_rotate = b) := by
  have h1 := rotateBackward_rotateForward q h0 h4
  have hr := rotateForward_range q h0 h4
  have h2 : rotateBackward (rotateBackward (rotateForward (rotateForward q))) = q := by
    rw [rotateBackward_rotateForward _ hr.1 hr.2, h1]
  refine ⟨h1, h2, ?_, ?_⟩
  · intro context hq
    subst hq
    constructor
    · rw [h2]
    · have := rotate_back context.currentBlockRotateTimes h0 h4
      rw [this]
  · intro b hq
    subst hq
    constructor
    · show ({ b with rotateTimes := rotateBackward (rotateForward b.rotateTimes) } :
        Cpp.BlockInfo) = b
      rw [h1]
    · show ({ b with rotateTimes :=
          rotateBackward (rotateBackward (rotateForward (rotateForward b.rotateTimes))) } :
        Cpp.BlockInfo) = b
      rw [h2]

theorem rotation_round_trip_witness :
    rotateBackward (rotateForward 3) = 3 ∧
    rotateBackward (rotateBackward (rotateForward (rotateForward 3))) = 3 ∧
    (∀ context : TetrisContext, context.currentBlockRotateTimes = 3 →
      occupiedCells { context with
          currentBlockRotateTimes :=
            rotateBackward (rotateBackward (rotateForward (rotateForward 3))) }
        = occupiedCells context ∧
      ({ context with
          currentBlockRotateTimes :=
            Int.tmod (Int.tmod (context.currentBlockRotateTimes + 1) 4 + 3) 4 } : TetrisContext)
        = context) ∧
    (∀ b : Cpp.BlockInfo, b.rotateTimes = 3 →
      b.rotate.un_rotate = b ∧ b.rotate.rotate.un_rotate.un_rotate = b) :=
  rotation_round_trip 3 (by decide) (by decide)

/-! ### The boundary row -/

/-- C20, as stated, fails: in `toppedColumnGrid` (column 8 occupied on rows
`4 .. 31`, rows `0 .. 3` Empty) `find_the_bottom_empty_line` returns 16, and row
16 is not Empty. -/
theorem boundary_row_empty_counterexample :
    find_the_bottom_empty_line toppedColumnGrid = 16 ∧
    toppedColumnGrid.cell 16 8 = Block.I ∧
    check_row_is_empty toppedColumnGrid (find_the_bottom_empty_line toppedColumnGrid) = false ∧
    check_row_is_empty toppedColumnGrid 3 = true := by
  decide

/-- C20 (amended). When some row among rows `4 .. 16` of the grid is entirely
Empty, the index returned by `find_the_bottom_empty_line` is the index of an
entirely Empty row: the last Empty row of `16 .. 31` when row 16 is Empty, the
first Empty row of `4 .. 15` otherwise.  When each of the rows `4 .. 16` has a
non-Empty cell it returns 16. -/
theorem boundary_row_empty (g : Grid) :
    ((∃ r, TETRIS_EXTRA_HEIGHT ≤ r ∧ r ≤ TETRIS_ALL_HEIGHT / 2 ∧
        ∀ c, c < TETRIS_WIDTH → g.cell r c = Block.Empty) →
      ∀ c, c < TETRIS_WIDTH → g.cell (find_the_bottom_empty_line g) c = Block.Empty) ∧
    ((∀ c, c < TETRIS_WIDTH → g.cell (TETRIS_ALL_HEIGHT / 2) c = Block.Empty) →
      TETRIS_ALL_HEIGHT / 2 ≤ find_the_bottom_empty_line g ∧
      ∀ r, find_the_bottom_empty_line g < r → r < TETRIS_ALL_HEIGHT →
        ∃ c, c < TETRIS_WIDTH ∧ g.cell r c ≠ Block.Empty) ∧
    ((∃ c, c < TETRIS_WIDTH ∧ g.cell (TETRIS_ALL_HEIGHT / 2) c ≠ Block.Empty) →
      find_the_bottom_empty_line g ≤ TETRIS_ALL_HEIGHT / 2 ∧
      ∀ r, TETRIS_EXTRA_HEIGHT ≤ r → r < find_the_bottom_empty_line g →
        ∃ c, c < TETRIS_WIDTH ∧ g.cell r c ≠ Block.Empty) ∧
    ((∀ r, TETRIS_EXTRA_HEIGHT ≤ r → r ≤ TETRIS_ALL_HEIGHT / 2 →
        ∃ c, c < TETRIS_WIDTH ∧ g.cell r c ≠ Block.Empty) →
      find_the_bottom_empty_line g = TETRIS_ALL_HEIGHT / 2) := by
  have hne : ∀ r, check_row_is_empty g r = false ↔
      ∃ c, c < TETRIS_WIDTH ∧ g.cell r c ≠ Block.Empty := by
    intro r
    rw [← row_not_empty_iff]
    cases check_row_is_empty g r <;> simp
  have e16 : TETRIS_ALL_HEIGHT / 2 = 16 := rfl
  have e4 : TETRIS_EXTRA_HEIGHT = 4 := rfl
  have e32 : TETRIS_ALL_HEIGHT = 32 := rfl
  rw [e16, e4, e32]
  have hdown := foldl_scan_down (check_row_is_empty g) 16 15
  have hup := foldl_scan_up (check_row_is_empty g) 16 4 12
  simp only at hdown hup
  rw [find_the_bottom_empty_line_eq]
  cases h16 : check_row_is_empty g 16 with
  | true =>
    simp only [if_true]
    obtain ⟨h1, h2, h3, h4⟩ := hdown
    have hres : check_row_is_empty g
        ((List.range' (16 + 1) 15).foldl
          (fun b r => if check_row_is_empty g r = true then r else b) 16) = true := by
      rcases h3 with h3 | h3
      · rw [h3]; exact h16
      · exact h3
    refine ⟨fun _ => (check_row_is_empty_iff g _).mp hres, fun _ => ⟨h1, ?_⟩, ?_, ?_⟩
    · intro r hr1 hr2
      exact (hne r).mp (h4 r hr1 (by omega))
    · rintro ⟨c, hc, hcne⟩
      exact absurd ((check_row_is_empty_iff g 16).mp h16 c hc) hcne
    · intro hall
      obtain ⟨c, hc, hcne⟩ := hall 16 (by omega) (le_refl _)
      exact absurd ((check_row_is_empty_iff g 16).mp h16 c hc) hcne
  | false =>
    simp only [Bool.false_eq_true, if_false]
    refine ⟨?_, ?_, ?_, ?_⟩
    · rintro ⟨r, hr1, hr2, hr⟩
      have hr' : check_row_is_empty g r = true := (check_row_is_empty_iff g r).mpr hr
      have hr16 : r ≠ 16 := by
        rintro rfl
        rw [h16] at hr'; cases hr'
      rcases hup with ⟨_, hnone⟩ | ⟨_, _, hfound, _⟩
      · have := hnone r hr1 (by omega)
        rw [hr'] at this; cases this
      · exact (check_row_is_empty_iff g _).mp hfound
    · intro h
      have := (check_row_is_empty_iff g 16).mpr h
      rw [h16] at this; cases this
    · intro _
      rcases hup with ⟨hb, hnone⟩ | ⟨h1, h2, _, hbelow⟩
      · rw [hb]
        exact ⟨le_refl _, fun r hr1 hr2 => (hne r).mp (hnone r hr1 (by omega))⟩
      · exact ⟨by omega, fun r hr1 hr2 => (hne r).mp (hbelow r hr1 hr2)⟩
    · intro hall
      rcases hup with ⟨hb, _⟩ | ⟨h1, h2, hfound, _⟩
      · exact hb
      · obtain ⟨c, hc, hcne⟩ := hall _ h1 (by omega)
        exact absurd ((check_row_is_empty_iff g _).mp hfound c hc) hcne

theorem boundary_row_empty_witness :
    (∀ c, c < TETRIS_WIDTH →
      settledExample.cell (find_the_bottom_empty_line settledExample) c = Block.Empty) ∧
    find_the_bottom_empty_line toppedColumnGrid = TETRIS_ALL_HEIGHT / 2 :=
  ⟨(boundary_row_empty settledExample).1 ⟨4, by decide, by decide, by decide⟩,
    (boundary_row_empty toppedColumnGrid).2.2.2 (by decide)⟩

/-! ### The O-piece drop scenario -/

theorem withRow_withRow (s : TetrisContext) (a b : Int) :
    withRow (withRow s a) b = withRow s b := rfl

/-- One unblocked step of the O piece falling through the Empty grid. -/
theorem o_piece_step (q n : Nat) (hq : q < 4) (hn : n < 28) (fuel rand1 rand2 : Nat) :
    move_down fuel rand1 rand2
        (withRow (spawnedPiece emptyGrid Block.O (q : Int)) ((2 + n : Nat) : Int))
      = some (withRow (spawnedPiece emptyGrid Block.O (q : Int)) ((2 + (n + 1) : Nat) : Int)) := by
  have hok : pieceInBoundsOnEmpty
      (withRow (spawnedPiece emptyGrid Block.O (q : Int)) ((2 + n : Nat) : Int)) = true := by
    interval_cases q <;> interval_cases n <;> decide
  have hfree : downFree
      (withRow (spawnedPiece emptyGrid Block.O (q : Int)) ((2 + n : Nat) : Int)) = true := by
    interval_cases q <;> interval_cases n <;> decide
  rw [move_down_unblocked _ fuel rand1 rand2 hok hfree, withRow_withRow]
  congr 2

theorem o_piece_fall (q : Nat) (hq : q < 4) (fuel rand1 rand2 : Nat) :
    ∀ n, n ≤ 28 →
      move_down_times fuel rand1 rand2 n (spawnedPiece emptyGrid Block.O (q : Int))
        = some (withRow (spawnedPiece emptyGrid Block.O (q : Int)) ((2 + n : Nat) : Int)) := by
  intro n
  induction n with
  | zero => intro _; rfl
  | succ n ih =>
    intro hn
    rw [move_down_times, ih (by omega), Option.some_bind,
      o_piece_step q n hq (by omega) fuel rand1 rand2]

/-- The last step of the O piece: it locks on the bottom two rows. -/
theorem o_piece_lock (q : Nat) (hq : q < 4) (fuel rand1 rand2 : Nat)
    (hfuel : TETRIS_ALL_HEIGHT ≤ fuel) :
    ∃ s', move_down fuel rand1 rand2
          (withRow (spawnedPiece emptyGrid Block.O (q : Int)) ((2 + 28 : Nat) : Int)) = some s' ∧
      s'.gameOver = false ∧
      s'.data = gridWithCells emptyGrid [⟨30, 8⟩, ⟨30, 9⟩, ⟨31, 8⟩, ⟨31, 9⟩] Block.O := by
  have hok : pieceInBoundsOnEmpty
      (withRow (spawnedPiece emptyGrid Block.O (q : Int)) ((2 + 28 : Nat) : Int)) = true := by
    interval_cases q <;> decide
  have hl : locksPiece
      (withRow (spawnedPiece emptyGrid Block.O (q : Int)) ((2 + 28 : Nat) : Int)) = true := by
    interval_cases q <;> decide
  obtain ⟨g, hlg, hsave⟩ := save_current_block_eq _ hok
  have hg : g = gridWithCells emptyGrid [⟨30, 8⟩, ⟨30, 9⟩, ⟨31, 8⟩, ⟨31, 9⟩] Block.O := by
    have h : some (gridWithCells emptyGrid [⟨30, 8⟩, ⟨30, 9⟩, ⟨31, 8⟩, ⟨31, 9⟩] Block.O)
        = some g := by
      rw [← hlg]
      interval_cases q <;> rfl
    exact (Option.some.inj h).symm
  subst hg
  have helim : eliminate_lines fuel
      (gridWithCells emptyGrid [⟨30, 8⟩, ⟨30, 9⟩, ⟨31, 8⟩, ⟨31, 9⟩] Block.O)
      = some (gridWithCells emptyGrid [⟨30, 8⟩, ⟨30, 9⟩, ⟨31, 8⟩, ⟨31, 9⟩] Block.O) :=
    eliminate_lines_unchanged _ fuel (by decide) hfuel
  have hrow : check_row_is_empty
      (gridWithCells emptyGrid [⟨30, 8⟩, ⟨30, 9⟩, ⟨31, 8⟩, ⟨31, 9⟩] Block.O)
      TETRIS_EXTRA_HEIGHT = true := by decide
  rw [move_down_lock_eq fuel rand1 rand2 _ hl, hsave]
  simp only [Option.some_bind, helim, Option.map_some', hrow, Bool.not_true,
    Bool.false_eq_true, if_false]
  exact ⟨_, rfl, rfl, rfl⟩

/-- C14. On the all-Empty grid with an O piece (any rotation `q` in `0 .. 3`)
at the spawn anchor (row 2, column 8): the occupied cells are the 2x2 block
`(2,8), (2,9), (3,8), (3,9)`; each of the first 28 calls of `move_down` only
increases the anchor row (reaching row 30) without locking; the 29th call
locks the piece, after which the grid holds kind O at exactly the four cells
`(30,8), (30,9), (31,8), (31,9)`, every other cell is Empty, and `gameOver` is
false. -/
theorem o_piece_drop (q : Int) (hq0 : 0 ≤ q) (hq4 : q < 4) (fuel rand1 rand2 : Nat)
    (hfuel : TETRIS_ALL_HEIGHT ≤ fuel) :
    occupiedCells (spawnedPiece emptyGrid Block.O q) = some [⟨2, 8⟩, ⟨2, 9⟩, ⟨3, 8⟩, ⟨3, 9⟩] ∧
    (∀ n, n ≤ 28 →
      move_down_times fuel rand1 rand2 n (spawnedPiece emptyGrid Block.O q)
        = some (withRow (spawnedPiece emptyGrid Block.O q) ((2 + n : Nat) : Int))) ∧
    (∀ n, n < 28 →
      locksPiece (withRow (spawnedPiece emptyGrid Block.O q) ((2 + n : Nat) : Int)) = false) ∧
    locksPiece (withRow (spawnedPiece emptyGrid Block.O q) 30) = true ∧
    ∃ s', move_down_times fuel rand1 rand2 29 (spawnedPiece emptyGrid Block.O q) = some s' ∧
      s'.gameOver = false ∧
      ∀ r, r < TETRIS_ALL_HEIGHT → ∀ c, c < TETRIS_WIDTH →
        s'.data.cell r c =
          if (r = 30 ∨ r = 31) ∧ (c = 8 ∨ c = 9) then Block.O else Block.Empty := by
  obtain ⟨m, rfl⟩ : ∃ m : Nat, q = (m : Int) := ⟨q.toNat, by omega⟩
  have hm : m < 4 := by omega
  refine ⟨by interval_cases m <;> rfl, o_piece_fall m hm fuel rand1 rand2, ?_,
    by interval_cases m <;> decide, ?_⟩
  · intro n hn
    interval_cases m <;> interval_cases n <;> decide
  · obtain ⟨s', hs', hflag, hdata⟩ := o_piece_lock m hm fuel rand1 rand2 hfuel
    refine ⟨s', ?_, hflag, ?_⟩
    · rw [move_down_times, o_piece_fall m hm fuel rand1 rand2 28 (le_refl _), Option.some_bind]
      exact hs'
    · rw [hdata]
      decide

theorem o_piece_drop_witness :
    occupiedCells (spawnedPiece emptyGrid Block.O 2) = some [⟨2, 8⟩, ⟨2, 9⟩, ⟨3, 8⟩, ⟨3, 9⟩] ∧
    (∀ n, n ≤ 28 →
      move_down_times 32 4 1 n (spawnedPiece emptyGrid Block.O 2)
        = some (withRow (spawnedPiece emptyGrid Block.O 2) ((2 + n : Nat) : Int))) ∧
    (∀ n, n < 28 →
      locksPiece (withRow (spawnedPiece emptyGrid Block.O 2) ((2 + n : Nat) : Int)) = false) ∧
    locksPiece (withRow (spawnedPiece emptyGrid Block.O 2) 30) = true ∧
    ∃ s', move_down_times 32 4 1 29 (spawnedPiece emptyGrid Block.O 2) = some s' ∧
      s'.gameOver = false ∧
      ∀ r, r < TETRIS_ALL_HEIGHT → ∀ c, c < TETRIS_WIDTH →
        s'.data.cell r c =
          if (r = 30 ∨ r = 31) ∧ (c = 8 ∨ c = 9) then Block.O else Block.Empty :=
  o_piece_drop 2 (by decide) (by decide) 32 4 1 (by decide)

/-! ### Termination of the transitions -/

theorem exists_min_row : ∀ (shape : List Pos), shape ≠ [] →
    ∃ p ∈ shape, ∀ q ∈ shape, p.row ≤ q.row := by
  intro shape
  induction shape with
  | nil => intro h; exact absurd rfl h
  | cons a rest ih =>
    intro _
    by_cases hrest : rest = []
    · subst hrest
      exact ⟨a, List.mem_cons_self _ _, fun q hq => by
        rw [List.mem_singleton] at hq; rw [hq]⟩
    · obtain ⟨p, hp, hmin⟩ := ih hrest
      by_cases hap : a.row ≤ p.row
      · refine ⟨a, List.mem_cons_self _ _, fun q hq => ?_⟩
        rcases List.mem_cons.mp hq with rfl | hq
        · exact le_refl _
        · exact le_trans hap (hmin q hq)
      · refine ⟨p, List.mem_cons_of_mem _ hp, fun q hq => ?_⟩
        rcases List.mem_cons.mp hq with rfl | hq
        · omega
        · exact hmin q hq

theorem gridWithCells_cell_ne_empty (g : Grid) (cells : List Pos) (b : Block) (r c : Nat)
    (hb : b ≠ Block.Empty) (h : g.cell r c ≠ Block.Empty) :
    (gridWithCells g cells b).cell r c ≠ Block.Empty := by
  simp only [gridWithCells]
  split
  · exact hb
  · exact h

theorem find_the_bottom_empty_line_no_empty (g : Grid)
    (h : ∀ r, 4 ≤ r → r ≤ 16 → check_row_is_empty g r = false) :
    find_the_bottom_empty_line g = 16 := by
  rw [find_the_bottom_empty_line_eq, h 16 (by omega) (le_refl _)]
  simp only [Bool.false_eq_true, if_false]
  have hup := foldl_scan_up (check_row_is_empty g) 16 4 12
  simp only at hup
  rcases hup with ⟨hb, _⟩ | ⟨h1, h2, hfound, _⟩
  · exact hb
  · rw [h _ h1 (by omega)] at hfound
    cases hfound

/-- The grid after the lock of a piece that is in bounds, on Empty cells and
blocked below, on a settled stack: with `t` the top row of the piece, the rows
above `t` and the rows below `t + 4` are those of the old grid, every row from
`t` down has a non-Empty cell, and no occupied cell is emptied. -/
theorem locked_grid_rows (s : TetrisContext) (k : Nat)
    (hok : pieceInBoundsOnEmpty s = true) (hblocked : downBlocked s = true)
    (hk32 : k ≤ TETRIS_ALL_HEIGHT) (hsettled : settledFrom s.data k) :
    ∃ (locked : Grid) (t : Nat), lockedGrid s = some locked ∧
      save_current_block s = some { s with data := locked } ∧
      (∀ r c, r < t → locked.cell r c = s.data.cell r c) ∧
      (∀ r c, t + 4 < r → locked.cell r c = s.data.cell r c) ∧
      (∀ r, t ≤ r → r < TETRIS_ALL_HEIGHT →
        ∃ c, c < TETRIS_WIDTH ∧ locked.cell r c ≠ Block.Empty) ∧
      (∀ r c, s.data.cell r c ≠ Block.Empty → locked.cell r c ≠ Block.Empty) := by
  obtain ⟨shape, hs, hall⟩ := (pieceInBoundsOnEmpty_iff s).mp hok
  obtain ⟨hne, _⟩ := shapeOf_eq_some hs
  obtain ⟨locked, hlg, hsave⟩ := save_current_block_eq s hok
  have hlocked : locked = gridWithCells s.data
      (shape.map (fun p => ⟨s.currentBlockPos.row + p.row, s.currentBlockPos.col + p.col⟩))
      s.currentBlock := by
    simp only [lockedGrid, occupiedCells, hs, Option.map_some', Option.some.injEq] at hlg
    exact hlg.symm
  have hlen := table_length shape (shapeOf_mem_table hs)
  have hnil : shape ≠ [] := by
    intro h; rw [h] at hlen; cases hlen
  obtain ⟨pmin, hpmin, hmin⟩ := exists_min_row shape hnil
  -- the cell of the piece that is blocked below
  have hpb : ∃ pb ∈ shape, (k : Int) ≤ s.currentBlockPos.row + pb.row + 1 := by
    simp only [downBlocked, occupiedCells, hs, Option.map_some', List.any_map,
      List.any_eq_true, Function.comp_apply, Bool.or_eq_true, decide_eq_true_eq,
      Bool.not_eq_true'] at hblocked
    obtain ⟨p, hp, hcase⟩ := hblocked
    refine ⟨p, hp, ?_⟩
    have hbd := onEmptyCell_bounds (hall p hp)
    simp only [TETRIS_ALL_HEIGHT, TETRIS_HEIGHT, TETRIS_EXTRA_HEIGHT, TETRIS_WIDTH]
      at hbd hcase hk32
    rcases hcase with hcase | hcase
    · push_cast at hcase; omega
    · by_contra hlt
      have hlt' : s.currentBlockPos.row + p.row + 1 < (k : Int) := by omega
      have : onEmptyCell s.data
          ⟨s.currentBlockPos.row + p.row + 1, s.currentBlockPos.col + p.col⟩ = true := by
        unfold onEmptyCell
        simp only [Bool.and_eq_true, decide_eq_true_eq, TETRIS_ALL_HEIGHT, TETRIS_HEIGHT,
          TETRIS_EXTRA_HEIGHT, TETRIS_WIDTH]
        refine ⟨⟨⟨⟨by omega, by push_cast; omega⟩, hbd.2.2.1⟩, hbd.2.2.2.1⟩, ?_⟩
        exact hsettled.1 _ (by omega) _ (by simp only [TETRIS_WIDTH]; push_cast at hbd; omega)
      rw [this] at hcase
      cases hcase
  obtain ⟨pb, hpb, hpbk⟩ := hpb
  have hbmin := onEmptyCell_bounds (hall pmin hpmin)
  simp only at hbmin
  have hoffmin := shapeOf_offsets hs pmin hpmin
  refine ⟨locked, (s.currentBlockPos.row + pmin.row).toNat, hlg, hsave, ?_, ?_, ?_, ?_⟩
  · intro r c hr
    rw [hlocked]
    apply gridWithCells_cell_of_not_mem
    intro p hp
    rw [List.mem_map] at hp
    obtain ⟨q, hq, rfl⟩ := hp
    have := hmin q hq
    simp only
    omega
  · intro r c hr
    rw [hlocked]
    apply gridWithCells_cell_of_not_mem
    intro p hp
    rw [List.mem_map] at hp
    obtain ⟨q, hq, rfl⟩ := hp
    have := shapeOf_offsets hs q hq
    simp only
    omega
  · intro r hr1 hr2
    by_cases hrk : k ≤ r
    · obtain ⟨c, hc, hcne⟩ := hsettled.2 r hrk hr2
      exact ⟨c, hc, by rw [hlocked]; exact gridWithCells_cell_ne_empty _ _ _ _ _ hne hcne⟩
    · -- the row is covered by the piece
      have hcover : ∃ u ∈ shape, s.currentBlockPos.row + u.row = (r : Int) := by
        by_cases h1 : s.currentBlockPos.row + pmin.row = (r : Int)
        · exact ⟨pmin, hpmin, h1⟩
        · by_cases h2 : s.currentBlockPos.row + pb.row = (r : Int)
          · exact ⟨pb, hpb, h2⟩
          · obtain ⟨u, hu, hur⟩ := shape_rows_interval hs pmin pb hpmin hpb
              ((r : Int) - s.currentBlockPos.row) (by omega) (by omega)
            exact ⟨u, hu, by omega⟩
      obtain ⟨u, hu, hur⟩ := hcover
      have hbd := onEmptyCell_bounds (hall u hu)
      simp only at hbd
      refine ⟨(s.currentBlockPos.col + u.col).toNat,
        by simp only [TETRIS_WIDTH] at hbd ⊢; omega, ?_⟩
      have hcell := gridWithCells_cell_of_mem s.data
        (shape.map (fun p => ⟨s.currentBlockPos.row + p.row, s.currentBlockPos.col + p.col⟩))
        s.currentBlock ⟨s.currentBlockPos.row + u.row, s.currentBlockPos.col + u.col⟩
        (List.mem_map_of_mem _ hu) hbd.1 hbd.2.2.1
      simp only [hur, Int.toNat_ofNat] at hcell
      rw [hlocked, hcell]
      exact hne
  · intro r c h
    rw [hlocked]
    exact gridWithCells_cell_ne_empty _ _ _ _ _ hne h

/-- On a settled stack without a full row, `eliminate_lines` terminates on
the grid produced by the lock. -/
theorem eliminate_lines_after_lock (s : TetrisContext) (k fuel : Nat)
    (hok : pieceInBoundsOnEmpty s = true) (hblocked : downBlocked s = true)
    (hk5 : 5 ≤ k) (hk32 : k ≤ TETRIS_ALL_HEIGHT) (hsettled : settledFrom s.data k)
    (hnf : noFullRow s.data) (hfuel : 2 * TETRIS_ALL_HEIGHT ≤ fuel) :
    ∃ locked g', lockedGrid s = some locked ∧
      save_current_block s = some { s with data := locked } ∧
      eliminate_lines fuel locked = some g' := by
  obtain ⟨locked, t, hlg, hsave, habove, hbelow, hrows, hkeep⟩ :=
    locked_grid_rows s k hok hblocked hk32 hsettled
  have hrows' : ∀ r, t ≤ r → r < TETRIS_ALL_HEIGHT → check_row_is_empty locked r = false := by
    intro r h1 h2
    cases he : check_row_is_empty locked r with
    | false => rfl
    | true =>
      obtain ⟨c, hc, hcne⟩ := hrows r h1 h2
      exact absurd ((check_row_is_empty_iff locked r).mp he c hc) hcne
  by_cases ht : 5 ≤ t
  · -- the locked grid is a settled stack from row `min k t`
    have key : ∀ k', 5 ≤ k' → (k' = k ∨ k' = t) → k' ≤ k → k' ≤ t →
        ∃ g', eliminate_lines fuel locked = some g' := by
      intro k' hk'5 hk' hk'k hk't
      obtain ⟨g', hg', _⟩ := eliminate_lines_settled_rows locked k' fuel hk'5
        (by
          intro r hr
          rw [check_row_is_empty_iff]
          intro c hc
          rw [habove r c (by omega)]
          exact hsettled.1 r (by omega) c hc)
        (by
          intro r hr1 hr2
          by_cases hrt : t ≤ r
          · exact hrows' r hrt hr2
          · have hkr : k ≤ r := by omega
            cases he : check_row_is_empty locked r with
            | false => rfl
            | true =>
              obtain ⟨c, hc, hcne⟩ := hsettled.2 r hkr hr2
              exact absurd ((check_row_is_empty_iff locked r).mp he c hc) (hkeep r c hcne))
        hfuel
      exact ⟨g', hg'⟩
    by_cases hkt : k ≤ t
    · obtain ⟨g', hg'⟩ := key k hk5 (Or.inl rfl) (le_refl _) hkt
      exact ⟨locked, g', hlg, hsave, hg'⟩
    · obtain ⟨g', hg'⟩ := key t ht (Or.inr rfl) (by omega) (le_refl _)
      exact ⟨locked, g', hlg, hsave, hg'⟩
  · -- the piece reaches row 4: the boundary is 16 and no row below it is full
    have hb : find_the_bottom_empty_line locked = 16 :=
      find_the_bottom_empty_line_no_empty locked (fun r h1 h2 =>
        hrows' r (by omega) (by simp only [TETRIS_ALL_HEIGHT, TETRIS_HEIGHT,
          TETRIS_EXTRA_HEIGHT]; omega))
    refine ⟨locked, locked, hlg, hsave, ?_⟩
    unfold eliminate_lines
    rw [hb]
    apply eliminate_loop_no_full
    · simp only [TETRIS_ALL_HEIGHT, TETRIS_HEIGHT, TETRIS_EXTRA_HEIGHT] at hfuel ⊢
      omega
    · intro i hi1 hi2
      apply not_full_of_empty_cell
      obtain ⟨c, hc, hce⟩ := hnf i (by
        simp only [TETRIS_ALL_HEIGHT, TETRIS_HEIGHT, TETRIS_EXTRA_HEIGHT] at hi2 ⊢; omega)
      exact ⟨c, hc, by rw [hbelow i c (by omega)]; exact hce⟩

/-- When the boundary row and every row from it down to `r` are full, the loop
never stops: it runs out of every amount of fuel. -/
theorem eliminate_loop_diverges (b r : Nat) (hbr : b < r) : ∀ (fuel : Nat) (g : Grid),
    (∀ i, b ≤ i → i ≤ r → check_row_is_full g i = true) →
    eliminate_loop b fuel r g = none := by
  intro fuel
  induction fuel with
  | zero => intro g _; exact eliminate_loop_zero b r g hbr
  | succ fuel ih =>
    intro g hfull
    rw [eliminate_loop_full b fuel r g hbr (hfull r (by omega) (le_refl _))]
    apply ih
    intro i hi1 hi2
    rw [check_row_is_full_eq, rowOf_scroll_down]
    by_cases h : b < i ∧ i ≤ r
    · rw [if_pos h, ← check_row_is_full_eq]
      exact hfull (i - 1) (by omega) (by omega)
    · rw [if_neg h, ← check_row_is_full_eq]
      exact hfull i hi1 hi2

/-! ### When the locking `move_down` returns -/

/-- On `fullStackExample` the lock succeeds and the loop of `eliminate_lines`
never stops: the boundary is row 16, which is full like every row below it. -/
theorem fullStackExample_diverges (fuel rand1 rand2 : Nat) :
    move_down fuel rand1 rand2 fullStackExample = none := by
  have hok : pieceInBoundsOnEmpty fullStackExample = true := by decide
  have hl : locksPiece fullStackExample = true := by decide
  obtain ⟨g, hlg, hsave⟩ := save_current_block_eq fullStackExample hok
  have hg : g = gridWithCells fullStackGrid [⟨2, 8⟩, ⟨2, 9⟩, ⟨3, 8⟩, ⟨3, 9⟩] Block.O := by
    have h : some (gridWithCells fullStackGrid [⟨2, 8⟩, ⟨2, 9⟩, ⟨3, 8⟩, ⟨3, 9⟩] Block.O)
        = some g := by
      rw [← hlg]
      rfl
    exact (Option.some.inj h).symm
  subst hg
  have hb : find_the_bottom_empty_line
      (gridWithCells fullStackGrid [⟨2, 8⟩, ⟨2, 9⟩, ⟨3, 8⟩, ⟨3, 9⟩] Block.O) = 16 := by
    decide
  have helim : eliminate_lines fuel
      (gridWithCells fullStackGrid [⟨2, 8⟩, ⟨2, 9⟩, ⟨3, 8⟩, ⟨3, 9⟩] Block.O) = none := by
    unfold eliminate_lines
    rw [hb]
    apply eliminate_loop_diverges 16 _ (by decide)
    intro i hi1 hi2
    have hi3 : i ≤ 31 := hi2
    interval_cases i <;> decide
  rw [move_down_lock_eq fuel rand1 rand2 _ hl, hsave]
  simp only [Option.some_bind, helim, Option.map_none']

/-- With a boundary row that is not full the loop of `eliminate_lines` stops:
each pass either moves `r` up or removes one full row from the rows below the
boundary. -/
theorem eliminate_loop_terminates (b : Nat) : ∀ (fuel r : Nat) (g : Grid),
    b ≤ r → isFullRow (rowOf g b) = false →
    (r - b) + (rowSegment g (b + 1) (r - b)).countP isFullRow ≤ fuel →
    ∃ g', eliminate_loop b fuel r g = some g' := by
  intro fuel
  induction fuel with
  | zero =>
    intro r g hbr _ hm
    exact ⟨g, eliminate_loop_done _ _ _ g (by omega)⟩
  | succ fuel ih =>
    intro r g hbr hb hm
    by_cases hr : r = b
    · subst hr
      exact ⟨g, eliminate_loop_done _ _ _ g (le_refl _)⟩
    · obtain ⟨n, hn⟩ : ∃ n, r - b = n + 1 := ⟨r - b - 1, by omega⟩
      have hrn : b + 1 + n = r := by omega
      have hseg : rowSegment g (b + 1) (r - b) = rowSegment g (b + 1) n ++ [rowOf g r] := by
        rw [hn, rowSegment_succ_last, hrn]
      have hn' : r - 1 - b = n := by omega
      cases hf : check_row_is_full g r with
      | false =>
        have hf' : isFullRow (rowOf g r) = false := by rw [← check_row_is_full_eq]; exact hf
        have hcount : (rowSegment g (b + 1) (r - b)).countP isFullRow
            = (rowSegment g (b + 1) n).countP isFullRow := by
          rw [hseg, List.countP_append]; simp [hf']
        rw [hcount] at hm
        obtain ⟨g', hg'⟩ := ih (r - 1) g (by omega) hb (by rw [hn']; omega)
        exact ⟨g', by rw [eliminate_loop_not_full b _ r g (by omega) hf]; exact hg'⟩
      | true =>
        have hf' : isFullRow (rowOf g r) = true := by rw [← check_row_is_full_eq]; exact hf
        have hcount : (rowSegment g (b + 1) (r - b)).countP isFullRow
            = (rowSegment g (b + 1) n).countP isFullRow + 1 := by
          rw [hseg, List.countP_append]; simp [hf']
        rw [hcount] at hm
        have hcount1 : (rowOf g b :: rowSegment g (b + 1) n).countP isFullRow
            = (rowSegment g (b + 1) n).countP isFullRow := by
          rw [List.countP_cons_of_neg]; simp [hb]
        have hseg1 : rowSegment (scroll_down g b r) (b + 1) (r - b)
            = rowOf g b :: rowSegment g (b + 1) n := by
          rw [rowSegment_scroll_down g b r hbr, hn, rowSegment_succ_first]
        have hb1 : isFullRow (rowOf (scroll_down g b r) b) = false := by
          rw [rowOf_scroll_down, if_neg (by omega)]; exact hb
        obtain ⟨g', hg'⟩ := ih r (scroll_down g b r) hbr hb1
          (by rw [hseg1, hcount1]; omega)
        exact ⟨g', by rw [eliminate_loop_full b _ r g (by omega) hf]; exact hg'⟩

/-- `eliminate_lines` returns on every grid whose boundary row is not full. -/
theorem eliminate_lines_terminates (g : Grid) (fuel : Nat)
    (hb : check_row_is_full g (find_the_bottom_empty_line g) = false)
    (hfuel : 2 * TETRIS_ALL_HEIGHT ≤ fuel) :
    ∃ g', eliminate_lines fuel g = some g' := by
  have hbd := find_the_bottom_empty_line_bounds g
  unfold eliminate_lines
  generalize find_the_bottom_empty_line g = b at hb hbd
  simp only [TETRIS_ALL_HEIGHT, TETRIS_HEIGHT, TETRIS_EXTRA_HEIGHT] at hbd hfuel ⊢
  have hlen : (rowSegment g (b + 1) (31 - b)).length = 31 - b := by simp [rowSegment]
  have hcnt := List.countP_le_length isFullRow (l := rowSegment g (b + 1) (31 - b))
  exact eliminate_loop_terminates b fuel 31 g (by omega)
    (by rw [← check_row_is_full_eq]; exact hb) (by omega)

/-- The locking `move_down` of a piece in bounds and on Empty cells, in terms
of the locked grid. -/
theorem move_down_locked (s : TetrisContext) (fuel rand1 rand2 : Nat)
    (hok : pieceInBoundsOnEmpty s = true) (hblocked : downBlocked s = true) :
    ∃ locked, lockedGrid s = some locked ∧
      save_current_block s = some { s with data := locked } ∧
      move_down fuel rand1 rand2 s =
        (eliminate_lines fuel locked).map (fun g =>
          gen_random_block rand1 rand2
            (if !check_row_is_empty g TETRIS_EXTRA_HEIGHT then
              { s with data := g, gameOver := true }
            else { s with data := g })) := by
  have hl : locksPiece s = true := by
    rw [locksPiece_eq_downBlocked s hok]; exact hblocked
  obtain ⟨locked, hlg, hsave⟩ := save_current_block_eq s hok
  refine ⟨locked, hlg, hsave, ?_⟩
  rw [move_down_lock_eq fuel rand1 rand2 s hl, hsave]
  rfl

/-! ### The flag and the spawn after a lock -/

/-- C6, as stated, fails.  In `topOutExample` (flag false, piece in bounds, on
Empty cells and blocked below) `move_down` sets `gameOver` although no cell of
the hidden buffer rows `0 .. 3` is occupied after the lock and the
elimination: the locked piece covers rows `4 .. 7`.  And in `fullStackExample`
(flag false, piece in bounds, on Empty cells and blocked below) the call sets
nothing: it does not return, for any fuel and draws. -/
theorem gameOver_hidden_buffer_counterexample :
    (topOutExample.gameOver = false ∧ pieceInBoundsOnEmpty topOutExample = true ∧
      downBlocked topOutExample = true ∧
      (move_down 64 0 0 topOutExample).map (fun s => (s.gameOver, hiddenBufferOccupied s.data))
        = some (true, false)) ∧
    (fullStackExample.gameOver = false ∧ pieceInBoundsOnEmpty fullStackExample = true ∧
      downBlocked fullStackExample = true ∧
      ∀ fuel rand1 rand2, move_down fuel rand1 rand2 fullStackExample = none) :=
  ⟨by decide, by decide, by decide, by decide, fullStackExample_diverges⟩

/-- C6 (amended). For a state with `gameOver` false whose piece is in bounds
and on Empty cells, a `move_down` that locks the piece returns exactly when its
`eliminate_lines` call returns on the grid with the piece locked; the grid it
returns is the result of that call, and the flag it returns is true exactly
when row `TETRIS_EXTRA_HEIGHT` (row 4, the first row below the hidden buffer)
of that grid has a non-Empty cell, and false otherwise.  The call returns
(fuel at least 64) whenever the boundary row found on the locked grid is not
full, and whenever the grid before the lock is a settled stack (rows
`0 .. k - 1` Empty, each of the rows `k .. 31` with a non-Empty cell,
`5 ≤ k ≤ 32`) without a full row. -/
theorem gameOver_after_lock (context : TetrisContext) (fuel rand1 rand2 : Nat)
    (hflag : context.gameOver = false) (hok : pieceInBoundsOnEmpty context = true)
    (hblocked : downBlocked context = true) :
    ∃ locked, lockedGrid context = some locked ∧
      (move_down fuel rand1 rand2 context).map (fun s => s.data)
        = eliminate_lines fuel locked ∧
      (move_down fuel rand1 rand2 context).map (fun s => s.gameOver)
        = (eliminate_lines fuel locked).map
            (fun g => !check_row_is_empty g TETRIS_EXTRA_HEIGHT) ∧
      (∀ s', move_down fuel rand1 rand2 context = some s' →
        (s'.gameOver = true ↔
          ∃ c, c < TETRIS_WIDTH ∧ s'.data.cell TETRIS_EXTRA_HEIGHT c ≠ Block.Empty) ∧
        (s'.gameOver = false ↔
          ∀ c, c < TETRIS_WIDTH → s'.data.cell TETRIS_EXTRA_HEIGHT c = Block.Empty)) ∧
      (check_row_is_full locked (find_the_bottom_empty_line locked) = false →
        2 * TETRIS_ALL_HEIGHT ≤ fuel → ∃ s', move_down fuel rand1 rand2 context = some s') ∧
      (∀ k, 5 ≤ k → k ≤ TETRIS_ALL_HEIGHT → settledFrom context.data k →
        noFullRow context.data → 2 * TETRIS_ALL_HEIGHT ≤ fuel →
        ∃ s', move_down fuel rand1 rand2 context = some s') := by
  obtain ⟨locked, hlg, hsave, hmove⟩ := move_down_locked context fuel rand1 rand2 hok hblocked
  have hdata : (move_down fuel rand1 rand2 context).map (fun s => s.data)
      = eliminate_lines fuel locked := by
    rw [hmove]
    cases eliminate_lines fuel locked with
    | none => rfl
    | some g => cases hr : check_row_is_empty g TETRIS_EXTRA_HEIGHT <;> simp [hr, gen_random_block]
  have hgo : (move_down fuel rand1 rand2 context).map (fun s => s.gameOver)
      = (eliminate_lines fuel locked).map
          (fun g => !check_row_is_empty g TETRIS_EXTRA_HEIGHT) := by
    rw [hmove]
    cases eliminate_lines fuel locked with
    | none => rfl
    | some g =>
      cases hr : check_row_is_empty g TETRIS_EXTRA_HEIGHT <;>
        simp [hr, gen_random_block, hflag]
  refine ⟨locked, hlg, hdata, hgo, ?_, ?_, ?_⟩
  · intro s' hs'
    rw [hs'] at hdata hgo
    cases he : eliminate_lines fuel locked with
    | none => rw [he] at hdata; cases hdata
    | some g =>
      rw [he] at hdata hgo
      simp only [Option.map_some', Option.some.injEq] at hdata hgo
      rw [← hdata] at hgo
      constructor
      · rw [hgo, row_not_empty_iff]
      · rw [hgo, Bool.not_eq_false', check_row_is_empty_iff]
  · intro hb hfuel
    obtain ⟨g', hg'⟩ := eliminate_lines_terminates locked fuel hb hfuel
    rw [hmove, hg']
    exact ⟨_, rfl⟩
  · intro k hk5 hk32 hset hnf hfuel
    obtain ⟨locked', g', hlg', _, hg'⟩ :=
      eliminate_lines_after_lock context k fuel hok hblocked hk5 hk32 hset hnf hfuel
    rw [hlg] at hlg'
    cases hlg'
    rw [hmove, hg']
    exact ⟨_, rfl⟩
theorem gameOver_after_lock_witness :
    ∃ locked s', lockedGrid topOutExample = some locked ∧
      move_down 64 0 0 topOutExample = some s' ∧
      eliminate_lines 64 locked = some s'.data ∧
      s'.gameOver = true ∧
      (s'.gameOver = true ↔
        ∃ c, c < TETRIS_WIDTH ∧ s'.data.cell TETRIS_EXTRA_HEIGHT c ≠ Block.Empty) := by
  obtain ⟨locked, hlg, hdata, _, hiff, _, hk⟩ :=
    gameOver_after_lock topOutExample 64 0 0 rfl (by decide) (by decide)
  obtain ⟨s', hs'⟩ := hk 8 (by decide) (by decide) (by unfold settledFrom; decide)
    (by unfold noFullRow; decide) (by decide)
  have hgo : (move_down 64 0 0 topOutExample).map (fun s => s.gameOver) = some true := by
    decide
  rw [hs'] at hdata hgo
  exact ⟨locked, s', hlg, hs', hdata.symm, by simpa using hgo, (hiff s' hs').1⟩

/-- C8, as stated, fails.  In `topOutExample` the locking `move_down` (with the
draws 1 and 0) sets `gameOver`, and the active piece afterwards is a fresh O
piece with rotation 0 at the spawn anchor (row 2, column 8), not the locked I
piece with rotation 1 at row 5, column 8.  And in `fullStackExample` the
locking `move_down` does not return, for any fuel and draws. -/
theorem spawn_after_game_over_counterexample :
    (locksPiece topOutExample = true ∧ topOutExample.gameOver = false ∧
      topOutExample.currentBlock = Block.I ∧ topOutExample.currentBlockPos = ⟨5, 8⟩ ∧
      topOutExample.currentBlockRotateTimes = 1 ∧
      (move_down 64 1 0 topOutExample).map
          (fun s => (s.gameOver, s.currentBlock, s.currentBlockPos, s.currentBlockRotateTimes))
        = some (true, Block.O, ⟨2, 8⟩, 0)) ∧
    (locksPiece fullStackExample = true ∧
      ∀ fuel rand1 rand2, move_down fuel rand1 rand2 fullStackExample = none) :=
  ⟨by decide, by decide, fullStackExample_diverges⟩

/-- C8 (amended). For every state, a locking `move_down` returns exactly when
its `save_current_block` and `eliminate_lines` calls return, and it then always
spawns a new piece, whether or not it sets `gameOver`: afterwards the kind is
the one drawn (`rand1 % 7`), the rotation index is the one drawn (`rand2 % 4`)
and the anchor is the spawn coordinate (row 2, column 8).  The call returns
(fuel at least 64) whenever the piece is in bounds and on Empty cells and the
boundary row found on the locked grid is not full, in particular whenever the
grid before the lock is a settled stack (rows `0 .. k - 1` Empty, each of the
rows `k .. 31` with a non-Empty cell, `5 ≤ k ≤ 32`) without a full row. -/
theorem spawn_after_lock (context : TetrisContext) (fuel rand1 rand2 : Nat)
    (hl : locksPiece context = true) :
    (move_down fuel rand1 rand2 context).map
        (fun s => (s.currentBlock, s.currentBlockRotateTimes, s.currentBlockPos))
      = ((save_current_block context).bind (fun saved => eliminate_lines fuel saved.data)).map
          (fun _ => (Block.ofIndex (rand1 % 7), ((rand2 % 4 : Nat) : Int),
            (⟨2, ((TETRIS_WIDTH / 2 : Nat) : Int)⟩ : Pos))) ∧
    (pieceInBoundsOnEmpty context = true → 2 * TETRIS_ALL_HEIGHT ≤ fuel →
      ((∀ locked, lockedGrid context = some locked →
          check_row_is_full locked (find_the_bottom_empty_line locked) = false) ∨
        (∃ k, 5 ≤ k ∧ k ≤ TETRIS_ALL_HEIGHT ∧ settledFrom context.data k ∧
          noFullRow context.data)) →
      ∃ s', move_down fuel rand1 rand2 context = some s' ∧
        s'.currentBlock = Block.ofIndex (rand1 % 7) ∧
        s'.currentBlockRotateTimes = ((rand2 % 4 : Nat) : Int) ∧
        s'.currentBlockPos = ⟨2, ((TETRIS_WIDTH / 2 : Nat) : Int)⟩) := by
  constructor
  · rw [move_down_lock_eq fuel rand1 rand2 context hl]
    cases save_current_block context with
    | none => rfl
    | some saved =>
      simp only [Option.some_bind]
      cases eliminate_lines fuel saved.data with
      | none => rfl
      | some g =>
        cases hr : check_row_is_empty g TETRIS_EXTRA_HEIGHT <;> simp [hr, gen_random_block]
  · intro hok hfuel hcond
    have hblocked : downBlocked context = true := by
      rw [← locksPiece_eq_downBlocked context hok]; exact hl
    obtain ⟨locked, hlg, _, hmove⟩ := move_down_locked context fuel rand1 rand2 hok hblocked
    have hret : ∃ g', eliminate_lines fuel locked = some g' := by
      rcases hcond with hb | ⟨k, hk5, hk32, hset, hnf⟩
      · exact eliminate_lines_terminates locked fuel (hb locked hlg) hfuel
      · obtain ⟨locked', g', hlg', _, hg'⟩ :=
          eliminate_lines_after_lock context k fuel hok hblocked hk5 hk32 hset hnf hfuel
        rw [hlg] at hlg'
        cases hlg'
        exact ⟨g', hg'⟩
    obtain ⟨g', hg'⟩ := hret
    rw [hmove, hg']
    refine ⟨_, rfl, ?_⟩
    cases hr : check_row_is_empty g' TETRIS_EXTRA_HEIGHT <;> simp [gen_random_block]

theorem spawn_after_lock_witness :
    locksPiece topOutExample = true ∧
    ∃ s', move_down 64 5 3 topOutExample = some s' ∧ s'.gameOver = true ∧
      s'.currentBlock = Block.ofIndex (5 % 7) ∧
      s'.currentBlockRotateTimes = ((3 % 4 : Nat) : Int) ∧
      s'.currentBlockPos = ⟨2, ((TETRIS_WIDTH / 2 : Nat) : Int)⟩ := by
  obtain ⟨s', hs', hfields⟩ := (spawn_after_lock topOutExample 64 5 3 (by decide)).2
    (by decide) (by decide)
    (Or.inr ⟨8, by decide, by decide, by unfold settledFrom; decide, by unfold noFullRow; decide⟩)
  have hgo : (move_down 64 5 3 topOutExample).map (fun s => s.gameOver) = some true := by
    decide
  rw [hs'] at hgo
  exact ⟨by decide, s', hs', by simpa using hgo, hfields⟩
/-- C13, as stated, fails.  `fullStackExample` satisfies the listed invariants
(kind O, rotation 0, the four cells in bounds and on Empty cells), its lock
succeeds, and `move_down` does not terminate on it: after the lock rows
`4 .. 31` are all non-Empty, the boundary is row 16, which is full like every
row below it, so the elimination loop shifts forever (it runs out of every
amount of fuel).  `topRowExample` satisfies them too (kind T, rotation 0, the
four cells in rows 0 and 1, in bounds and on Empty cells), and `rotate`
reads `data[-1][8]` on it, outside the array: the turned piece has a cell in
row -1 and no check tests the top bound. -/
theorem transitions_total_counterexample :
    (pieceInBoundsOnEmpty fullStackExample = true ∧
      fullStackExample.currentBlock = Block.O ∧
      fullStackExample.currentBlockRotateTimes = 0 ∧
      (save_current_block fullStackExample).isSome = true ∧
      ∀ fuel rand1 rand2, move_down fuel rand1 rand2 fullStackExample = none) ∧
    (pieceInBoundsOnEmpty topRowExample = true ∧
      topRowExample.currentBlock = Block.T ∧ topRowExample.currentBlockRotateTimes = 0 ∧
      (occupiedCells { topRowExample with currentBlockRotateTimes := 1 }).map
          (fun cells => cells.any (fun p => decide (p = ⟨-1, 8⟩))) = some true ∧
      data_get topRowExample.data (-1) 8 = none ∧
      (rotate topRowExample).isSome = false) :=
  ⟨⟨by decide, rfl, rfl, by decide, fullStackExample_diverges⟩, by decide⟩

/-- C13 (amended). For every engine state whose active piece is in bounds and
on Empty cells (so its kind is one of the seven piece kinds and its rotation
index is in `0 .. 3`): `move_left` and `move_right` return a state; `rotate`
returns a state when the anchor row is `≥ 2`; `move_down` returns a state when
the piece is not blocked below; when it is blocked, `move_down` returns exactly
when the loop of `eliminate_lines` terminates on the grid produced by the
lock, which it does (fuel at least 64) whenever the boundary row found on that
grid is not full, in particular whenever the grid before the lock is a settled
stack (rows `0 .. k - 1` Empty, each of the rows `k .. 31` with a non-Empty
cell, `5 ≤ k ≤ 32`) without a full row. -/
theorem transitions_total (s : TetrisContext) (fuel rand1 rand2 : Nat)
    (hok : pieceInBoundsOnEmpty s = true) :
    (∃ s', move_left s = some s') ∧ (∃ s', move_right s = some s') ∧
    (2 ≤ s.currentBlockPos.row → ∃ s', rotate s = some s') ∧
    (downBlocked s = false → ∃ s', move_down fuel rand1 rand2 s = some s') ∧
    (downBlocked s = true →
      ∃ locked, lockedGrid s = some locked ∧
        (move_down fuel rand1 rand2 s).isSome = (eliminate_lines fuel locked).isSome ∧
        (check_row_is_full locked (find_the_bottom_empty_line locked) = false →
          2 * TETRIS_ALL_HEIGHT ≤ fuel →
          (∃ g', eliminate_lines fuel locked = some g') ∧
            ∃ s', move_down fuel rand1 rand2 s = some s') ∧
        (∀ k, 5 ≤ k → k ≤ TETRIS_ALL_HEIGHT → settledFrom s.data k → noFullRow s.data →
          2 * TETRIS_ALL_HEIGHT ≤ fuel →
          (∃ g', eliminate_lines fuel locked = some g') ∧
            ∃ s', move_down fuel rand1 rand2 s = some s')) := by
  refine ⟨⟨_, move_left_eq s hok⟩, ⟨_, move_right_eq s hok⟩,
    fun hrow => ⟨_, rotate_eq s hok hrow⟩, ?_, ?_⟩
  · intro hb
    have hfree : downFree s = true := by
      have := downBlocked_eq_not_downFree s hok
      rw [hb] at this
      cases hf : downFree s with
      | true => rfl
      | false => rw [hf] at this; cases this
    exact ⟨_, move_down_unblocked s fuel rand1 rand2 hok hfree⟩
  · intro hb
    obtain ⟨locked, hlg, _, hmove⟩ := move_down_locked s fuel rand1 rand2 hok hb
    refine ⟨locked, hlg, ?_, ?_, ?_⟩
    · rw [hmove]
      cases eliminate_lines fuel locked <;> rfl
    · intro hbf hfuel
      obtain ⟨g', hg'⟩ := eliminate_lines_terminates locked fuel hbf hfuel
      refine ⟨⟨g', hg'⟩, ?_⟩
      rw [hmove, hg']
      exact ⟨_, rfl⟩
    · intro k hk5 hk32 hset hnf hfuel
      obtain ⟨locked', g', hlg', _, hg'⟩ :=
        eliminate_lines_after_lock s k fuel hok hb hk5 hk32 hset hnf hfuel
      rw [hlg] at hlg'
      cases hlg'
      refine ⟨⟨g', hg'⟩, ?_⟩
      rw [hmove, hg']
      exact ⟨_, rfl⟩

theorem transitions_total_witness :
    pieceInBoundsOnEmpty holeExample = true ∧ downBlocked holeExample = true ∧
    (∃ s', move_left holeExample = some s') ∧
    (∃ s', move_right holeExample = some s') ∧
    (∃ s', rotate holeExample = some s') ∧
    (∃ locked, lockedGrid holeExample = some locked ∧
      check_row_is_full locked 31 = true ∧
      (∃ g', eliminate_lines 64 locked = some g') ∧
      ∃ s', move_down 64 0 0 holeExample = some s') := by
  obtain ⟨h1, h2, h3, _, h5⟩ := transitions_total holeExample 64 0 0 (by decide)
  obtain ⟨locked, hlg, _, hb, _⟩ := h5 (by decide)
  have hfull : (lockedGrid holeExample).map (fun g => check_row_is_full g 31) = some true := by
    decide
  have hbf : (lockedGrid holeExample).map
      (fun g => check_row_is_full g (find_the_bottom_empty_line g)) = some false := by
    decide
  rw [hlg] at hfull hbf
  exact ⟨by decide, by decide, h1, h2, h3 (by decide), locked, hlg, by simpa using hfull,
    hb (by simpa using hbf) (by decide)⟩
/-! ### Frame of the elimination, quarter turns -/

/-- C22. When `eliminate_lines` returns, rows `0 .. TETRIS_EXTRA_HEIGHT` (rows
`0 .. 4`) of its result equal the same rows of its input, cell for cell.
Consequently the flag after a locking `move_down` is decided by row 4 of the
grid right after `save_current_block`: `gameOver` is true afterwards exactly
when it was true before or that row has a non-Empty cell, whatever lines are
cleared in the same call. -/
theorem eliminate_lines_keeps_top_rows (s s' saved : TetrisContext) (g g' : Grid)
    (fuel fuel' rand1 rand2 : Nat) :
    (eliminate_lines fuel g = some g' →
      ∀ i, i ≤ TETRIS_EXTRA_HEIGHT → ∀ c, c < TETRIS_WIDTH → g'.cell i c = g.cell i c) ∧
    (move_down fuel' rand1 rand2 s = some s' → locksPiece s = true →
      save_current_block s = some saved →
      s'.gameOver = (s.gameOver || !check_row_is_empty saved.data TETRIS_EXTRA_HEIGHT) ∧
      (s'.gameOver = true ↔ s.gameOver = true ∨
        ∃ c, c < TETRIS_WIDTH ∧ saved.data.cell TETRIS_EXTRA_HEIGHT c ≠ Block.Empty)) := by
  constructor
  · intro h i hi c _
    exact eliminate_lines_top_rows fuel g g' h i c hi
  · intro h hl hsaved
    obtain ⟨saved', g2, hsave, helim, _, hgo, _⟩ := move_down_lock fuel' rand1 rand2 s s' h hl
    rw [hsaved] at hsave
    cases hsave
    have hrow : check_row_is_empty g2 TETRIS_EXTRA_HEIGHT
        = check_row_is_empty saved.data TETRIS_EXTRA_HEIGHT := by
      unfold check_row_is_empty
      congr 1
      funext c
      rw [eliminate_lines_top_rows fuel' saved.data g2 helim _ c (le_refl _)]
    rw [hrow, save_current_block_gameOver s saved hsaved] at hgo
    refine ⟨hgo, ?_⟩
    rw [hgo, Bool.or_eq_true, row_not_empty_iff]

theorem eliminate_lines_keeps_top_rows_witness :
    (∃ g', eliminate_lines 64 settledExample = some g' ∧
      ∀ i, i ≤ TETRIS_EXTRA_HEIGHT → ∀ c, c < TETRIS_WIDTH →
        g'.cell i c = settledExample.cell i c) ∧
    (∃ s' saved, move_down 64 0 0 topOutExample = some s' ∧
      save_current_block topOutExample = some saved ∧
      s'.gameOver = (topOutExample.gameOver ||
        !check_row_is_empty saved.data TETRIS_EXTRA_HEIGHT)) := by
  constructor
  · cases h : eliminate_lines 64 settledExample with
    | none =>
      have hsome : (eliminate_lines 64 settledExample).isSome = true := by decide
      rw [h] at hsome
      cases hsome
    | some g' =>
      exact ⟨g', rfl, (eliminate_lines_keeps_top_rows topOutExample topOutExample
        topOutExample settledExample g' 64 64 0 0).1 h⟩
  · cases h : move_down 64 0 0 topOutExample with
    | none =>
      have hsome : (move_down 64 0 0 topOutExample).isSome = true := by decide
      rw [h] at hsome
      cases hsome
    | some s' =>
      cases hs : save_current_block topOutExample with
      | none =>
        have hsome : (save_current_block topOutExample).isSome = true := by decide
        rw [hs] at hsome
        cases hsome
      | some saved =>
        exact ⟨s', saved, rfl, rfl, ((eliminate_lines_keeps_top_rows topOutExample s' saved
          settledExample settledExample 64 64 0 0).2 h (by decide) hs).1⟩

/-- C26. For every piece kind other than O, every rotation index `q` in
`0 .. 3` and every `i` in `0 .. 3`, the `i`-th offset of
`blockShapeMap[kind][(q + 1) mod 4]` is `(col, -row)` where `(row, col)` is the
`i`-th offset of `blockShapeMap[kind][q]`; for kind O the four rotation states
are identical. -/
theorem rotation_states_quarter_turns (block : Block) (q : Int) (hb : block ≠ Block.Empty)
    (hq0 : 0 ≤ q) (hq4 : q < 4) :
    (block ≠ Block.O →
      ∃ a b, shapeOf block q = some a ∧ shapeOf block ((q + 1) % 4) = some b ∧
        a.length = 4 ∧ b.length = 4 ∧ b = a.map quarterTurn ∧
        ∀ i, i < 4 → b.get? i = (a.get? i).map quarterTurn) ∧
    (block = Block.O → shapeOf block q = shapeOf block 0) := by
  obtain ⟨n, rfl⟩ : ∃ n : Nat, q = (n : Int) := ⟨q.toNat, by omega⟩
  have hn : n < 4 := by omega
  cases block <;> first
    | exact absurd rfl hb
    | (interval_cases n <;> refine ⟨fun _ => ⟨_, _, rfl, rfl, by decide⟩, by decide⟩)
    | (interval_cases n <;> exact ⟨fun h => absurd rfl h, fun _ => rfl⟩)

theorem rotation_states_quarter_turns_witness :
    (∃ a b, shapeOf Block.L 3 = some a ∧ shapeOf Block.L ((3 + 1) % 4) = some b ∧
        a.length = 4 ∧ b.length = 4 ∧ b = a.map quarterTurn ∧
        ∀ i, i < 4 → b.get? i = (a.get? i).map quarterTurn) ∧
    shapeOf Block.O 2 = shapeOf Block.O 0 :=
  ⟨(rotation_states_quarter_turns Block.L 3 (by decide) (by decide) (by decide)).1 (by decide),
    (rotation_states_quarter_turns Block.O 2 (by decide) (by decide) (by decide)).2 rfl⟩

/-! ### The C++ port against the C engine -/

theorem cpp_check_row_is_full_eq (g : Grid) (r : Nat) :
    Cpp.TetrisMap.check_row_is_full g r = check_row_is_full g r := by
  unfold Cpp.TetrisMap.check_row_is_full check_row_is_full
  induction List.range TETRIS_WIDTH with
  | nil => rfl
  | cons c cs ih =>
    simp only [List.map_cons, List.any_cons, List.all_cons, Bool.not_or, ih]
    by_cases h : g.cell r c = Block.Empty <;> simp [h]

theorem cpp_check_row_is_empty_eq (g : Grid) (r : Nat) :
    Cpp.TetrisMap.check_row_is_empty g r = check_row_is_empty g r := by
  unfold Cpp.TetrisMap.check_row_is_empty check_row_is_empty
  induction List.range TETRIS_WIDTH with
  | nil => rfl
  | cons c cs ih => simp only [List.map_cons, List.all_cons, ih]

theorem cpp_find_the_bottom_empty_line_eq (g : Grid) :
    Cpp.TetrisMap.find_the_bottom_empty_line g = find_the_bottom_empty_line g := by
  unfold Cpp.TetrisMap.find_the_bottom_empty_line find_the_bottom_empty_line
  simp only [cpp_check_row_is_empty_eq]

theorem cpp_scroll_down_eq (g : Grid) (b r : Nat) :
    Cpp.TetrisMap.scroll_down g b r = scroll_down g b r := rfl

theorem cpp_eliminate_loop_eq (b : Nat) (fuel : Nat) :
    ∀ (r : Nat) (g : Grid),
      Cpp.TetrisMap.eliminate_loop b fuel r g = eliminate_loop b fuel r g := by
  induction fuel with
  | zero =>
    intro r g
    unfold Cpp.TetrisMap.eliminate_loop eliminate_loop
    rfl
  | succ n ih =>
    intro r g
    rw [Cpp.TetrisMap.eliminate_loop, eliminate_loop]
    simp only [cpp_check_row_is_full_eq, cpp_scroll_down_eq, ih]

theorem cpp_eliminate_lines_eq (fuel : Nat) (g : Grid) :
    Cpp.TetrisMap.eliminate_lines fuel g = eliminate_lines fuel g := by
  unfold Cpp.TetrisMap.eliminate_lines eliminate_lines
  rw [cpp_find_the_bottom_empty_line_eq, cpp_eliminate_loop_eq]

theorem cpp_shape_point_loop_eq (bound : Int → Int → Bool) (g : Grid) (pos : Pos)
    (shape : List Pos) :
    Cpp.shape_point_loop (Cpp.collisionCond bound g) pos shape
      = collision_loop bound g pos shape := by
  induction shape with
  | nil => rfl
  | cons p rest ih =>
    simp only [Cpp.shape_point_loop, collision_loop, Cpp.collisionCond, Cpp.TetrisMap.get]
    by_cases hb : bound (pos.row + p.row) (pos.col + p.col) = true
    · simp only [hb, if_true]
    · simp only [hb, if_false, Bool.false_eq_true]
      cases hget : data_get g (pos.row + p.row) (pos.col + p.col) with
      | none => rfl
      | some block =>
        by_cases he : block = Block.Empty
        · simp only [Option.map_some', he, ne_eq, not_true_eq_false, decide_False, if_false]
          exact ih
        · simp only [Option.map_some', ne_eq, he, not_false_eq_true, decide_True, if_true]

theorem cpp_check_collision_eq (bound : Int → Int → Bool) (t : Cpp.Tetris) :
    t.blockInfo.for_each_shape_point_if (Cpp.collisionCond bound t.tetrisMap)
      = check_collision bound t.toContext := by
  unfold Cpp.BlockInfo.for_each_shape_point_if check_collision Cpp.BlockInfo.get_shape
    Cpp.Tetris.toContext
  cases shapeOf t.blockInfo.block t.blockInfo.rotateTimes with
  | none => rfl
  | some shape => exact cpp_shape_point_loop_eq bound t.tetrisMap t.blockInfo.pos shape

theorem cpp_action_loop_eq (block : Block) (pos : Pos) (shape : List Pos) :
    ∀ g : Grid,
      Cpp.shape_point_action_loop (fun blocks row col => Cpp.TetrisMap.set blocks row col block)
        pos shape g = save_loop block pos shape g := by
  induction shape with
  | nil => intro g; rfl
  | cons p rest ih =>
    intro g
    simp only [Cpp.shape_point_action_loop, save_loop, Cpp.TetrisMap.set]
    cases data_set g (pos.row + p.row) (pos.col + p.col) block with
    | none => rfl
    | some g' => exact ih g'

theorem cpp_save_current_block_eq (t : Cpp.Tetris) :
    (Cpp.save_current_block t).map Cpp.Tetris.toContext = save_current_block t.toContext := by
  unfold Cpp.save_current_block save_current_block Cpp.BlockInfo.for_each_shape_point
    Cpp.BlockInfo.get_shape
  show (match (match shapeOf t.blockInfo.block t.blockInfo.rotateTimes with
      | none => none
      | some shape => Cpp.shape_point_action_loop
          (fun blocks row col => Cpp.TetrisMap.set blocks row col t.blockInfo.block)
          t.blockInfo.pos shape t.tetrisMap) with
    | none => none
    | some blocks => some { t with tetrisMap := blocks }).map Cpp.Tetris.toContext
    = (match shapeOf t.blockInfo.block t.blockInfo.rotateTimes with
      | none => none
      | some shape =>
        match save_loop t.blockInfo.block t.blockInfo.pos shape t.tetrisMap with
        | none => none
        | some g => some { t.toContext with data := g })
  cases shapeOf t.blockInfo.block t.blockInfo.rotateTimes with
  | none => rfl
  | some shape =>
    simp only [cpp_action_loop_eq]
    cases save_loop t.blockInfo.block t.blockInfo.pos shape t.tetrisMap with
    | none => rfl
    | some g => rfl

theorem cpp_move_left_eq (t : Cpp.Tetris) :
    (Cpp.move_left t).map Cpp.Tetris.toContext = move_left t.toContext := by
  have h : check_left_collision (withCol t.toContext (t.toContext.currentBlockPos.col - 1))
      = Cpp.check_left_collision { t with blockInfo := t.blockInfo.go_left } :=
    (cpp_check_collision_eq (fun _ c => decide (c < 0))
      { t with blockInfo := t.blockInfo.go_left }).symm
  unfold Cpp.move_left move_left
  dsimp only
  rw [h]
  cases Cpp.check_left_collision { t with blockInfo := t.blockInfo.go_left } with
  | none => rfl
  | some b => cases b <;> rfl

theorem cpp_rotate_eq (t : Cpp.Tetris) :
    (Cpp.rotate t).map Cpp.Tetris.toContext = rotate t.toContext := by
  have h : check_left_right_down_collision
        { t.toContext with
          currentBlockRotateTimes := Int.tmod (t.toContext.currentBlockRotateTimes + 1) 4 }
      = Cpp.check_left_right_down_collision { t with blockInfo := t.blockInfo.rotate } :=
    (cpp_check_collision_eq
      (fun r c => decide (c < 0) || decide (c ≥ (TETRIS_WIDTH : Int))
        || decide (r ≥ (TETRIS_ALL_HEIGHT : Int)))
      { t with blockInfo := t.blockInfo.rotate }).symm
  unfold Cpp.rotate rotate
  dsimp only
  rw [h]
  cases Cpp.check_left_right_down_collision { t with blockInfo := t.blockInfo.rotate } with
  | none => rfl
  | some b => cases b <;> rfl

theorem cpp_move_down_eq (t : Cpp.Tetris) (fuel draw1 draw2 rand1 rand2 : Nat)
    (h1 : draw1 = rand1 % 7) (h2 : draw2 = rand2 % 4) :
    (Cpp.move_down fuel draw1 draw2 t).map Cpp.Tetris.toContext
      = move_down fuel rand1 rand2 t.toContext := by
  subst h1 h2
  have h : check_down_collision (withRow t.toContext (t.toContext.currentBlockPos.row + 1))
      = Cpp.check_down_collision { t with blockInfo := t.blockInfo.go_down } :=
    (cpp_check_collision_eq (fun r _ => decide (r ≥ (TETRIS_ALL_HEIGHT : Int)))
      { t with blockInfo := t.blockInfo.go_down }).symm
  have hs : save_current_block
        (withRow (withRow t.toContext (t.toContext.currentBlockPos.row + 1))
          ((withRow t.toContext (t.toContext.currentBlockPos.row + 1)).currentBlockPos.row - 1))
      = (Cpp.save_current_block
          { t with blockInfo := t.blockInfo.go_down.go_top }).map Cpp.Tetris.toContext :=
    (cpp_save_current_block_eq { t with blockInfo := t.blockInfo.go_down.go_top }).symm
  unfold Cpp.move_down move_down
  dsimp only
  rw [h]
  cases Cpp.check_down_collision { t with blockInfo := t.blockInfo.go_down } with
  | none => rfl
  | some b =>
    cases b
    · rfl
    · dsimp only
      rw [hs]
      cases Cpp.save_current_block
          { t with blockInfo := t.blockInfo.go_down.go_top } with
      | none => rfl
      | some saved =>
        dsimp only [Option.map_some']
        have he : eliminate_lines fuel saved.toContext.data
            = Cpp.TetrisMap.eliminate_lines fuel saved.tetrisMap :=
          (cpp_eliminate_lines_eq fuel saved.tetrisMap).symm
        rw [he]
        cases Cpp.TetrisMap.eliminate_lines fuel saved.tetrisMap with
        | none => rfl
        | some blocks =>
          dsimp only [Option.map_some']
          rw [cpp_check_row_is_empty_eq]
          cases check_row_is_empty blocks TETRIS_EXTRA_HEIGHT <;> rfl

/-- C25. The C++ port agrees with the C engine.  For every grid,
`TetrisMap::check_row_is_full`, `TetrisMap::check_row_is_empty`,
`TetrisMap::find_the_bottom_empty_line` and `TetrisMap::eliminate_lines`
(with the same bound on the loop) give the results of the C functions of the
same names; and for every C++ state whose active piece is in bounds and on
Empty cells, `Tetris::move_left`, `Tetris::rotate` and `Tetris::move_down`
have the outcome of the C `move_left`, `rotate` and `move_down` on the
corresponding context (same grid, active piece and flag; one call is undefined
or unfinished exactly when the other is) when the drawn kind and rotation are
the same; `move_left` returns on such a state. -/
theorem cpp_port_agrees (g : Grid) (r fuel : Nat) (t : Cpp.Tetris)
    (fuel' draw1 draw2 rand1 rand2 : Nat)
    (hok : pieceInBoundsOnEmpty t.toContext = true)
    (h1 : draw1 = rand1 % 7) (h2 : draw2 = rand2 % 4) :
    Cpp.TetrisMap.check_row_is_full g r = check_row_is_full g r ∧
    Cpp.TetrisMap.check_row_is_empty g r = check_row_is_empty g r ∧
    Cpp.TetrisMap.find_the_bottom_empty_line g = find_the_bottom_empty_line g ∧
    Cpp.TetrisMap.eliminate_lines fuel g = eliminate_lines fuel g ∧
    (Cpp.move_left t).map Cpp.Tetris.toContext = move_left t.toContext ∧
    (Cpp.move_left t).isSome = true ∧
    (Cpp.rotate t).map Cpp.Tetris.toContext = rotate t.toContext ∧
    (Cpp.move_down fuel' draw1 draw2 t).map Cpp.Tetris.toContext
      = move_down fuel' rand1 rand2 t.toContext := by
  refine ⟨cpp_check_row_is_full_eq g r, cpp_check_row_is_empty_eq g r,
    cpp_find_the_bottom_empty_line_eq g, cpp_eliminate_lines_eq fuel g,
    cpp_move_left_eq t, ?_, cpp_rotate_eq t, cpp_move_down_eq t fuel' draw1 draw2 rand1 rand2 h1 h2⟩
  have h := cpp_move_left_eq t
  rw [move_left_eq t.toContext hok] at h
  cases hm : Cpp.move_left t with
  | none => rw [hm] at h; cases h
  | some t' => rfl

theorem cpp_port_agrees_witness :
    pieceInBoundsOnEmpty Cpp.holeExample.toContext = true ∧
    (move_down 64 10 6 Cpp.holeExample.toContext).isSome = true ∧
    Cpp.TetrisMap.check_row_is_full settledHoleGrid 31 = check_row_is_full settledHoleGrid 31 ∧
    Cpp.TetrisMap.check_row_is_empty settledHoleGrid 31
      = check_row_is_empty settledHoleGrid 31 ∧
    Cpp.TetrisMap.find_the_bottom_empty_line settledHoleGrid
      = find_the_bottom_empty_line settledHoleGrid ∧
    Cpp.TetrisMap.eliminate_lines 64 settledHoleGrid = eliminate_lines 64 settledHoleGrid ∧
    (Cpp.move_left Cpp.holeExample).map Cpp.Tetris.toContext
      = move_left Cpp.holeExample.toContext ∧
    (Cpp.move_left Cpp.holeExample).isSome = true ∧
    (Cpp.rotate Cpp.holeExample).map Cpp.Tetris.toContext = rotate Cpp.holeExample.toContext ∧
    (Cpp.move_down 64 3 2 Cpp.holeExample).map Cpp.Tetris.toContext
      = move_down 64 10 6 Cpp.holeExample.toContext :=
  ⟨by decide, by decide,
    cpp_port_agrees settledHoleGrid 31 64 Cpp.holeExample 64 3 2 10 6 (by decide) (by decide)
      (by decide)⟩

/-! ### The stack of the reachable states -/

theorem rowsOf_getElem_opt (g : Grid) (r : Nat) (hr : r < TETRIS_ALL_HEIGHT) :
    (rowsOf g)[r]? = some (rowOf g r) := by
  unfold rowsOf
  rw [List.getElem?_map, List.getElem?_range hr]
  rfl

theorem check_row_is_full_false_iff (g : Grid) (r : Nat) :
    check_row_is_full g r = false ↔ ∃ c, c < TETRIS_WIDTH ∧ g.cell r c = Block.Empty := by
  constructor
  · intro h
    by_contra hne
    push_neg at hne
    rw [(check_row_is_full_iff g r).mpr hne] at h
    cases h
  · exact not_full_of_empty_cell g r

/-- Rows of a settled stack after compaction: the stack is settled again, lower
by the number of full rows, and has no full row. -/
theorem settled_of_rows_compacted (g g' : Grid) (k : Nat) (hk : k ≤ TETRIS_ALL_HEIGHT)
    (hset : settledFrom g k) (hrows : rowsOf g' = compactedRows g) :
    settledFrom g' (k + fullRowCount g) ∧ k + fullRowCount g ≤ TETRIS_ALL_HEIGHT ∧
      noFullRow g' := by
  obtain ⟨hE, hN⟩ := hset
  have hsplit : rowsOf g = List.replicate k emptyRow ++ rowSegment g k (TETRIS_ALL_HEIGHT - k) := by
    have e : TETRIS_ALL_HEIGHT = k + (TETRIS_ALL_HEIGHT - k) := by omega
    rw [rowsOf_eq_rowSegment]
    conv_lhs => rw [e]
    rw [rowSegment_append, Nat.zero_add]
    rw [rowSegment_all_empty g 0 k
      (fun i _ hi => (rowOf_eq_emptyRow_iff g i).mpr
        ((check_row_is_empty_iff g i).mpr (hE i (by omega))))]
  have hB : ∀ row ∈ rowSegment g k (TETRIS_ALL_HEIGHT - k), row ≠ emptyRow := by
    intro row hrow he
    unfold rowSegment at hrow
    rw [List.mem_map] at hrow
    obtain ⟨i, hi, rfl⟩ := hrow
    rw [List.mem_range'_1] at hi
    obtain ⟨c, hc, hne⟩ := hN i hi.1 (by omega)
    exact hne ((check_row_is_empty_iff g i).mp ((rowOf_eq_emptyRow_iff g i).mp he) c hc)
  have h1 : List.countP isFullRow (List.replicate k emptyRow) = 0 := by
    rw [List.countP_eq_zero]
    intro row hrow
    rw [List.eq_of_mem_replicate hrow, isFullRow_emptyRow]
    simp
  have h2 : List.filter (fun row => !isFullRow row) (List.replicate k emptyRow)
      = List.replicate k emptyRow := by
    rw [List.filter_eq_self]
    intro row hrow
    rw [List.eq_of_mem_replicate hrow, isFullRow_emptyRow]
    rfl
  have hcount : fullRowCount g
      = (rowSegment g k (TETRIS_ALL_HEIGHT - k)).countP isFullRow := by
    rw [fullRowCount_eq, hsplit, List.countP_append, h1, Nat.zero_add]
  have hle : fullRowCount g ≤ TETRIS_ALL_HEIGHT - k := by
    rw [hcount]
    refine le_trans (List.countP_le_length isFullRow) ?_
    simp [rowSegment]
  have hcomp : rowsOf g' = List.replicate (k + fullRowCount g) emptyRow
      ++ (rowSegment g k (TETRIS_ALL_HEIGHT - k)).filter (fun row => !isFullRow row) := by
    rw [hrows]
    unfold compactedRows
    rw [survivingRows_eq, hsplit, List.filter_append, h2, ← List.append_assoc,
      ← List.replicate_add, Nat.add_comm]
  have hlen : (List.replicate (k + fullRowCount g) emptyRow).length = k + fullRowCount g :=
    List.length_replicate _ _
  have hrow : ∀ r, r < TETRIS_ALL_HEIGHT →
      (r < k + fullRowCount g → rowOf g' r = emptyRow) ∧
      (k + fullRowCount g ≤ r → rowOf g' r ≠ emptyRow) ∧
      isFullRow (rowOf g' r) = false := by
    intro r hr
    have hget := rowsOf_getElem_opt g' r hr
    rw [hcomp] at hget
    by_cases hlt : r < k + fullRowCount g
    · rw [List.getElem?_append_left (by rw [hlen]; exact hlt)] at hget
      have hmem := List.getElem?_mem hget
      have he := List.eq_of_mem_replicate hmem
      refine ⟨fun _ => he, fun h => absurd hlt (by omega), ?_⟩
      rw [he, isFullRow_emptyRow]
    · rw [List.getElem?_append_right (by rw [hlen]; omega)] at hget
      have hmem := List.getElem?_mem hget
      rw [List.mem_filter] at hmem
      refine ⟨fun h => absurd h hlt, fun _ => hB _ hmem.1, ?_⟩
      have := hmem.2
      simpa using this
  refine ⟨⟨?_, ?_⟩, by omega, ?_⟩
  · intro r hr c hc
    have hr32 : r < TETRIS_ALL_HEIGHT := by omega
    exact (check_row_is_empty_iff g' r).mp
      ((rowOf_eq_emptyRow_iff g' r).mp ((hrow r hr32).1 hr)) c hc
  · intro r hr hr32
    have hne := (hrow r hr32).2.1 hr
    rw [← row_not_empty_iff]
    cases he : check_row_is_empty g' r with
    | false => rfl
    | true => exact absurd ((rowOf_eq_emptyRow_iff g' r).mpr he) hne
  · intro r hr
    rw [← check_row_is_full_false_iff, check_row_is_full_eq]
    exact (hrow r hr).2.2
theorem stackInvariant_pieceInvariant {s : TetrisContext} (h : stackInvariant s) :
    pieceInvariant s := by
  obtain ⟨hok, _, ⟨k, hk5, _, hset⟩, _⟩ := h
  refine ⟨hok, ?_⟩
  intro r hr c hc
  simp only [TETRIS_EXTRA_HEIGHT] at hr
  exact hset.1 r (by omega) c hc

theorem stack_reset (rand1 rand2 : Nat) (context : TetrisContext) :
    stackInvariant (reset_tetris_map rand1 rand2 context) := by
  refine ⟨(invariant_reset rand1 rand2 context).1, ?_, ⟨TETRIS_ALL_HEIGHT, by decide, le_refl _, ?_, ?_⟩, ?_⟩
  · show (2 : Int) ≤ 2
    decide
  · intro r hr c hc
    exact reset_tetris_map_cell rand1 rand2 context r c hr hc
  · intro r hr hr'
    omega
  · intro r hr
    exact ⟨0, by decide, reset_tetris_map_cell rand1 rand2 context r 0 hr (by decide)⟩

theorem stack_move_left {s s' : TetrisContext} (hinv : stackInvariant s)
    (h : move_left s = some s') : stackInvariant s' := by
  obtain ⟨hdata, _, _, hrow, _⟩ := move_left_frame s s' h
  have hok := (invariant_move_left (stackInvariant_pieceInvariant hinv) h).1
  obtain ⟨_, hr, hk, hnf⟩ := hinv
  exact ⟨hok, by rw [hrow]; exact hr, by rw [hdata]; exact hk, by rw [hdata]; exact hnf⟩

theorem stack_move_right {s s' : TetrisContext} (hinv : stackInvariant s)
    (h : move_right s = some s') : stackInvariant s' := by
  obtain ⟨hdata, _, _, hrow, _⟩ := move_right_frame s s' h
  have hok := (invariant_move_right (stackInvariant_pieceInvariant hinv) h).1
  obtain ⟨_, hr, hk, hnf⟩ := hinv
  exact ⟨hok, by rw [hrow]; exact hr, by rw [hdata]; exact hk, by rw [hdata]; exact hnf⟩

theorem stack_rotate {s s' : TetrisContext} (hinv : stackInvariant s)
    (h : rotate s = some s') : stackInvariant s' := by
  obtain ⟨hdata, _, hpos, _⟩ := rotate_frame s s' h
  have hok := (invariant_rotate (stackInvariant_pieceInvariant hinv) h).1
  obtain ⟨_, hr, hk, hnf⟩ := hinv
  exact ⟨hok, by rw [hpos]; exact hr, by rw [hdata]; exact hk, by rw [hdata]; exact hnf⟩

theorem stack_move_down_free {s s' : TetrisContext} (fuel rand1 rand2 : Nat)
    (hinv : stackInvariant s) (h : move_down fuel rand1 rand2 s = some s')
    (hl : locksPiece s = false) : stackInvariant s' := by
  have hok := (invariant_move_down_free fuel rand1 rand2
    (stackInvariant_pieceInvariant hinv) h hl).1
  have hs' := move_down_free fuel rand1 rand2 s s' h hl
  obtain ⟨_, hr, hk, hnf⟩ := hinv
  subst hs'
  refine ⟨hok, ?_, hk, hnf⟩
  show 2 ≤ s.currentBlockPos.row + 1
  omega

theorem eliminate_lines_more_fuel (fuel k : Nat) (g g' : Grid)
    (h : eliminate_lines fuel g = some g') : eliminate_lines (fuel + k) g = some g' := by
  unfold eliminate_lines at h ⊢
  exact eliminate_loop_mono _ _ _ _ _ k h

theorem stack_move_down_lock {s s' : TetrisContext} (fuel rand1 rand2 : Nat)
    (hinv : stackInvariant s) (h : move_down fuel rand1 rand2 s = some s')
    (hl : locksPiece s = true) (hflag : s'.gameOver = false) : stackInvariant s' := by
  obtain ⟨hok, _, ⟨k, hk5, hk32, hset⟩, _⟩ := hinv
  have hblocked : downBlocked s = true := by
    rw [← locksPiece_eq_downBlocked s hok]; exact hl
  obtain ⟨locked, t, _, hsave, hlt, _, hne, hkeep⟩ :=
    locked_grid_rows s k hok hblocked hk32 hset
  obtain ⟨saved, g, hsave', helim, hdata, hgo, hkind, hrot, hpos⟩ :=
    move_down_lock fuel rand1 rand2 s s' h hl
  rw [hsave] at hsave'
  cases hsave'
  simp only at helim
  rw [hflag] at hgo
  have hrow4 : check_row_is_empty g TETRIS_EXTRA_HEIGHT = true := by
    cases hr : check_row_is_empty g TETRIS_EXTRA_HEIGHT with
    | true => rfl
    | false => rw [hr] at hgo; simp at hgo
  have hrow4' : ∀ c, c < TETRIS_WIDTH → locked.cell TETRIS_EXTRA_HEIGHT c = Block.Empty := by
    intro c hc
    rw [← eliminate_lines_top_rows fuel locked g helim _ c (le_refl _)]
    exact (check_row_is_empty_iff g _).mp hrow4 c hc
  have ht5 : 5 ≤ t := by
    by_contra hlt5
    obtain ⟨c, hc, hcne⟩ := hne TETRIS_EXTRA_HEIGHT
      (by simp only [TETRIS_EXTRA_HEIGHT]; omega) (by decide)
    exact hcne (hrow4' c hc)
  have hset' : settledFrom locked (min k t) := by
    constructor
    · intro r hr c hc
      rw [hlt r c (by omega)]
      exact hset.1 r (by omega) c hc
    · intro r hr hr32
      by_cases hrt : t ≤ r
      · exact hne r hrt hr32
      · obtain ⟨c, hc, hcne⟩ := hset.2 r (by omega) hr32
        exact ⟨c, hc, hkeep r c hcne⟩
  have hmin5 : 5 ≤ min k t := by omega
  have hmin32 : min k t ≤ TETRIS_ALL_HEIGHT := by omega
  obtain ⟨g', hg', hrows⟩ := eliminate_lines_settled_rows locked (min k t)
    (fuel + 2 * TETRIS_ALL_HEIGHT) hmin5
    (fun r hr => (check_row_is_empty_iff locked r).mpr (hset'.1 r hr))
    (fun r hr hr32 => by
      have := (row_not_empty_iff locked r).mpr (hset'.2 r hr hr32)
      simpa using this)
    (by omega)
  rw [eliminate_lines_more_fuel fuel _ locked g helim] at hg'
  cases hg'
  obtain ⟨hsg, hle, hnfg⟩ := settled_of_rows_compacted locked g (min k t) hmin32 hset' hrows
  have htop : topRowsEmpty g := by
    intro r hr c hc
    simp only [TETRIS_EXTRA_HEIGHT] at hr
    exact hsg.1 r (by omega) c hc
  rw [← hdata] at htop hsg hnfg
  refine ⟨spawn_in_bounds_on_empty s' (rand1 % 7) (rand2 % 4) (Nat.mod_lt _ (by decide))
    (Nat.mod_lt _ (by decide)) hkind hrot hpos htop, ?_,
    ⟨min k t + fullRowCount locked, by omega, hle, hsg⟩, hnfg⟩
  rw [hpos]

/-- Every reachable state with `gameOver` false satisfies the invariant of the
stack. -/
theorem reachable_stack_invariant {s : TetrisContext} (h : Reachable s) :
    s.gameOver = false → stackInvariant s := by
  induction h with
  | reset rand1 rand2 context => intro _; exact stack_reset rand1 rand2 context
  | left _ hmove ih =>
    intro hflag
    rw [(move_left_frame _ _ hmove).2.2.2.2] at hflag
    exact stack_move_left (ih hflag) hmove
  | right _ hmove ih =>
    intro hflag
    rw [(move_right_frame _ _ hmove).2.2.2.2] at hflag
    exact stack_move_right (ih hflag) hmove
  | turn _ hmove ih =>
    intro hflag
    rw [(rotate_frame _ _ hmove).2.2.2] at hflag
    exact stack_rotate (ih hflag) hmove
  | @down s s' fuel rand1 rand2 _ hmove ih =>
    intro hflag
    cases hl : locksPiece s with
    | false =>
      have hs' := move_down_free fuel rand1 rand2 s s' hmove hl
      have hflag' : s.gameOver = false := by rw [hs'] at hflag; exact hflag
      exact stack_move_down_free fuel rand1 rand2 (ih hflag') hmove hl
    | true =>
      obtain ⟨saved, g, hsave, _, _, hgo, _⟩ := move_down_lock fuel rand1 rand2 s s' hmove hl
      rw [save_current_block_gameOver s saved hsave, hflag] at hgo
      have hflag' : s.gameOver = false := by
        cases hg : s.gameOver with
        | false => rfl
        | true => rw [hg] at hgo; simp at hgo
      exact stack_move_down_lock fuel rand1 rand2 (ih hflag') hmove hl hflag
/-! ### A reachable game with a line clear -/

theorem reset_freeExample (rand1 rand2 : Nat) :
    reset_tetris_map rand1 rand2 freeExample
      = pieceAt emptyGrid (Block.ofIndex (rand1 % 7)) ((rand2 % 4 : Nat) : Int) 2 8 := by
  have hd : (reset_tetris_map rand1 rand2 freeExample).data = emptyGrid := by
    apply Grid.ext
    funext r c
    show ((List.range TETRIS_ALL_HEIGHT).foldl
      (fun g r => (List.range TETRIS_WIDTH).foldl (fun g c => setCell g r c Block.Empty) g)
      freeExample.data).cell r c = Block.Empty
    rw [foldl_clear_rows]
    split_ifs <;> rfl
  show ({ data := (reset_tetris_map rand1 rand2 freeExample).data,
          currentBlock := Block.ofIndex (rand1 % 7), currentBlockPos := ⟨2, 8⟩,
          currentBlockRotateTimes := ((rand2 % 4 : Nat) : Int), gameOver := false }
        : TetrisContext) = _
  rw [hd]
  rfl

theorem reachable_fall (g : Grid) (block : Block) (rot row col : Int) :
    ∀ n, Reachable (pieceAt g block rot row col) → canFall g block rot row col n = true →
      Reachable (pieceAt g block rot (row + (n : Int)) col) := by
  intro n
  induction n with
  | zero =>
    intro h _
    simpa using h
  | succ n ih =>
    intro h hn
    unfold canFall at hn
    rw [List.range_succ, List.all_append, Bool.and_eq_true] at hn
    obtain ⟨hn1, hn2⟩ := hn
    simp only [List.all_cons, List.all_nil, Bool.and_true, Bool.and_eq_true] at hn2
    have hstep := move_down_unblocked (pieceAt g block rot (row + (n : Int)) col) 64 0 0
      hn2.1 hn2.2
    have e : withRow (pieceAt g block rot (row + (n : Int)) col)
        ((pieceAt g block rot (row + (n : Int)) col).currentBlockPos.row + 1)
        = pieceAt g block rot (row + ((n + 1 : Nat) : Int)) col := by
      show pieceAt g block rot (row + (n : Int) + 1) col = _
      congr 1
      push_cast
      ring
    rw [e] at hstep
    exact Reachable.down 64 0 0 (ih h hn1) hstep

theorem reachable_left (g : Grid) (block : Block) (rot row col : Int) :
    ∀ n, Reachable (pieceAt g block rot row col) → canGoLeft g block rot row col n = true →
      Reachable (pieceAt g block rot row (col - (n : Int))) := by
  intro n
  induction n with
  | zero =>
    intro h _
    simpa using h
  | succ n ih =>
    intro h hn
    unfold canGoLeft at hn
    rw [List.range_succ, List.all_append, Bool.and_eq_true] at hn
    obtain ⟨hn1, hn2⟩ := hn
    simp only [List.all_cons, List.all_nil, Bool.and_true, Bool.and_eq_true] at hn2
    have hstep := move_left_eq (pieceAt g block rot row (col - (n : Int))) hn2.1
    rw [hn2.2, if_pos rfl] at hstep
    have e : withCol (pieceAt g block rot row (col - (n : Int)))
        ((pieceAt g block rot row (col - (n : Int))).currentBlockPos.col - 1)
        = pieceAt g block rot row (col - ((n + 1 : Nat) : Int)) := by
      show pieceAt g block rot row (col - (n : Int) - 1) = _
      congr 1
      push_cast
      ring
    rw [e] at hstep
    exact Reachable.left (ih h hn1) hstep

theorem reachable_right (g : Grid) (block : Block) (rot row col : Int) :
    ∀ n, Reachable (pieceAt g block rot row col) → canGoRight g block rot row col n = true →
      Reachable (pieceAt g block rot row (col + (n : Int))) := by
  intro n
  induction n with
  | zero =>
    intro h _
    simpa using h
  | succ n ih =>
    intro h hn
    unfold canGoRight at hn
    rw [List.range_succ, List.all_append, Bool.and_eq_true] at hn
    obtain ⟨hn1, hn2⟩ := hn
    simp only [List.all_cons, List.all_nil, Bool.and_true, Bool.and_eq_true] at hn2
    have hstep := move_right_eq (pieceAt g block rot row (col + (n : Int))) hn2.1
    rw [hn2.2, if_pos rfl] at hstep
    have e : withCol (pieceAt g block rot row (col + (n : Int)))
        ((pieceAt g block rot row (col + (n : Int))).currentBlockPos.col + 1)
        = pieceAt g block rot row (col + ((n + 1 : Nat) : Int)) := by
      show pieceAt g block rot row (col + (n : Int) + 1) = _
      congr 1
      push_cast
      ring
    rw [e] at hstep
    exact Reachable.right (ih h hn1) hstep

/-- A locking `move_down` from a state with the flag false, when the
elimination returns `g'` and row 4 of `g'` is Empty. -/
theorem move_down_lock_pieceAt (g locked g' : Grid) (block : Block) (rot row col : Int)
    (rand1 rand2 : Nat)
    (hok : pieceInBoundsOnEmpty (pieceAt g block rot row col) = true)
    (hblocked : downBlocked (pieceAt g block rot row col) = true)
    (hlg : lockedGrid (pieceAt g block rot row col) = some locked)
    (helim : eliminate_lines 64 locked = some g')
    (hrow4 : check_row_is_empty g' TETRIS_EXTRA_HEIGHT = true) :
    move_down 64 rand1 rand2 (pieceAt g block rot row col)
      = some (pieceAt g' (Block.ofIndex (rand1 % 7)) ((rand2 % 4 : Nat) : Int) 2 8) := by
  obtain ⟨locked', hlg', _, hmove⟩ :=
    move_down_locked (pieceAt g block rot row col) 64 rand1 rand2 hok hblocked
  rw [hlg] at hlg'
  cases hlg'
  rw [hmove, helim]
  simp only [Option.map_some', hrow4, Bool.not_true, Bool.false_eq_true, if_false]
  rfl
set_option maxRecDepth 100000 in
theorem scenario_piece1 : Reachable (pieceAt emptyGrid Block.O 0 30 0) := by
  have h0 : Reachable (pieceAt emptyGrid Block.O 0 2 8) := by
    have h := Reachable.reset 1 0 freeExample
    rw [reset_freeExample] at h
    exact h
  have h1 := reachable_left emptyGrid Block.O 0 2 8 8 h0 (by decide)
  have h2 := reachable_fall emptyGrid Block.O 0 2 (8 - ((8 : Nat) : Int)) 28 h1 (by decide)
  exact h2

set_option maxRecDepth 100000 in
theorem scenario_stack1 : Reachable (pieceAt stackGrid1 Block.O 0 2 8) := by
  have hmove := move_down_lock_pieceAt emptyGrid stackGrid1 stackGrid1 Block.O 0 30 0 1 0
    (by decide) (by decide) rfl
    (eliminate_lines_unchanged stackGrid1 64 (by decide) (by decide)) (by decide)
  exact Reachable.down 64 1 0 scenario_piece1 hmove

set_option maxRecDepth 100000 in
theorem scenario_piece2 : Reachable (pieceAt stackGrid1 Block.O 0 30 2) := by
  have h1 := reachable_left stackGrid1 Block.O 0 2 8 6 scenario_stack1 (by decide)
  have h2 := reachable_fall stackGrid1 Block.O 0 2 (8 - ((6 : Nat) : Int)) 28 h1 (by decide)
  exact h2

set_option maxRecDepth 100000 in
theorem scenario_stack2 : Reachable (pieceAt stackGrid2 Block.I 0 2 8) := by
  have hmove := move_down_lock_pieceAt stackGrid1 stackGrid2 stackGrid2 Block.O 0 30 2 0 0
    (by decide) (by decide) rfl
    (eliminate_lines_unchanged stackGrid2 64 (by decide) (by decide)) (by decide)
  exact Reachable.down 64 0 0 scenario_piece2 hmove

set_option maxRecDepth 100000 in
theorem scenario_piece3 : Reachable (pieceAt stackGrid2 Block.I 0 31 5) := by
  have h1 := reachable_left stackGrid2 Block.I 0 2 8 3 scenario_stack2 (by decide)
  have h2 := reachable_fall stackGrid2 Block.I 0 2 (8 - ((3 : Nat) : Int)) 29 h1 (by decide)
  exact h2

set_option maxRecDepth 100000 in
theorem scenario_stack3 : Reachable (pieceAt stackGrid3 Block.I 0 2 8) := by
  have hmove := move_down_lock_pieceAt stackGrid2 stackGrid3 stackGrid3 Block.I 0 31 5 0 0
    (by decide) (by decide) rfl
    (eliminate_lines_unchanged stackGrid3 64 (by decide) (by decide)) (by decide)
  exact Reachable.down 64 0 0 scenario_piece3 hmove

set_option maxRecDepth 100000 in
theorem scenario_piece4 : Reachable (pieceAt stackGrid3 Block.I 0 31 9) := by
  have h1 := reachable_right stackGrid3 Block.I 0 2 8 1 scenario_stack3 (by decide)
  have h2 := reachable_fall stackGrid3 Block.I 0 2 (8 + ((1 : Nat) : Int)) 29 h1 (by decide)
  exact h2

set_option maxRecDepth 100000 in
theorem scenario_stack4 : Reachable (pieceAt stackGrid4 Block.I 0 2 8) := by
  have hmove := move_down_lock_pieceAt stackGrid3 stackGrid4 stackGrid4 Block.I 0 31 9 0 0
    (by decide) (by decide) rfl
    (eliminate_lines_unchanged stackGrid4 64 (by decide) (by decide)) (by decide)
  exact Reachable.down 64 0 0 scenario_piece4 hmove

set_option maxRecDepth 100000 in
/-- The state before the line clear is reached from a reset: two O pieces and
three I pieces are steered to their columns and dropped. -/
theorem beforeLineExample_reachable : Reachable beforeLineExample := by
  have h1 := reachable_right stackGrid4 Block.I 0 2 8 5 scenario_stack4 (by decide)
  have h2 := reachable_fall stackGrid4 Block.I 0 2 (8 + ((5 : Nat) : Int)) 29 h1 (by decide)
  exact h2

set_option maxRecDepth 100000 in
theorem eliminate_lines_lineLockedGrid :
    eliminate_lines 64 lineLockedGrid = some lineClearedGrid := by
  have hb : find_the_bottom_empty_line lineLockedGrid = 29 := by decide
  unfold eliminate_lines
  rw [hb]
  show eliminate_loop 29 (63 + 1) 31 lineLockedGrid = _
  rw [eliminate_loop_full 29 63 31 lineLockedGrid (by decide) (by decide)]
  exact eliminate_loop_no_full 29 63 31 (scroll_down lineLockedGrid 29 31) (by decide)
    (by
      intro i h1 h2
      interval_cases i <;> decide)

set_option maxRecDepth 100000 in
/-- The lock of `beforeLineExample` completes row 31 and clears it. -/
theorem move_down_beforeLineExample :
    move_down 64 2 1 beforeLineExample = some afterLineExample :=
  move_down_lock_pieceAt stackGrid4 lineLockedGrid lineClearedGrid Block.I 0 31 13 2 1
    (by decide) (by decide) rfl eliminate_lines_lineLockedGrid (by decide)

theorem afterLineExample_reachable : Reachable afterLineExample :=
  Reachable.down 64 2 1 beforeLineExample_reachable move_down_beforeLineExample
/-! ### The checked embedding agrees with the one used above -/

theorem data_get_nat (g : Grid) (r c : Nat) (hr : r < TETRIS_ALL_HEIGHT) (hc : c < TETRIS_WIDTH) :
    data_get g (r : Int) (c : Int) = some (g.cell r c) := by
  unfold data_get
  rw [if_pos ⟨by omega, by exact_mod_cast hr, by omega, by exact_mod_cast hc⟩]
  simp

theorem data_set_nat (g : Grid) (r c : Nat) (b : Block) (hr : r < TETRIS_ALL_HEIGHT)
    (hc : c < TETRIS_WIDTH) :
    data_set g (r : Int) (c : Int) b = some (setCell g r c b) := by
  unfold data_set
  rw [if_pos ⟨by omega, by exact_mod_cast hr, by omega, by exact_mod_cast hc⟩]
  simp

theorem checked_check_line_loop_cons (condition : Block → Bool) (g : Grid) (row c : Nat)
    (cs : List Nat) :
    Checked.check_line_loop condition g row (c :: cs) =
      match data_get g (row : Int) (c : Int) with
      | none => none
      | some block =>
        if !condition block then some false
        else Checked.check_line_loop condition g row cs := rfl

theorem checked_search_loop_cons (g : Grid) (r : Nat) (rs : List Nat) (b : Nat) :
    Checked.search_loop g (r :: rs) b =
      match Checked.check_row_is_empty g r with
      | none => none
      | some true => Checked.search_loop g rs r
      | some false => Checked.search_loop g rs b := rfl

theorem checked_copy_loop_cons (rr c : Nat) (cs : List Nat) (g : Grid) :
    Checked.copy_loop rr (c :: cs) g =
      match data_get g (rr : Int) (c : Int) with
      | none => none
      | some block =>
        match data_set g ((rr + 1 : Nat) : Int) (c : Int) block with
        | none => none
        | some g' => Checked.copy_loop rr cs g' := rfl

theorem checked_scroll_loop_cons (rr : Nat) (rrs : List Nat) (g : Grid) :
    Checked.scroll_loop (rr :: rrs) g =
      match Checked.copy_loop rr (List.range TETRIS_WIDTH) g with
      | none => none
      | some g' => Checked.scroll_loop rrs g' := rfl

theorem checked_eliminate_loop_zero (b r : Nat) (g : Grid) :
    Checked.eliminate_loop b 0 r g = if r > b then none else some g := rfl

theorem checked_eliminate_loop_succ (b fuel r : Nat) (g : Grid) :
    Checked.eliminate_loop b (fuel + 1) r g =
      if r > b then
        match Checked.check_row_is_full g r with
        | none => none
        | some true =>
          match Checked.scroll_loop ((List.range' b (r - b)).reverse) g with
          | none => none
          | some g' => Checked.eliminate_loop b fuel r g'
        | some false => Checked.eliminate_loop b fuel (r - 1) g
      else some g := rfl

theorem checked_line_loop_eq (condition : Block → Bool) (g : Grid) (row : Nat)
    (hr : row < TETRIS_ALL_HEIGHT) :
    ∀ cs : List Nat, (∀ c ∈ cs, c < TETRIS_WIDTH) →
      Checked.check_line_loop condition g row cs
        = some (cs.all (fun c => condition (g.cell row c))) := by
  intro cs
  induction cs with
  | nil => intro _; rfl
  | cons c cs ih =>
    intro hcs
    rw [checked_check_line_loop_cons, data_get_nat g row c hr (hcs c (List.mem_cons_self _ _))]
    simp only [List.all_cons]
    cases hcond : condition (g.cell row c) with
    | false => simp
    | true =>
      simp only [Bool.not_true, Bool.false_eq_true, if_false, Bool.true_and]
      exact ih (fun c' hc' => hcs c' (List.mem_cons_of_mem _ hc'))

theorem checked_check_row_is_full_eq (g : Grid) (row : Nat) (hr : row < TETRIS_ALL_HEIGHT) :
    Checked.check_row_is_full g row = some (check_row_is_full g row) :=
  checked_line_loop_eq _ g row hr _ (fun _ hc => List.mem_range.mp hc)

theorem checked_check_row_is_empty_eq (g : Grid) (row : Nat) (hr : row < TETRIS_ALL_HEIGHT) :
    Checked.check_row_is_empty g row = some (check_row_is_empty g row) :=
  checked_line_loop_eq _ g row hr _ (fun _ hc => List.mem_range.mp hc)

theorem checked_search_loop_eq (g : Grid) :
    ∀ (rs : List Nat) (b : Nat), (∀ r ∈ rs, r < TETRIS_ALL_HEIGHT) →
      Checked.search_loop g rs b
        = some (rs.foldl (fun b r => if check_row_is_empty g r then r else b) b) := by
  intro rs
  induction rs with
  | nil => intro b _; rfl
  | cons r rs ih =>
    intro b hrs
    rw [checked_search_loop_cons, checked_check_row_is_empty_eq g r (hrs r (List.mem_cons_self _ _))]
    have hrs' : ∀ r' ∈ rs, r' < TETRIS_ALL_HEIGHT :=
      fun r' hr' => hrs r' (List.mem_cons_of_mem _ hr')
    cases he : check_row_is_empty g r with
    | true => simp only [List.foldl_cons, he, if_true]; exact ih r hrs'
    | false =>
      simp only [List.foldl_cons, he, Bool.false_eq_true, if_false]
      exact ih b hrs'

theorem checked_find_the_bottom_empty_line_eq (g : Grid) :
    Checked.find_the_bottom_empty_line g = some (find_the_bottom_empty_line g) := by
  unfold Checked.find_the_bottom_empty_line find_the_bottom_empty_line
  simp only []
  rw [checked_check_row_is_empty_eq g _ (by decide)]
  cases he : check_row_is_empty g (TETRIS_ALL_HEIGHT / 2) with
  | true =>
    simp only [if_true]
    apply checked_search_loop_eq
    intro r hr
    rw [List.mem_range'_1] at hr
    simp only [TETRIS_ALL_HEIGHT, TETRIS_HEIGHT, TETRIS_EXTRA_HEIGHT] at hr ⊢
    omega
  | false =>
    simp only [Bool.false_eq_true, if_false]
    apply checked_search_loop_eq
    intro r hr
    rw [List.mem_reverse, List.mem_range'_1] at hr
    simp only [TETRIS_ALL_HEIGHT, TETRIS_HEIGHT, TETRIS_EXTRA_HEIGHT] at hr ⊢
    omega

theorem checked_copy_loop_eq (rr : Nat) (hrr : rr + 1 < TETRIS_ALL_HEIGHT) :
    ∀ (cs : List Nat) (g : Grid), (∀ c ∈ cs, c < TETRIS_WIDTH) →
      Checked.copy_loop rr cs g
        = some (cs.foldl (fun g c => setCell g (rr + 1) c (g.cell rr c)) g) := by
  intro cs
  induction cs with
  | nil => intro g _; rfl
  | cons c cs ih =>
    intro g hcs
    have hc := hcs c (List.mem_cons_self _ _)
    rw [checked_copy_loop_cons, data_get_nat g rr c (by omega) hc]
    simp only []
    rw [data_set_nat g (rr + 1) c _ hrr hc]
    simp only [List.foldl_cons]
    exact ih _ (fun c' hc' => hcs c' (List.mem_cons_of_mem _ hc'))

theorem checked_scroll_loop_eq :
    ∀ (rrs : List Nat) (g : Grid), (∀ rr ∈ rrs, rr + 1 < TETRIS_ALL_HEIGHT) →
      Checked.scroll_loop rrs g
        = some (rrs.foldl (fun g rr => copy_row_to_row g rr (rr + 1)) g) := by
  intro rrs
  induction rrs with
  | nil => intro g _; rfl
  | cons rr rrs ih =>
    intro g hrrs
    rw [checked_scroll_loop_cons, checked_copy_loop_eq rr (hrrs rr (List.mem_cons_self _ _)) _ g
      (fun _ hc => List.mem_range.mp hc)]
    simp only [List.foldl_cons]
    exact ih _ (fun rr' hrr' => hrrs rr' (List.mem_cons_of_mem _ hrr'))

theorem checked_eliminate_loop_eq (b : Nat) :
    ∀ (fuel r : Nat) (g : Grid), r < TETRIS_ALL_HEIGHT →
      Checked.eliminate_loop b fuel r g = eliminate_loop b fuel r g := by
  intro fuel
  induction fuel with
  | zero =>
    intro r g _
    rw [checked_eliminate_loop_zero]
    by_cases hrb : r > b
    · rw [if_pos hrb, eliminate_loop_zero b r g hrb]
    · rw [if_neg hrb, eliminate_loop_done b 0 r g (by omega)]
  | succ n ih =>
    intro r g hr
    rw [checked_eliminate_loop_succ, eliminate_loop]
    by_cases hrb : r > b
    · rw [if_pos hrb, if_pos hrb]
      rw [checked_check_row_is_full_eq g r hr]
      cases hf : check_row_is_full g r with
      | true =>
        simp only [if_true]
        rw [checked_scroll_loop_eq _ g (by
          intro rr hrr
          rw [List.mem_reverse, List.mem_range'_1] at hrr
          omega)]
        simp only []
        exact ih r _ hr
      | false =>
        simp only [Bool.false_eq_true, if_false]
        exact ih (r - 1) g (by omega)
    · rw [if_neg hrb, if_neg hrb]

theorem checked_eliminate_lines_eq (fuel : Nat) (g : Grid) :
    Checked.eliminate_lines fuel g = eliminate_lines fuel g := by
  unfold Checked.eliminate_lines eliminate_lines
  rw [checked_find_the_bottom_empty_line_eq]
  exact checked_eliminate_loop_eq _ fuel _ g (by decide)

theorem checked_move_down_eq (fuel rand1 rand2 : Nat) (context : TetrisContext) :
    Checked.move_down fuel rand1 rand2 context = move_down fuel rand1 rand2 context := by
  unfold Checked.move_down move_down
  simp only []
  cases check_down_collision (withRow context (context.currentBlockPos.row + 1)) with
  | none => rfl
  | some b =>
    cases b with
    | false => rfl
    | true =>
      simp only []
      cases save_current_block (withRow (withRow context (context.currentBlockPos.row + 1))
          ((withRow context (context.currentBlockPos.row + 1)).currentBlockPos.row - 1)) with
      | none => rfl
      | some saved =>
        simp only []
        rw [checked_eliminate_lines_eq]
        cases eliminate_lines fuel saved.data with
        | none => rfl
        | some g =>
          simp only []
          rw [checked_check_row_is_empty_eq g _ (by decide)]
/-! ### Invariants of the stack: no full row, no gap, indices in bounds -/

/-- C21. In every state reached from a reset by a finite sequence of
`move_left`, `move_right`, `rotate` and `move_down` (any draws at each spawn) in
which `gameOver` is false, no row of the grid is full: `check_row_is_full` is
false on each of the rows `0 .. 31`.  In particular this holds of the state
returned by a call of `move_down` on a reachable state when the flag is false
afterwards, so the rows completed by a lock are cleared within that call. -/
theorem reachable_no_full_row (s : TetrisContext) (hreach : Reachable s)
    (hflag : s.gameOver = false) :
    noFullRow s.data ∧
    (∀ r, r < TETRIS_ALL_HEIGHT → check_row_is_full s.data r = false) ∧
    (∀ fuel rand1 rand2 s', move_down fuel rand1 rand2 s = some s' → s'.gameOver = false →
      ∀ r, r < TETRIS_ALL_HEIGHT → check_row_is_full s'.data r = false) := by
  refine ⟨(reachable_stack_invariant hreach hflag).2.2.2, ?_, ?_⟩
  · intro r hr
    exact not_full_of_empty_cell s.data r ((reachable_stack_invariant hreach hflag).2.2.2 r hr)
  · intro fuel rand1 rand2 s' hmove hflag' r hr
    exact not_full_of_empty_cell s'.data r
      ((reachable_stack_invariant (Reachable.down fuel rand1 rand2 hreach hmove) hflag').2.2.2
        r hr)

set_option maxRecDepth 100000 in
theorem reachable_no_full_row_witness :
    lockedGrid beforeLineExample = some lineLockedGrid ∧
    check_row_is_full lineLockedGrid 31 = true ∧
    move_down 64 2 1 beforeLineExample = some afterLineExample ∧
    (∀ r, r < TETRIS_ALL_HEIGHT → check_row_is_full afterLineExample.data r = false) ∧
    afterLineExample.data.cell 31 0 = Block.O ∧
    (noFullRow beforeLineExample.data ∧
      (∀ r, r < TETRIS_ALL_HEIGHT → check_row_is_full beforeLineExample.data r = false) ∧
      (∀ fuel rand1 rand2 s', move_down fuel rand1 rand2 beforeLineExample = some s' →
        s'.gameOver = false →
        ∀ r, r < TETRIS_ALL_HEIGHT → check_row_is_full s'.data r = false)) :=
  ⟨rfl, by decide, move_down_beforeLineExample,
    (reachable_no_full_row beforeLineExample beforeLineExample_reachable rfl).2.2 64 2 1
      afterLineExample move_down_beforeLineExample rfl,
    by decide,
    reachable_no_full_row beforeLineExample beforeLineExample_reachable rfl⟩

/-- C23. In every state reached from a reset by a finite sequence of
`move_left`, `move_right`, `rotate` and `move_down` (any draws at each spawn) in
which `gameOver` is false, there is a `k` with `5 ≤ k ≤ 32` such that rows
`0 .. k - 1` of the grid are entirely Empty and each of the rows `k .. 31` has a
non-Empty cell; hence no entirely Empty row lies below a row with a non-Empty
cell. -/
theorem reachable_stack_settled (s : TetrisContext) (hreach : Reachable s)
    (hflag : s.gameOver = false) :
    (∃ k, 5 ≤ k ∧ k ≤ TETRIS_ALL_HEIGHT ∧
      (∀ r, r < k → ∀ c, c < TETRIS_WIDTH → s.data.cell r c = Block.Empty) ∧
      (∀ r, k ≤ r → r < TETRIS_ALL_HEIGHT →
        ∃ c, c < TETRIS_WIDTH ∧ s.data.cell r c ≠ Block.Empty)) ∧
    (∀ r r', r < r' → r' < TETRIS_ALL_HEIGHT → check_row_is_empty s.data r = false →
      check_row_is_empty s.data r' = false) := by
  obtain ⟨k, hk5, hk32, hE, hN⟩ := (reachable_stack_invariant hreach hflag).2.2.1
  refine ⟨⟨k, hk5, hk32, hE, hN⟩, ?_⟩
  intro r r' hlt hr' hne
  have hkr : k ≤ r := by
    by_contra hlt'
    rw [(check_row_is_empty_iff s.data r).mpr (hE r (by omega))] at hne
    cases hne
  have := (row_not_empty_iff s.data r').mpr (hN r' (by omega) hr')
  simpa using this

set_option maxRecDepth 100000 in
theorem reachable_stack_settled_witness :
    (beforeLineExample.gameOver = false ∧
      (∀ c, c < TETRIS_WIDTH → beforeLineExample.data.cell 29 c = Block.Empty) ∧
      beforeLineExample.data.cell 30 0 = Block.O ∧
      beforeLineExample.data.cell 31 4 = Block.I ∧
      (∃ k, 5 ≤ k ∧ k ≤ TETRIS_ALL_HEIGHT ∧
        (∀ r, r < k → ∀ c, c < TETRIS_WIDTH → beforeLineExample.data.cell r c = Block.Empty) ∧
        (∀ r, k ≤ r → r < TETRIS_ALL_HEIGHT →
          ∃ c, c < TETRIS_WIDTH ∧ beforeLineExample.data.cell r c ≠ Block.Empty)) ∧
      (∀ r r', r < r' → r' < TETRIS_ALL_HEIGHT →
        check_row_is_empty beforeLineExample.data r = false →
        check_row_is_empty beforeLineExample.data r' = false)) ∧
    (afterLineExample.gameOver = false ∧
      (∀ c, c < TETRIS_WIDTH → afterLineExample.data.cell 30 c = Block.Empty) ∧
      afterLineExample.data.cell 31 0 = Block.O ∧
      (∃ k, 5 ≤ k ∧ k ≤ TETRIS_ALL_HEIGHT ∧
        (∀ r, r < k → ∀ c, c < TETRIS_WIDTH → afterLineExample.data.cell r c = Block.Empty) ∧
        (∀ r, k ≤ r → r < TETRIS_ALL_HEIGHT →
          ∃ c, c < TETRIS_WIDTH ∧ afterLineExample.data.cell r c ≠ Block.Empty)) ∧
      (∀ r r', r < r' → r' < TETRIS_ALL_HEIGHT →
        check_row_is_empty afterLineExample.data r = false →
        check_row_is_empty afterLineExample.data r' = false)) :=
  ⟨⟨rfl, by decide, by decide, by decide,
      reachable_stack_settled beforeLineExample beforeLineExample_reachable rfl⟩,
    ⟨rfl, by decide, by decide,
      reachable_stack_settled afterLineExample afterLineExample_reachable rfl⟩⟩

/-- C24. In every state reached from a reset in which `gameOver` is false, the
anchor row is at least 2 and no call of `move_left`, `move_right`, `rotate` or
`move_down` indexes the grid outside `[0, 32) x [0, 16)`.  Every read and write
of the embedding goes through `data_get` and `data_set`, which give no result
outside the array: the four collision checks on the shifted or turned piece
return, `save_current_block` returns when the piece locks, and so do, with
every access checked, `find_the_bottom_empty_line` (with a boundary row in
`[4, 32)`), `eliminate_lines` (fuel at least 64) and the test of row 4; the
four calls return, `move_down` with all its accesses checked, with the result
of the `move_down` used elsewhere.  The cells probed by `rotate` have a
non-negative row. -/
theorem reachable_indexing_in_bounds (s : TetrisContext) (hreach : Reachable s)
    (hflag : s.gameOver = false) (fuel rand1 rand2 : Nat)
    (hfuel : 2 * TETRIS_ALL_HEIGHT ≤ fuel) :
    2 ≤ s.currentBlockPos.row ∧
    (∃ b, check_left_collision (withCol s (s.currentBlockPos.col - 1)) = some b) ∧
    (∃ b, check_right_collision (withCol s (s.currentBlockPos.col + 1)) = some b) ∧
    (∃ b, check_left_right_down_collision
      { s with currentBlockRotateTimes := Int.tmod (s.currentBlockRotateTimes + 1) 4 }
        = some b) ∧
    (∃ b, check_down_collision (withRow s (s.currentBlockPos.row + 1)) = some b) ∧
    (locksPiece s = true →
      ∃ saved bottomEmptyLine g isEmpty, save_current_block s = some saved ∧
        Checked.find_the_bottom_empty_line saved.data = some bottomEmptyLine ∧
        TETRIS_EXTRA_HEIGHT ≤ bottomEmptyLine ∧ bottomEmptyLine < TETRIS_ALL_HEIGHT ∧
        Checked.eliminate_lines fuel saved.data = some g ∧
        eliminate_lines fuel saved.data = some g ∧
        Checked.check_row_is_empty g TETRIS_EXTRA_HEIGHT = some isEmpty) ∧
    (∀ shape, shapeOf s.currentBlock (Int.tmod (s.currentBlockRotateTimes + 1) 4) = some shape →
      ∀ p ∈ shape, 0 ≤ s.currentBlockPos.row + p.row) ∧
    (∃ s', move_left s = some s') ∧ (∃ s', move_right s = some s') ∧
    (∃ s', rotate s = some s') ∧
    (∃ s', Checked.move_down fuel rand1 rand2 s = some s' ∧
      move_down fuel rand1 rand2 s = some s') := by
  obtain ⟨hok, hrow, ⟨k, hk5, hk32, hset⟩, hnf⟩ := reachable_stack_invariant hreach hflag
  have hleft := move_left_eq s hok
  have hright := move_right_eq s hok
  have hturn := rotate_eq s hok hrow
  have hcheck := check_down_collision_eq s hok
  refine ⟨hrow, ?_, ?_, ?_, ⟨_, hcheck⟩, ?_, ?_, ⟨_, hleft⟩, ⟨_, hright⟩, ⟨_, hturn⟩, ?_⟩
  · unfold move_left at hleft
    cases hc : check_left_collision (withCol s (s.currentBlockPos.col - 1)) with
    | none => simp [hc] at hleft
    | some b => exact ⟨b, rfl⟩
  · unfold move_right at hright
    cases hc : check_right_collision (withCol s (s.currentBlockPos.col + 1)) with
    | none => simp [hc] at hright
    | some b => exact ⟨b, rfl⟩
  · unfold rotate at hturn
    cases hc : check_left_right_down_collision
        { s with currentBlockRotateTimes := Int.tmod (s.currentBlockRotateTimes + 1) 4 } with
    | none => simp [hc] at hturn
    | some b => exact ⟨b, rfl⟩
  · intro hl
    have hb : downBlocked s = true := by
      rw [← locksPiece_eq_downBlocked s hok]; exact hl
    obtain ⟨locked, g', _, hsave, helim⟩ :=
      eliminate_lines_after_lock s k fuel hok hb hk5 hk32 hset hnf hfuel
    refine ⟨_, find_the_bottom_empty_line locked, g', check_row_is_empty g' TETRIS_EXTRA_HEIGHT,
      hsave, checked_find_the_bottom_empty_line_eq locked,
      (find_the_bottom_empty_line_bounds locked).1,
      (find_the_bottom_empty_line_bounds locked).2, ?_, helim,
      checked_check_row_is_empty_eq g' _ (by decide)⟩
    rw [checked_eliminate_lines_eq]
    exact helim
  · intro shape hs p hp
    have := (shapeOf_offsets hs p hp).1
    omega
  · rw [checked_move_down_eq]
    cases hb : downBlocked s with
    | false =>
      have hfree : downFree s = true := by
        have := downBlocked_eq_not_downFree s hok
        rw [hb] at this
        cases hf : downFree s with
        | true => rfl
        | false => rw [hf] at this; cases this
      exact ⟨_, move_down_unblocked s fuel rand1 rand2 hok hfree,
        move_down_unblocked s fuel rand1 rand2 hok hfree⟩
    | true =>
      obtain ⟨locked, g', _, hsave, helim⟩ :=
        eliminate_lines_after_lock s k fuel hok hb hk5 hk32 hset hnf hfuel
      have hl : locksPiece s = true := by
        rw [locksPiece_eq_downBlocked s hok]; exact hb
      rw [move_down_lock_eq fuel rand1 rand2 s hl, hsave]
      simp only [Option.some_bind, helim, Option.map_some']
      exact ⟨_, rfl, rfl⟩

set_option maxRecDepth 100000 in
theorem reachable_indexing_in_bounds_witness :
    locksPiece beforeLineExample = true ∧
    check_row_is_full lineLockedGrid 31 = true ∧
    (∃ saved bottomEmptyLine g isEmpty, save_current_block beforeLineExample = some saved ∧
      Checked.find_the_bottom_empty_line saved.data = some bottomEmptyLine ∧
      TETRIS_EXTRA_HEIGHT ≤ bottomEmptyLine ∧ bottomEmptyLine < TETRIS_ALL_HEIGHT ∧
      Checked.eliminate_lines 64 saved.data = some g ∧
      eliminate_lines 64 saved.data = some g ∧
      Checked.check_row_is_empty g TETRIS_EXTRA_HEIGHT = some isEmpty) ∧
    (2 ≤ beforeLineExample.currentBlockPos.row ∧
      (∃ b, check_left_collision
        (withCol beforeLineExample (beforeLineExample.currentBlockPos.col - 1)) = some b) ∧
      (∃ b, check_right_collision
        (withCol beforeLineExample (beforeLineExample.currentBlockPos.col + 1)) = some b) ∧
      (∃ b, check_left_right_down_collision
        { beforeLineExample with
          currentBlockRotateTimes :=
            Int.tmod (beforeLineExample.currentBlockRotateTimes + 1) 4 } = some b) ∧
      (∃ b, check_down_collision
        (withRow beforeLineExample (beforeLineExample.currentBlockPos.row + 1)) = some b) ∧
      (locksPiece beforeLineExample = true →
        ∃ saved bottomEmptyLine g isEmpty, save_current_block beforeLineExample = some saved ∧
          Checked.find_the_bottom_empty_line saved.data = some bottomEmptyLine ∧
          TETRIS_EXTRA_HEIGHT ≤ bottomEmptyLine ∧ bottomEmptyLine < TETRIS_ALL_HEIGHT ∧
          Checked.eliminate_lines 64 saved.data = some g ∧
          eliminate_lines 64 saved.data = some g ∧
          Checked.check_row_is_empty g TETRIS_EXTRA_HEIGHT = some isEmpty) ∧
      (∀ shape,
        shapeOf beforeLineExample.currentBlock
          (Int.tmod (beforeLineExample.currentBlockRotateTimes + 1) 4) = some shape →
        ∀ p ∈ shape, 0 ≤ beforeLineExample.currentBlockPos.row + p.row) ∧
      (∃ s', move_left beforeLineExample = some s') ∧
      (∃ s', move_right beforeLineExample = some s') ∧
      (∃ s', rotate beforeLineExample = some s') ∧
      (∃ s', Checked.move_down 64 2 1 beforeLineExample = some s' ∧
        move_down 64 2 1 beforeLineExample = some s')) :=
  ⟨by decide, by decide,
    (reachable_indexing_in_bounds beforeLineExample beforeLineExample_reachable rfl 64 2 1
      (by decide)).2.2.2.2.2.1 (by decide),
    reachable_indexing_in_bounds beforeLineExample beforeLineExample_reachable rfl 64 2 1
      (by decide)⟩
end Tetris
